import Mathlib

/-!
ThermoForge: heat perception component and climate classifier.

A shallow embedding of `ThermoForgeHeatFXComponent.cpp` and
`PCGThermal_SampleClimate.cpp`.

Conventions of the embedding:

* `float` and `double` values are rationals (`ℚ`).  Where the source stores the
  result of an operation in a `float` that it then compares, the result is
  rounded with `ToFloat` (binary32, round to nearest, ties to even, gradual
  underflow; the exponent is not bounded above, so no value becomes infinite):
  the squared distance `Ds`, the distances `Dist`, the difference inside
  `FMath::IsNearlyEqual` and `DeltaC`.  The quotient `1.f / Dist`, the angle and
  the temperature difference of the probe and the values handed to the export
  keep their exact value.  `float` literals have the exact value of the
  `float` they denote; `TNumericLimits<float>::Max()` keeps its exact value.
* `int32` addition wraps (`WrapInt32`).
* Engine mathematics that is not rational (`FMath::Sqrt`, `FMath::InvSqrt`,
  `FMath::Cos`, `FMath::Sin`, the constant `PI`) is a parameter, the record
  `FMath`; a theorem holds for every implementation of it, and where it needs
  a fact of the engine's square root (monotone, exact at 0, at 1 or at a
  perfect square) it names that fact as a hypothesis.
* The engine objects a method reaches through `GetWorld()` and `GetOwner()` are
  gathered in a `Host` record that is passed explicitly.
* Observable side effects (field queries, broadcasts, custom primitive data
  writes) are returned as a list of `Effect`s in program order.
-/

namespace ThermoForge

/-! ## Engine vocabulary -/

/-- Engine vector `FVector`. -/
structure FVector where
  X : ℚ
  Y : ℚ
  Z : ℚ
deriving DecidableEq, Repr

/-- Engine vector `FVector4`. -/
structure FVector4 where
  X : ℚ
  Y : ℚ
  Z : ℚ
  W : ℚ
deriving DecidableEq, Repr

/-- Engine mathematics that has no rational closed form. -/
structure FMath where
  Sqrt : ℚ → ℚ
  InvSqrt : ℚ → ℚ
  Cos : ℚ → ℚ
  Sin : ℚ → ℚ
  PI : ℚ

/-- Engine `FMath::Max(A, B)`. -/
def FMath.Max (A B : ℚ) : ℚ := if B < A then A else B

/-- Engine `FMath::Clamp(X, Min, Max)` on `int32`. -/
def FMath.Clamp (X Min Max : Int) : Int :=
  if X < Min then Min else if X < Max then X else Max

/-- The integer nearest to `q`, the even one of the two when `q` lies halfway. -/
def RoundTiesEven (q : ℚ) : ℤ :=
  if q - ⌊q⌋ < 1 / 2 then ⌊q⌋
  else if 1 / 2 < q - ⌊q⌋ then ⌊q⌋ + 1
  else if ⌊q⌋ % 2 = 0 then ⌊q⌋ else ⌊q⌋ + 1

/-- The binary exponent of `x` as a `float`: that of its magnitude, and `-126`
for the subnormal range. -/
def FloatExponent (x : ℚ) : ℤ := max (Int.log 2 |x|) (-126)

/-- The spacing of the `float`s around `x`: 24 significant bits. -/
def FloatUlp (x : ℚ) : ℚ := (2 : ℚ) ^ (FloatExponent x - 23)

/-- The value a `float` variable holds after `x` is stored in it: the nearest
multiple of the spacing, ties to the even significand. -/
def ToFloat (x : ℚ) : ℚ := (RoundTiesEven (x / FloatUlp x) : ℚ) * FloatUlp x

/-- The value an `int32` holds after the integer `x` is stored in it: two's
complement wrap-around. -/
def WrapInt32 (x : Int) : Int := (x + 2 ^ 31) % 2 ^ 32 - 2 ^ 31

/-- Engine `FMath::IsNearlyEqual(A, B, ErrorTolerance)` on `float`:
`Abs(A - B) <= ErrorTolerance`, the difference being a `float`. -/
def FMath.IsNearlyEqual (A B ErrorTolerance : ℚ) : Bool :=
  decide (|ToFloat (A - B)| ≤ ErrorTolerance)

/-- Engine `TNumericLimits<float>::Max()`, the largest finite `float`. -/
def FLT_MAX : ℚ := (2 ^ 24 - 1) * 2 ^ 104

/-- Engine `FVector::ZeroVector`. -/
def FVector.ZeroVector : FVector := ⟨0, 0, 0⟩

/-- The `operator-` of `FVector`. -/
def FVector.sub (A B : FVector) : FVector := ⟨A.X - B.X, A.Y - B.Y, A.Z - B.Z⟩

/-- The `operator+` of `FVector`. -/
def FVector.add (A B : FVector) : FVector := ⟨A.X + B.X, A.Y + B.Y, A.Z + B.Z⟩

/-- The `operator*` of `FVector` with a scalar. -/
def FVector.scale (A : FVector) (S : ℚ) : FVector := ⟨A.X * S, A.Y * S, A.Z * S⟩

/-- Engine `FVector::DistSquared(V1, V2)`. -/
def FVector.DistSquared (V1 V2 : FVector) : ℚ :=
  (V2.X - V1.X) ^ 2 + (V2.Y - V1.Y) ^ 2 + (V2.Z - V1.Z) ^ 2

/-- Engine `FVector::Distance(V1, V2)`. -/
def FVector.Distance (M : FMath) (V1 V2 : FVector) : ℚ :=
  M.Sqrt (FVector.DistSquared V1 V2)

/-- Engine `FVector::Equals(V, Tolerance)`. -/
def FVector.Equals (A V : FVector) (Tolerance : ℚ) : Bool :=
  decide (|A.X - V.X| ≤ Tolerance) && decide (|A.Y - V.Y| ≤ Tolerance)
    && decide (|A.Z - V.Z| ≤ Tolerance)

/-- Engine `UE_SMALL_NUMBER`, the `float` literal `1.e-8f`. -/
def UE_SMALL_NUMBER : ℚ := 11258999 / 1125899906842624

/-- Engine `FVector::GetSafeNormal()` with the engine defaults
(`Tolerance = UE_SMALL_NUMBER`, `ResultIfZero = ZeroVector`). -/
def FVector.GetSafeNormal (M : FMath) (V : FVector) : FVector :=
  let SquareSum := V.X * V.X + V.Y * V.Y + V.Z * V.Z
  if SquareSum = 1 then V
  else if SquareSum < UE_SMALL_NUMBER then FVector.ZeroVector
  else
    let Scale := M.InvSqrt SquareSum
    ⟨V.X * Scale, V.Y * Scale, V.Z * Scale⟩

/-- Class of an actor component, as far as the casts of the source tell them apart. -/
inductive EComponentClass where
  | Primitive
  | ThermoForgeSource
  | Other
deriving DecidableEq, Repr

/-- Engine `UActorComponent`: an identity and its class. -/
structure UActorComponent where
  Id : Nat
  Class : EComponentClass
deriving DecidableEq, Repr

/-- Engine `AActor`: `GetActorLocation()` and the owned components, in the
order `FindComponentByClass` searches them. -/
structure AActor where
  Location : FVector
  Components : List UActorComponent
deriving DecidableEq, Repr

/-- Engine `Actor->FindComponentByClass<T>()`: the first component of class `C`. -/
def AActor.FindComponentByClass (A : AActor) (C : EComponentClass) : Option UActorComponent :=
  A.Components.find? (fun K => decide (K.Class = C))

/-- Engine `Cast<UPrimitiveComponent>(Comp)`. -/
def CastPrimitive (Comp : UActorComponent) : Option UActorComponent :=
  if Comp.Class = EComponentClass.Primitive then some Comp else none

/-- The enumeration `EThermoClimateType`; `Other` stands for every value outside the six named ones. -/
inductive EThermoClimateType where
  | Arctic
  | Cold
  | Temperate
  | Warm
  | Tropical
  | Desert
  | Other (Code : Int)
deriving DecidableEq, Repr

/-- Engine `UThermoForgeSubsystem`, the two queries the sources call. -/
structure UThermoForgeSubsystem where
  ComputeCurrentTemperatureAt : FVector → Bool → ℚ → ℚ → ℚ
  GetClimateTypeAtPoint : FVector → EThermoClimateType

/-- Engine `UWorld`: the subsystem, when registered, and the actors in the
order `TActorIterator<AActor>` visits them. -/
structure UWorld where
  Subsystem : Option UThermoForgeSubsystem
  Actors : List AActor

/-- The enumeration `EThermoOriginMode`; `Other` stands for every value the `switch` of
`TickHeat` sends to `default`. -/
inductive EThermoOriginMode where
  | NearestSourceActor
  | HottestPoint
  | ColdestPoint
  | Other (Code : Nat)
deriving DecidableEq, Repr

/-- What a method reaches outside the component: `GetWorld()`, `GetOwner()`
and the resolution `OverridePrimitive.GetComponent(Owner)`. -/
structure Host where
  World : Option UWorld
  Owner : Option AActor
  OverridePrimitive : AActor → Option UActorComponent

/-- Observable side effects, in program order. -/
inductive Effect where
  | ComputeCurrentTemperatureAt (P : FVector) (bWinter : Bool) (TimeHours WeatherAlpha01 : ℚ)
  | OnHeatJump (NewTemp OldTemp DeltaC Strength : ℚ) (Dir : FVector) (Dist : ℚ) (Pos : FVector)
  | OnHeatUpdated (Temp Strength : ℚ) (Dir : FVector) (Dist : ℚ) (Pos : FVector)
      (Mode : EThermoOriginMode)
  | SetCustomPrimitiveDataFloat (Prim : UActorComponent) (Index : Int) (Value : ℚ)
deriving DecidableEq, Repr

/-! ## The component -/

/-- Source `TF_EPS_DIR = 1e-3f`: the `float` nearest to one thousandth. -/
def TF_EPS_DIR : ℚ := 8589935 / 8589934592
/-- Source `TF_EPS_TEMP = 1e-2f`: the `float` nearest to one hundredth. -/
def TF_EPS_TEMP : ℚ := 5368709 / 536870912
/-- Source `TF_EPS_DIST = 0.5f`. -/
def TF_EPS_DIST : ℚ := 1 / 2
/-- Source `TF_EPS_STR = 1e-3f`: the `float` nearest to one thousandth. -/
def TF_EPS_STR : ℚ := 8589935 / 8589934592

/-- Data members of `UThermoForgeHeatFXComponent` that the source file reads or writes. -/
structure UThermoForgeHeatFXComponent where
  -- configuration
  UpdateRateSec : ℚ
  OriginMode : EThermoOriginMode
  ProbeRadiusCm : ℚ
  ProbeSamples : Int
  ChangeThresholdC : ℚ
  bFireInitialEventOnBeginPlay : Bool
  bWriteCustomPrimitiveData : Bool
  CPDBaseIndex : Int
  ReferenceRadiusCm : ℚ
  -- published state
  TemperatureC : ℚ
  SourcePosWS : FVector
  HeatDirWS : FVector
  DistanceCm : ℚ
  HeatStrength : ℚ
  RuntimeOriginMode : EThermoOriginMode
  bHasOrigin : Bool
  -- cache of the last commit
  PrevTemperatureC : ℚ
  PrevSourcePosWS : FVector
  PrevHeatDirWS : FVector
  PrevDistanceCm : ℚ
  PrevStrength : ℚ
  bHadInitialFire : Bool
  -- export target
  TargetPrim : Option UActorComponent
deriving DecidableEq, Repr

/-- Source `ResolveOverridePrimitive`. -/
def ResolveOverridePrimitive (H : Host) : Option UActorComponent :=
  match H.Owner with
  | some Owner =>
    match H.OverridePrimitive Owner with
    | some Comp => CastPrimitive Comp
    | none => none
  | none => none

/-- Source `EnsureTargetPrimitive`. -/
def EnsureTargetPrimitive (H : Host) (S : UThermoForgeHeatFXComponent) :
    UThermoForgeHeatFXComponent :=
  match ResolveOverridePrimitive H with
  | some Prim => { S with TargetPrim := some Prim }
  | none =>
    match H.Owner with
    | some Owner =>
      match Owner.FindComponentByClass EComponentClass.Primitive with
      | some Found => { S with TargetPrim := some Found }
      | none => { S with TargetPrim := none }
    | none => { S with TargetPrim := none }

/-- Source `SampleTempAt`: the temperature and the field query it made, if any.
The weather argument is the `float` literal `0.3f`. -/
def SampleTempAt (H : Host) (P : FVector) : ℚ × List Effect :=
  match H.World with
  | some W =>
    match W.Subsystem with
    | some TF =>
      (TF.ComputeCurrentTemperatureAt P false 12 (5033165 / 16777216),
        [Effect.ComputeCurrentTemperatureAt P false 12 (5033165 / 16777216)])
    | none => (0, [])
  | none => (0, [])

/-- Locals of the scan loop of `ResolveOrigin_NearestSource`. -/
structure NearestScan where
  BestDistSq : ℚ
  BestPos : FVector
  bFound : Bool
deriving DecidableEq, Repr

/-- One iteration of the actor loop of `ResolveOrigin_NearestSource`. -/
def NearestScan.step (CenterWS : FVector) (St : NearestScan) (It : AActor) : NearestScan :=
  if (It.FindComponentByClass EComponentClass.ThermoForgeSource).isSome then
    let Pos := It.Location
    let Ds := ToFloat (FVector.DistSquared CenterWS Pos)
    if Ds < St.BestDistSq then
      { BestDistSq := Ds, BestPos := Pos, bFound := true }
    else St
  else St

/-- Source `ResolveOrigin_NearestSource` in the world `W` that `GetWorld()` returns.
The result is the returned flag and the two out-parameters, whose values on
entry are `OutOriginWS` and `OutStrength`. -/
def ResolveOrigin_NearestSource (M : FMath) (W : UWorld) (CenterWS : FVector)
    (OutOriginWS : FVector) (OutStrength : ℚ) : Bool × FVector × ℚ :=
  let St := W.Actors.foldl (NearestScan.step CenterWS)
    { BestDistSq := FLT_MAX, BestPos := FVector.ZeroVector, bFound := false }
  if St.bFound then
    let Dist := ToFloat (M.Sqrt St.BestDistSq)
    (true, St.BestPos, if Dist > TF_EPS_DIST then 1 / Dist else 1)
  else
    (false, OutOriginWS, OutStrength)

/-- Locals of the probe loop of `ResolveOrigin_Probe`, with the field queries made so far. -/
structure ProbeScan where
  BestTemp : ℚ
  BestPos : FVector
  Log : List Effect
deriving DecidableEq, Repr

/-- The point `P` that iteration `i` of the probe loop samples. -/
def ProbePoint (M : FMath) (CenterWS : FVector) (R : ℚ) (N : Int) (i : Nat) : FVector :=
  let Ang := (2 * M.PI) * ((i : ℚ) / (N : ℚ))
  let Offset := FVector.scale ⟨M.Cos Ang, M.Sin Ang, 0⟩ R
  CenterWS.add Offset

/-- One iteration of the probe loop of `ResolveOrigin_Probe`. -/
def ProbeScan.step (M : FMath) (H : Host) (CenterWS : FVector) (bFindHottest : Bool)
    (R : ℚ) (N : Int) (St : ProbeScan) (i : Nat) : ProbeScan :=
  let P := ProbePoint M CenterWS R N i
  let T := (SampleTempAt H P).1
  let Log := St.Log ++ (SampleTempAt H P).2
  if bFindHottest then
    if T > St.BestTemp then { BestTemp := T, BestPos := P, Log := Log }
    else { St with Log := Log }
  else
    if T < St.BestTemp then { BestTemp := T, BestPos := P, Log := Log }
    else { St with Log := Log }

/-- Source `ResolveOrigin_Probe`: the returned flag, the two out-parameters (whose
values on entry are `OutOriginWS` and `OutStrength`) and the field queries made. -/
def ResolveOrigin_Probe (M : FMath) (H : Host) (S : UThermoForgeHeatFXComponent)
    (CenterWS : FVector) (bFindHottest : Bool) (OutOriginWS : FVector) (OutStrength : ℚ) :
    (Bool × FVector × ℚ) × List Effect :=
  match H.World with
  | none => ((false, OutOriginWS, OutStrength), [])
  | some _ =>
    let R := FMath.Max S.ProbeRadiusCm 10
    let N := FMath.Clamp S.ProbeSamples 4 64
    let TCenter := (SampleTempAt H CenterWS).1
    let St := (List.range N.toNat).foldl (ProbeScan.step M H CenterWS bFindHottest R N)
      { BestTemp := TCenter, BestPos := CenterWS, Log := (SampleTempAt H CenterWS).2 }
    ((true, St.BestPos, |St.BestTemp - TCenter|), St.Log)

/-- Source `WriteCustomPrimitiveData`: the component afterwards and the slot writes. -/
def WriteCustomPrimitiveData (H : Host) (S : UThermoForgeHeatFXComponent) :
    UThermoForgeHeatFXComponent × List Effect :=
  if !S.bWriteCustomPrimitiveData then (S, [])
  else
    let S1 := EnsureTargetPrimitive H S
    match S1.TargetPrim with
    | none => (S1, [])
    | some Prim =>
      let I := S1.CPDBaseIndex
      (S1,
        [ Effect.SetCustomPrimitiveDataFloat Prim (WrapInt32 (I + 0)) S1.HeatDirWS.X,
          Effect.SetCustomPrimitiveDataFloat Prim (WrapInt32 (I + 1)) S1.HeatDirWS.Y,
          Effect.SetCustomPrimitiveDataFloat Prim (WrapInt32 (I + 2)) S1.HeatDirWS.Z,
          Effect.SetCustomPrimitiveDataFloat Prim (WrapInt32 (I + 3)) S1.TemperatureC,
          Effect.SetCustomPrimitiveDataFloat Prim (WrapInt32 (I + 4)) S1.SourcePosWS.X,
          Effect.SetCustomPrimitiveDataFloat Prim (WrapInt32 (I + 5)) S1.SourcePosWS.Y,
          Effect.SetCustomPrimitiveDataFloat Prim (WrapInt32 (I + 6)) S1.SourcePosWS.Z,
          Effect.SetCustomPrimitiveDataFloat Prim (WrapInt32 (I + 7)) S1.HeatStrength,
          Effect.SetCustomPrimitiveDataFloat Prim (WrapInt32 (I + 8)) S1.ReferenceRadiusCm ])

/-- Locals of `TickHeat` after steps 1 to 3, with the field queries made. -/
structure TickLocals where
  TNow : ℚ
  OriginWS : FVector
  Strength : ℚ
  bOriginOK : Bool
  UsedMode : EThermoOriginMode
  Dir : FVector
  Dist : ℚ
  Log : List Effect
deriving DecidableEq, Repr

/-- Step 2 of `TickHeat`: the `switch` on `OriginMode`, started from
`OriginWS = ZeroVector`, `Strength = 0`. -/
def TickHeat_ResolveOrigin (M : FMath) (H : Host) (W : UWorld) (Center : FVector)
    (S : UThermoForgeHeatFXComponent) : (Bool × FVector × ℚ) × List Effect :=
  match S.OriginMode with
  | EThermoOriginMode.NearestSourceActor =>
    (ResolveOrigin_NearestSource M W Center FVector.ZeroVector 0, [])
  | EThermoOriginMode.HottestPoint =>
    ResolveOrigin_Probe M H S Center true FVector.ZeroVector 0
  | EThermoOriginMode.ColdestPoint =>
    ResolveOrigin_Probe M H S Center false FVector.ZeroVector 0
  | EThermoOriginMode.Other _ => ((false, FVector.ZeroVector, 0), [])

/-- Steps 1 to 3 of `TickHeat`, with `W = GetWorld()` and `Owner = GetOwner()`. -/
def TickHeat_Evaluate (M : FMath) (H : Host) (W : UWorld) (Owner : AActor)
    (S : UThermoForgeHeatFXComponent) : TickLocals :=
  let Center := Owner.Location
  let TNow := (SampleTempAt H Center).1
  let Res := TickHeat_ResolveOrigin M H W Center S
  let bOriginOK := Res.1.1
  let OriginWS := Res.1.2.1
  let Strength := Res.1.2.2
  { TNow := TNow
    OriginWS := OriginWS
    Strength := Strength
    bOriginOK := bOriginOK
    UsedMode := S.OriginMode
    Dir := if bOriginOK then FVector.GetSafeNormal M (OriginWS.sub Center) else FVector.ZeroVector
    Dist := if bOriginOK then ToFloat (FVector.Distance M Center OriginWS) else 0
    Log := (SampleTempAt H Center).2 ++ Res.2 }

/-- The five comparison flags of step 4 of `TickHeat`; the tolerances written
in place are the `float` literals `1e-3f` and `0.5f`. -/
def TickHeat_bTempChanged (S : UThermoForgeHeatFXComponent) (L : TickLocals) : Bool :=
  !FMath.IsNearlyEqual L.TNow S.PrevTemperatureC TF_EPS_TEMP

def TickHeat_bDirChanged (S : UThermoForgeHeatFXComponent) (L : TickLocals) : Bool :=
  !L.Dir.Equals S.PrevHeatDirWS (8589935 / 8589934592)

def TickHeat_bPosChanged (S : UThermoForgeHeatFXComponent) (L : TickLocals) : Bool :=
  !L.OriginWS.Equals S.PrevSourcePosWS (1 / 2)

def TickHeat_bDistChanged (S : UThermoForgeHeatFXComponent) (L : TickLocals) : Bool :=
  !FMath.IsNearlyEqual L.Dist S.PrevDistanceCm TF_EPS_DIST

def TickHeat_bStrChanged (S : UThermoForgeHeatFXComponent) (L : TickLocals) : Bool :=
  !FMath.IsNearlyEqual L.Strength S.PrevStrength TF_EPS_STR

/-- Step 4 of `TickHeat`: `bAnyChanged`. -/
def TickHeat_bAnyChanged (S : UThermoForgeHeatFXComponent) (L : TickLocals) : Bool :=
  TickHeat_bTempChanged S L || TickHeat_bDirChanged S L || TickHeat_bPosChanged S L
    || TickHeat_bDistChanged S L || TickHeat_bStrChanged S L || !S.bHadInitialFire

/-- The published state after the seven assignments that open the
`if (bAnyChanged)` block. -/
def TickHeat_Publish (S : UThermoForgeHeatFXComponent) (L : TickLocals) :
    UThermoForgeHeatFXComponent :=
  { S with
    TemperatureC := L.TNow
    SourcePosWS := L.OriginWS
    HeatDirWS := L.Dir
    DistanceCm := L.Dist
    HeatStrength := L.Strength
    RuntimeOriginMode := L.UsedMode
    bHasOrigin := L.bOriginOK }

/-- The five `Prev*` assignments and `bHadInitialFire = true`. -/
def TickHeat_CachePrevious (S : UThermoForgeHeatFXComponent) (L : TickLocals) :
    UThermoForgeHeatFXComponent :=
  { S with
    PrevTemperatureC := L.TNow
    PrevSourcePosWS := L.OriginWS
    PrevHeatDirWS := L.Dir
    PrevDistanceCm := L.Dist
    PrevStrength := L.Strength
    bHadInitialFire := true }

/-- The "big jump" broadcast of the `if (bAnyChanged)` block; `S0` is the
component on entry (its `PrevTemperatureC` is not yet overwritten) and `S1`
the component after the seven assignments. -/
def TickHeat_Jump (S0 S1 : UThermoForgeHeatFXComponent) (L : TickLocals) : List Effect :=
  let DeltaC := ToFloat (L.TNow - S0.PrevTemperatureC)
  if |DeltaC| ≥ S0.ChangeThresholdC then
    [Effect.OnHeatJump L.TNow S0.PrevTemperatureC DeltaC S1.HeatStrength S1.HeatDirWS
      S1.DistanceCm S1.SourcePosWS]
  else []

/-- Step 5 of `TickHeat`: the body of `if (bAnyChanged)`. -/
def TickHeat_Commit (H : Host) (S : UThermoForgeHeatFXComponent) (L : TickLocals) :
    UThermoForgeHeatFXComponent × List Effect :=
  let S1 := TickHeat_Publish S L
  let Jump := TickHeat_Jump S S1 L
  let Updated := [Effect.OnHeatUpdated S1.TemperatureC S1.HeatStrength S1.HeatDirWS
    S1.DistanceCm S1.SourcePosWS S1.RuntimeOriginMode]
  let S2 := TickHeat_CachePrevious S1 L
  let Out := WriteCustomPrimitiveData H S2
  (Out.1, Jump ++ Updated ++ Out.2)

/-- The body of the closing `if (!bHadInitialFire && bFireInitialEventOnBeginPlay)`. -/
def TickHeat_InitialFire (H : Host) (S : UThermoForgeHeatFXComponent) (L : TickLocals) :
    UThermoForgeHeatFXComponent × List Effect :=
  let Updated := [Effect.OnHeatUpdated L.TNow L.Strength L.Dir L.Dist L.OriginWS L.UsedMode]
  let S1 := TickHeat_CachePrevious S L
  let Out := WriteCustomPrimitiveData H S1
  (Out.1, Updated ++ Out.2)

/-- Source `TickHeat`: the component afterwards and the effects raised, in order. -/
def TickHeat (M : FMath) (H : Host) (S : UThermoForgeHeatFXComponent) :
    UThermoForgeHeatFXComponent × List Effect :=
  match H.World, H.Owner with
  | some W, some Owner =>
    let L := TickHeat_Evaluate M H W Owner S
    let A := if TickHeat_bAnyChanged S L then TickHeat_Commit H S L else (S, [])
    let B := if !A.1.bHadInitialFire && A.1.bFireInitialEventOnBeginPlay then
        TickHeat_InitialFire H A.1 L
      else (A.1, [])
    (B.1, L.Log ++ A.2 ++ B.2)
  | _, _ => (S, [])

/-! ## Classification of effects -/

/-- The effect is a query of the temperature field. -/
def Effect.IsFieldQuery : Effect → Bool
  | Effect.ComputeCurrentTemperatureAt _ _ _ _ => true
  | _ => false

/-- The effect is the "updated" notification. -/
def Effect.IsUpdated : Effect → Bool
  | Effect.OnHeatUpdated _ _ _ _ _ _ => true
  | _ => false

/-- The effect is the "jump" notification. -/
def Effect.IsJump : Effect → Bool
  | Effect.OnHeatJump _ _ _ _ _ _ _ => true
  | _ => false

/-- The effect is a write of an export slot. -/
def Effect.IsExport : Effect → Bool
  | Effect.SetCustomPrimitiveDataFloat _ _ _ => true
  | _ => false

/-- A rational stand-in for the engine mathematics.  The square root rounds
down to a multiple of `2 ^ (-24)`: it is monotone and exact at the squares of
such multiples.  Cosine and sine are exact at the quarter turns. -/
def ExactMath : FMath where
  Sqrt := fun Q => (Nat.sqrt ⌊Q * 2 ^ 48⌋₊ : ℚ) / 2 ^ 24
  InvSqrt := fun Q => 2 ^ 24 / (Nat.sqrt ⌊Q * 2 ^ 48⌋₊ : ℚ)
  Cos := fun A => if A = 0 then 1 else if A = 2 * (355 / 113) * (2 / 4) then -1 else 0
  Sin := fun A =>
    if A = 2 * (355 / 113) * (1 / 4) then 1
    else if A = 2 * (355 / 113) * (3 / 4) then -1 else 0
  PI := 355 / 113

/-- Modelled from the spec: the declaration of the component
(`ThermoForgeHeatFXComponent.h`) is not among the sources; the spec creates the
published state and the cache "zeroed", with no commit recorded.  The
configuration is taken from `Cfg`. -/
def FreshInstance (Cfg : UThermoForgeHeatFXComponent) : UThermoForgeHeatFXComponent :=
  { Cfg with
    TemperatureC := 0
    SourcePosWS := FVector.ZeroVector
    HeatDirWS := FVector.ZeroVector
    DistanceCm := 0
    HeatStrength := 0
    bHasOrigin := false
    PrevTemperatureC := 0
    PrevSourcePosWS := FVector.ZeroVector
    PrevHeatDirWS := FVector.ZeroVector
    PrevDistanceCm := 0
    PrevStrength := 0
    bHadInitialFire := false
    TargetPrim := none }

/-! ## The climate classifier (`PCGThermal_SampleClimate.cpp`) -/

/-- Source `ClimateToDebugColor`. -/
def ClimateToDebugColor : EThermoClimateType → FVector4
  | EThermoClimateType.Arctic => ⟨0, 1 / 4, 1, 1⟩
  | EThermoClimateType.Cold => ⟨0, 3 / 4, 1, 1⟩
  | EThermoClimateType.Temperate => ⟨0, 1, 0, 1⟩
  | EThermoClimateType.Warm => ⟨1, 1, 0, 1⟩
  | EThermoClimateType.Tropical => ⟨1, 1 / 2, 0, 1⟩
  | EThermoClimateType.Desert => ⟨1, 0, 0, 1⟩
  | EThermoClimateType.Other _ => ⟨1, 1, 1, 1⟩

/-- Engine `PCGInvalidEntryKey`. -/
def PCGInvalidEntryKey : Int := -1

/-- Engine `FPCGPoint`: `Transform.GetLocation()`, `Color` and `MetadataEntry`. -/
structure FPCGPoint where
  Location : FVector
  Color : FVector4
  MetadataEntry : Int
deriving DecidableEq, Repr

/-- Engine `UPCGMetadata`: `AddEntry()` returns `NumEntries` and increments it;
`bClimateTypeAttribute` tells whether `FindOrCreateAttribute<int32>("ClimateType", 0)`
yields an attribute. -/
structure UPCGMetadata where
  NumEntries : Int
  bClimateTypeAttribute : Bool
deriving DecidableEq, Repr

/-- Engine `UPCGPointData`. -/
structure UPCGPointData where
  Points : List FPCGPoint
  Metadata : Option UPCGMetadata
deriving DecidableEq, Repr

/-- Engine `UPCGData`, as far as `Cast<UPCGPointData>` tells it apart. -/
inductive UPCGData where
  | PointData (D : UPCGPointData)
  | Other
deriving DecidableEq, Repr

/-- Engine `FPCGTaggedData`: the data and the pin it arrived on. -/
structure FPCGTaggedData where
  Data : UPCGData
  Pin : Nat
deriving DecidableEq, Repr

/-- Engine `FPCGContext`: the world of the execution source, the spatial
inputs and the tagged output data. -/
structure FPCGContext where
  World : Option UWorld
  SpatialInputs : List FPCGTaggedData
  OutputTaggedData : List FPCGTaggedData

/-- The log lines of `ExecuteInternal`. -/
inductive ESampleClimateLog where
  | NoValidWorld
  | SubsystemMissing
  | NoSpatialInput
  | InputIsNotPointData
  | MissingMetadata
  | FailedToCreateAttribute
deriving DecidableEq, Repr

/-- Observable effects of `ExecuteInternal`, in program order. -/
inductive PCGEffect where
  | Warning (Msg : ESampleClimateLog)
  | Error (Msg : ESampleClimateLog)
  | SetValue (Entry : Int) (Value : Int)
deriving DecidableEq, Repr

/-- Locals of the point loop of `ExecuteInternal`: the metadata, the points
already rewritten and the attribute writes made. -/
structure ClimateLoop where
  Metadata : UPCGMetadata
  Points : List FPCGPoint
  Log : List PCGEffect
deriving DecidableEq, Repr

/-- One iteration of the point loop of `ExecuteInternal`; `Code` is the cast
`(int32)Climate`. -/
def ClimateLoop.step (Code : EThermoClimateType → Int) (Subsystem : UThermoForgeSubsystem)
    (St : ClimateLoop) (Point : FPCGPoint) : ClimateLoop :=
  let Md : UPCGMetadata :=
    if Point.MetadataEntry = PCGInvalidEntryKey then
      { St.Metadata with NumEntries := St.Metadata.NumEntries + 1 }
    else St.Metadata
  let Entry : Int :=
    if Point.MetadataEntry = PCGInvalidEntryKey then St.Metadata.NumEntries
    else Point.MetadataEntry
  let Pos := Point.Location
  let Climate := Subsystem.GetClimateTypeAtPoint Pos
  { Metadata := Md
    Points := St.Points ++ [{ Point with MetadataEntry := Entry,
                                         Color := ClimateToDebugColor Climate }]
    Log := St.Log ++ [PCGEffect.SetValue Entry (Code Climate)] }

/-- Source `FPCGThermal_SampleClimateElement::ExecuteInternal`: the returned flag,
the context afterwards and the effects.  `Code` is the cast `(int32)Climate`,
whose values the missing declaration of `EThermoClimateType` fixes. -/
def ExecuteInternal (Code : EThermoClimateType → Int) (Context : Option FPCGContext) :
    Bool × Option FPCGContext × List PCGEffect :=
  match Context with
  | none => (true, none, [])
  | some Ctx =>
    match Ctx.World with
    | none => (true, some Ctx, [PCGEffect.Warning ESampleClimateLog.NoValidWorld])
    | some World =>
      match World.Subsystem with
      | none => (true, some Ctx, [PCGEffect.Warning ESampleClimateLog.SubsystemMissing])
      | some Subsystem =>
        match Ctx.SpatialInputs with
        | [] => (true, some Ctx, [PCGEffect.Warning ESampleClimateLog.NoSpatialInput])
        | In0 :: _ =>
          match In0.Data with
          | UPCGData.Other =>
            (true, some Ctx, [PCGEffect.Warning ESampleClimateLog.InputIsNotPointData])
          | UPCGData.PointData InPointData =>
            match InPointData.Metadata with
            | none => (true, some Ctx, [PCGEffect.Error ESampleClimateLog.MissingMetadata])
            | some Metadata =>
              if !Metadata.bClimateTypeAttribute then
                (true, some Ctx, [PCGEffect.Error ESampleClimateLog.FailedToCreateAttribute])
              else
                let St := InPointData.Points.foldl (ClimateLoop.step Code Subsystem)
                  { Metadata := Metadata, Points := [], Log := [] }
                let OutPointData : UPCGPointData :=
                  { Points := St.Points, Metadata := some St.Metadata }
                (true,
                  some { Ctx with
                    OutputTaggedData := Ctx.OutputTaggedData
                      ++ [{ In0 with Data := UPCGData.PointData OutPointData }] },
                  St.Log)

/-- The cache agrees with the published state whenever a commit is recorded. -/
def SnapshotConsistent (S : UThermoForgeHeatFXComponent) : Prop :=
  S.bHadInitialFire = true →
    S.PrevTemperatureC = S.TemperatureC ∧ S.PrevHeatDirWS = S.HeatDirWS
      ∧ S.PrevSourcePosWS = S.SourcePosWS ∧ S.PrevDistanceCm = S.DistanceCm
      ∧ S.PrevStrength = S.HeatStrength

instance SnapshotConsistent.decidable (S : UThermoForgeHeatFXComponent) :
    Decidable (SnapshotConsistent S) := by
  unfold SnapshotConsistent
  infer_instance

/-- The component after a sequence of `TickHeat` calls, one per host situation. -/
def TickHeatRun (M : FMath) (Hs : List Host) (S : UThermoForgeHeatFXComponent) :
    UThermoForgeHeatFXComponent :=
  Hs.foldl (fun St H => (TickHeat M H St).1) S

/-! ## A concrete scene for the examples -/

/-- A field that is 20 degrees at the origin and warms by half a degree per unit
northwards; the climate is arctic south of the origin and desert north of it. -/
def DemoField : UThermoForgeSubsystem where
  ComputeCurrentTemperatureAt := fun P _ _ _ => 20 + P.Y / 2
  GetClimateTypeAtPoint := fun P =>
    if P.Y < 0 then EThermoClimateType.Arctic
    else if P.Y = 0 then EThermoClimateType.Temperate
    else EThermoClimateType.Desert

def DemoPrimitive : UActorComponent := ⟨7, EComponentClass.Primitive⟩

def DemoOwner : AActor := ⟨⟨0, 0, 0⟩, [DemoPrimitive]⟩

def DemoSource (P : FVector) : AActor := ⟨P, [⟨1, EComponentClass.ThermoForgeSource⟩]⟩

/-- The owner and three sources, at distances 2, 5 and 1 from the origin. -/
def DemoWorld : UWorld :=
  ⟨some DemoField, [DemoOwner, DemoSource ⟨2, 0, 0⟩, DemoSource ⟨0, 5, 0⟩, DemoSource ⟨0, 0, 1⟩]⟩

def DemoHost : Host := ⟨some DemoWorld, some DemoOwner, fun _ => none⟩

/-- A freshly created component in nearest-source mode, exporting from slot 0. -/
def DemoComponent : UThermoForgeHeatFXComponent where
  UpdateRateSec := 1 / 4
  OriginMode := EThermoOriginMode.NearestSourceActor
  ProbeRadiusCm := 10
  ProbeSamples := 4
  ChangeThresholdC := 5
  bFireInitialEventOnBeginPlay := true
  bWriteCustomPrimitiveData := true
  CPDBaseIndex := 0
  ReferenceRadiusCm := 100
  TemperatureC := 0
  SourcePosWS := FVector.ZeroVector
  HeatDirWS := FVector.ZeroVector
  DistanceCm := 0
  HeatStrength := 0
  RuntimeOriginMode := EThermoOriginMode.NearestSourceActor
  bHasOrigin := false
  PrevTemperatureC := 0
  PrevSourcePosWS := FVector.ZeroVector
  PrevHeatDirWS := FVector.ZeroVector
  PrevDistanceCm := 0
  PrevStrength := 0
  bHadInitialFire := false
  TargetPrim := none

/-- The component after a commit in `DemoHost`, whose cached temperature is
within tolerance of, but not equal to, what the field returns now. -/
def DemoSettled : UThermoForgeHeatFXComponent :=
  { DemoComponent with
    TemperatureC := 20 + 1 / 200
    SourcePosWS := ⟨0, 0, 1⟩
    HeatDirWS := ⟨0, 0, 1⟩
    DistanceCm := 1
    HeatStrength := 1
    bHasOrigin := true
    PrevTemperatureC := 20 + 1 / 200
    PrevSourcePosWS := ⟨0, 0, 1⟩
    PrevHeatDirWS := ⟨0, 0, 1⟩
    PrevDistanceCm := 1
    PrevStrength := 1
    bHadInitialFire := true
    TargetPrim := some DemoPrimitive }

/-- The positions of the actors that carry a `UThermoForgeSourceComponent`, in
the order the actor iterator visits them. -/
def SourcePositionsOf (As : List AActor) : List FVector :=
  (As.filter (fun A => (A.FindComponentByClass EComponentClass.ThermoForgeSource).isSome)).map
    (fun A => A.Location)

/-- The source positions of a world. -/
def SourcePositions (W : UWorld) : List FVector := SourcePositionsOf W.Actors

/-- A world whose only source lies 2^64 units from the origin. -/
def FarWorld : UWorld := ⟨none, [DemoSource ⟨2 ^ 64, 0, 0⟩]⟩

/-- The points `ResolveOrigin_Probe` samples: the center, then the probes of
iterations `0` to `N - 1`, with `N` and `R` as the function computes them. -/
def ProbePoints (M : FMath) (S : UThermoForgeHeatFXComponent) (CenterWS : FVector) :
    List FVector :=
  CenterWS :: (List.range (FMath.Clamp S.ProbeSamples 4 64).toNat).map
    (ProbePoint M CenterWS (FMath.Max S.ProbeRadiusCm 10) (FMath.Clamp S.ProbeSamples 4 64))

/-- A numbering of the climate types for the examples. -/
def DemoCode : EThermoClimateType → Int
  | EThermoClimateType.Arctic => 0
  | EThermoClimateType.Cold => 1
  | EThermoClimateType.Temperate => 2
  | EThermoClimateType.Warm => 3
  | EThermoClimateType.Tropical => 4
  | EThermoClimateType.Desert => 5
  | EThermoClimateType.Other N => N

/-- Three points, the second without a metadata entry yet. -/
def DemoPoints : UPCGPointData :=
  ⟨[⟨⟨1, -3, 0⟩, ⟨0, 0, 0, 0⟩, 0⟩, ⟨⟨2, 0, 0⟩, ⟨0, 0, 0, 0⟩, PCGInvalidEntryKey⟩,
    ⟨⟨3, 4, 0⟩, ⟨0, 0, 0, 0⟩, 1⟩], some ⟨2, true⟩⟩

def DemoContext : FPCGContext := ⟨some DemoWorld, [⟨UPCGData.PointData DemoPoints, 0⟩], []⟩

/-- Everything `ExecuteInternal` needs is at hand: a world with the subsystem,
a first spatial input that is point data, its metadata and the `ClimateType`
attribute. -/
def ClimateInputsAvailable (Ctx : FPCGContext) : Bool :=
  match Ctx.World with
  | none => false
  | some World =>
    match World.Subsystem with
    | none => false
    | some _ =>
      match Ctx.SpatialInputs with
      | [] => false
      | In0 :: _ =>
        match In0.Data with
        | UPCGData.Other => false
        | UPCGData.PointData InPointData =>
          match InPointData.Metadata with
          | none => false
          | some Metadata => Metadata.bClimateTypeAttribute

/-- The effect is an attribute write. -/
def PCGEffect.IsSetValue : PCGEffect → Bool
  | PCGEffect.SetValue _ _ => true
  | _ => false

/-- What the cache tells about the published `bHasOrigin` once a commit is
recorded: in nearest-source mode a found origin left a distance or a strength
of at least 1 and a missing origin left distance and strength 0; the probe
modes always found an origin; an unknown mode never did. -/
def OriginRecorded (S : UThermoForgeHeatFXComponent) : Prop :=
  S.bHadInitialFire = true →
    (S.OriginMode = EThermoOriginMode.NearestSourceActor →
        (S.bHasOrigin = true → 1 ≤ S.PrevDistanceCm ∨ 1 ≤ S.PrevStrength)
          ∧ (S.bHasOrigin = false → S.PrevDistanceCm = 0 ∧ S.PrevStrength = 0))
      ∧ (S.OriginMode = EThermoOriginMode.HottestPoint
          ∨ S.OriginMode = EThermoOriginMode.ColdestPoint → S.bHasOrigin = true)
      ∧ ∀ N, S.OriginMode = EThermoOriginMode.Other N → S.bHasOrigin = false

/-- The world of `DemoWorld` with its sources removed. -/
def EmptyWorld : UWorld := ⟨some DemoField, [DemoOwner]⟩

/-- The owner of `DemoHost` in `EmptyWorld`. -/
def EmptyHost : Host := ⟨some EmptyWorld, some DemoOwner, fun _ => none⟩

/-- The test of the probe loop that lets a sample replace the best so far:
strictly hotter when searching the hottest point, strictly colder otherwise. -/
def ProbeBetter (b : Bool) (T Best : ℚ) : Prop :=
  if b = true then T > Best else T < Best

instance ProbeBetter.decidable (b : Bool) (T Best : ℚ) : Decidable (ProbeBetter b T Best) := by
  unfold ProbeBetter
  infer_instance

/-- A field that reads 20 degrees everywhere. -/
def UniformField : UThermoForgeSubsystem where
  ComputeCurrentTemperatureAt := fun _ _ _ _ => 20
  GetClimateTypeAtPoint := fun _ => EThermoClimateType.Temperate

/-- The owner of `DemoHost` in a world with the uniform field. -/
def UniformHost : Host := ⟨some ⟨some UniformField, [DemoOwner]⟩, some DemoOwner, fun _ => none⟩

/-- A field with the same temperature `T` everywhere. -/
def ConstantField (T : ℚ) : UThermoForgeSubsystem where
  ComputeCurrentTemperatureAt := fun _ _ _ _ => T
  GetClimateTypeAtPoint := fun _ => EThermoClimateType.Temperate

/-- A world without sources whose field is `ConstantField T`. -/
def ConstantWorld (T : ℚ) : UWorld := ⟨some (ConstantField T), [DemoOwner]⟩

/-- The owner of `DemoHost` in `ConstantWorld T`. -/
def ConstantHost (T : ℚ) : Host := ⟨some (ConstantWorld T), some DemoOwner, fun _ => none⟩

/-- A component with a commit recorded whose cached temperature is the `float`
`-(2^-22 + 2^-40)`; its jump threshold is 5 degrees. -/
def JumpComponent : UThermoForgeHeatFXComponent :=
  { DemoComponent with
    TemperatureC := -(1 / 2 ^ 22 + 1 / 2 ^ 40)
    PrevTemperatureC := -(1 / 2 ^ 22 + 1 / 2 ^ 40)
    bHadInitialFire := true }

/-- The fresh `DemoComponent` exporting from the last `int32` slot. -/
def OverflowComponent : UThermoForgeHeatFXComponent :=
  { DemoComponent with CPDBaseIndex := 2147483647 }

theorem RoundTiesEven_spec (q : ℚ) :
    |q - (RoundTiesEven q : ℚ)| ≤ 1 / 2
      ∧ (|q - (RoundTiesEven q : ℚ)| = 1 / 2 → Even (RoundTiesEven q)) := by
  have h0 := Int.floor_le q
  have h1 := Int.lt_floor_add_one q
  unfold RoundTiesEven
  split_ifs with c1 c2 c3
  · refine ⟨by rw [abs_le]; constructor <;> linarith, fun h => ?_⟩
    rw [abs_of_nonneg (by linarith)] at h
    linarith
  · refine ⟨by rw [abs_le]; push_cast; constructor <;> linarith, fun h => ?_⟩
    push_cast at h
    rw [abs_of_nonpos (by linarith)] at h
    linarith
  · refine ⟨by rw [abs_le]; constructor <;> linarith, fun _ => Int.even_iff.2 c3⟩
  · refine ⟨by rw [abs_le]; push_cast; constructor <;> linarith, fun _ => ?_⟩
    rw [Int.even_add_one, Int.even_iff]
    exact c3

theorem nearest_even_unique (q : ℚ) (m n : ℤ)
    (hm : |q - (m : ℚ)| ≤ 1 / 2) (hm' : |q - (m : ℚ)| = 1 / 2 → Even m)
    (hn : |q - (n : ℚ)| ≤ 1 / 2) (hn' : |q - (n : ℚ)| = 1 / 2 → Even n) : m = n := by
  have key : ∀ a b : ℤ, |q - (a : ℚ)| ≤ 1 / 2 → (|q - (a : ℚ)| = 1 / 2 → Even a) →
      |q - (b : ℚ)| ≤ 1 / 2 → (|q - (b : ℚ)| = 1 / 2 → Even b) → ¬ a < b := by
    intro a b ha ha' hb hb' hlt
    have h1 : (a : ℚ) + 1 ≤ b := by exact_mod_cast hlt
    rw [abs_le] at ha hb
    have hq : q = a + 1 / 2 := by linarith
    have hb1 : (b : ℚ) = a + 1 := by linarith
    have hb2 : b = a + 1 := by exact_mod_cast hb1
    have ea : Even a := ha' (by rw [hq]; norm_num)
    have eb : Even b := hb' (by rw [hq, hb1]; norm_num)
    rw [hb2, Int.even_add_one] at eb
    exact eb ea
  rcases lt_trichotomy m n with h | h | h
  · exact absurd h (key m n hm hm' hn hn')
  · exact h
  · exact absurd h (key n m hn hn' hm hm')

theorem RoundTiesEven_unique (q : ℚ) (n : ℤ) (hn : |q - (n : ℚ)| ≤ 1 / 2)
    (hn' : |q - (n : ℚ)| = 1 / 2 → Even n) : RoundTiesEven q = n :=
  nearest_even_unique q _ n (RoundTiesEven_spec q).1 (RoundTiesEven_spec q).2 hn hn'

theorem RoundTiesEven_of_abs_lt (q : ℚ) (n : ℤ) (hn : |q - (n : ℚ)| < 1 / 2) :
    RoundTiesEven q = n :=
  RoundTiesEven_unique q n hn.le (fun h => absurd h (ne_of_lt hn))

theorem RoundTiesEven_intCast (n : ℤ) : RoundTiesEven (n : ℚ) = n :=
  RoundTiesEven_of_abs_lt _ n (by norm_num)

theorem RoundTiesEven_neg (q : ℚ) : RoundTiesEven (-q) = -RoundTiesEven q := by
  obtain ⟨h1, h2⟩ := RoundTiesEven_spec q
  apply RoundTiesEven_unique
  · push_cast
    rw [show -q - -(RoundTiesEven q : ℚ) = -(q - (RoundTiesEven q : ℚ)) by ring, abs_neg]
    exact h1
  · push_cast
    rw [show -q - -(RoundTiesEven q : ℚ) = -(q - (RoundTiesEven q : ℚ)) by ring, abs_neg]
    intro h
    exact (h2 h).neg

theorem RoundTiesEven_mono (p q : ℚ) (h : p ≤ q) : RoundTiesEven p ≤ RoundTiesEven q := by
  by_contra hlt
  push_neg at hlt
  have h1 : (RoundTiesEven q : ℚ) + 1 ≤ RoundTiesEven p := by exact_mod_cast hlt
  have hp := (RoundTiesEven_spec p).1
  have hq := (RoundTiesEven_spec q).1
  rw [abs_le] at hp hq
  have hpq : p = q := by linarith
  rw [hpq] at hlt
  exact lt_irrefl _ hlt

theorem le_RoundTiesEven (q : ℚ) (k : ℤ) (h : (k : ℚ) ≤ q) : k ≤ RoundTiesEven q := by
  have := RoundTiesEven_mono _ _ h
  rwa [RoundTiesEven_intCast] at this

theorem RoundTiesEven_le (q : ℚ) (k : ℤ) (h : q ≤ (k : ℚ)) : RoundTiesEven q ≤ k := by
  have := RoundTiesEven_mono _ _ h
  rwa [RoundTiesEven_intCast] at this

theorem FloatUlp_pos (x : ℚ) : 0 < FloatUlp x := zpow_pos (by norm_num) _

theorem two_zpow_split (e : ℤ) :
    (2 : ℚ) ^ e = 2 ^ 23 * (2 : ℚ) ^ (e - 23) ∧ (2 : ℚ) ^ (e + 1) = 2 ^ 24 * (2 : ℚ) ^ (e - 23) := by
  have h1 : (2 : ℚ) ^ (e - 23) = 2 ^ e / 2 ^ (23 : ℤ) := zpow_sub₀ two_ne_zero e 23
  have h2 : (2 : ℚ) ^ (e + 1) = 2 ^ e * 2 ^ (1 : ℤ) := zpow_add₀ two_ne_zero e 1
  rw [h1, h2]
  constructor
  · norm_num
    ring
  · norm_num
    ring

theorem Int_log_two_eq (r : ℚ) (e : ℤ) (h0 : 0 < r) (h1 : (2 : ℚ) ^ e ≤ r)
    (h2 : r < (2 : ℚ) ^ (e + 1)) : Int.log 2 r = e := by
  have hb : 1 < (2 : ℕ) := by norm_num
  apply le_antisymm
  · have := (Int.lt_zpow_iff_log_lt hb h0 (x := e + 1)).1 (by exact_mod_cast h2)
    omega
  · exact (Int.zpow_le_iff_le_log hb h0).1 (by exact_mod_cast h1)

theorem FloatExponent_ge (x : ℚ) : -126 ≤ FloatExponent x := le_max_right _ _

theorem FloatExponent_neg (x : ℚ) : FloatExponent (-x) = FloatExponent x := by
  simp [FloatExponent]

theorem FloatUlp_neg (x : ℚ) : FloatUlp (-x) = FloatUlp x := by
  simp [FloatUlp, FloatExponent_neg]

theorem ToFloat_neg (x : ℚ) : ToFloat (-x) = -ToFloat x := by
  unfold ToFloat
  rw [FloatUlp_neg, neg_div, RoundTiesEven_neg]
  push_cast
  ring

theorem ToFloat_zero : ToFloat 0 = 0 := by
  unfold ToFloat
  rw [zero_div]
  have := RoundTiesEven_intCast 0
  simp only [Int.cast_zero] at this
  rw [this]
  simp

theorem ToFloat_nonneg (x : ℚ) (h : 0 ≤ x) : 0 ≤ ToFloat x := by
  unfold ToFloat
  have h1 : ((0 : ℤ) : ℚ) ≤ x / FloatUlp x := by
    simpa using div_nonneg h (FloatUlp_pos x).le
  have h2 := le_RoundTiesEven _ 0 h1
  exact mul_nonneg (by exact_mod_cast h2) (FloatUlp_pos x).le

theorem ToFloat_abs (x : ℚ) : |ToFloat x| = ToFloat |x| := by
  rcases le_total 0 x with h | h
  · rw [abs_of_nonneg h, abs_of_nonneg (ToFloat_nonneg x h)]
  · have h' : 0 ≤ -x := by linarith
    have := ToFloat_nonneg (-x) h'
    rw [ToFloat_neg] at this
    rw [abs_of_nonpos h, abs_of_nonpos (by linarith), ToFloat_neg]

/-- Above: a positive value rounds to at most the top of its binade. -/
theorem ToFloat_le_top (x : ℚ) (h : 0 < x) : ToFloat x ≤ (2 : ℚ) ^ (FloatExponent x + 1) := by
  have hb : 1 < (2 : ℕ) := by norm_num
  have h1 : x < (2 : ℚ) ^ (Int.log 2 x + 1) := by
    exact_mod_cast Int.lt_zpow_succ_log_self hb x
  have h2 : (2 : ℚ) ^ (Int.log 2 x + 1) ≤ (2 : ℚ) ^ (FloatExponent x + 1) := by
    apply zpow_le_zpow_right₀ (by norm_num)
    have : Int.log 2 x ≤ FloatExponent x := by
      unfold FloatExponent
      rw [abs_of_pos h]
      exact le_max_left _ _
    omega
  have h3 := (two_zpow_split (FloatExponent x)).2
  have hu := FloatUlp_pos x
  have h4 : x / FloatUlp x ≤ ((2 ^ 24 : ℤ) : ℚ) := by
    rw [div_le_iff₀ hu]
    push_cast
    unfold FloatUlp
    linarith
  have h5 := RoundTiesEven_le _ _ h4
  unfold ToFloat
  rw [h3]
  have h6 : (RoundTiesEven (x / FloatUlp x) : ℚ) ≤ 2 ^ 24 := by exact_mod_cast h5
  exact mul_le_mul_of_nonneg_right h6 hu.le

/-- Below: a positive normal value rounds to at least the bottom of its binade. -/
theorem ToFloat_ge_bottom (x : ℚ) (h : 0 < x) (hn : Int.log 2 x = FloatExponent x) :
    (2 : ℚ) ^ FloatExponent x ≤ ToFloat x := by
  have hb : 1 < (2 : ℕ) := by norm_num
  have h1 : (2 : ℚ) ^ (Int.log 2 x) ≤ x := by
    exact_mod_cast Int.zpow_log_le_self hb h
  rw [hn] at h1
  have h3 := (two_zpow_split (FloatExponent x)).1
  have hu := FloatUlp_pos x
  have h4 : ((2 ^ 23 : ℤ) : ℚ) ≤ x / FloatUlp x := by
    rw [le_div_iff₀ hu]
    push_cast
    unfold FloatUlp
    linarith
  have h5 := le_RoundTiesEven _ _ h4
  unfold ToFloat
  rw [h3]
  have h6 : (2 : ℚ) ^ 23 ≤ (RoundTiesEven (x / FloatUlp x) : ℚ) := by exact_mod_cast h5
  exact mul_le_mul_of_nonneg_right h6 hu.le

theorem ToFloat_mono_pos (x y : ℚ) (hx : 0 < x) (hxy : x ≤ y) : ToFloat x ≤ ToFloat y := by
  have hy : 0 < y := lt_of_lt_of_le hx hxy
  have hlog : Int.log 2 x ≤ Int.log 2 y := Int.log_mono_right hx hxy
  have hE : FloatExponent x ≤ FloatExponent y := by
    unfold FloatExponent
    rw [abs_of_pos hx, abs_of_pos hy]
    exact max_le_max hlog le_rfl
  rcases eq_or_lt_of_le hE with he | he
  · have hu : FloatUlp x = FloatUlp y := by unfold FloatUlp; rw [he]
    unfold ToFloat
    rw [hu]
    have h1 : x / FloatUlp y ≤ y / FloatUlp y := div_le_div_of_nonneg_right hxy (FloatUlp_pos y).le
    have h2 := RoundTiesEven_mono _ _ h1
    exact mul_le_mul_of_nonneg_right (by exact_mod_cast h2) (FloatUlp_pos y).le
  · have hny : Int.log 2 y = FloatExponent y := by
      have h126 := FloatExponent_ge x
      unfold FloatExponent at he ⊢
      rw [abs_of_pos hy] at he ⊢
      rcases le_total (Int.log 2 y) (-126) with h | h
      · rw [max_eq_right h] at he
        unfold FloatExponent at h126
        omega
      · rw [max_eq_left h]
    calc ToFloat x ≤ (2 : ℚ) ^ (FloatExponent x + 1) := ToFloat_le_top x hx
      _ ≤ (2 : ℚ) ^ FloatExponent y := zpow_le_zpow_right₀ (by norm_num) (by omega)
      _ ≤ ToFloat y := ToFloat_ge_bottom y hy hny

theorem ToFloat_mono (x y : ℚ) (hxy : x ≤ y) : ToFloat x ≤ ToFloat y := by
  rcases lt_trichotomy 0 x with hx | hx | hx
  · exact ToFloat_mono_pos x y hx hxy
  · rw [← hx, ToFloat_zero]
    exact ToFloat_nonneg y (by linarith)
  · rcases le_or_lt 0 y with hy | hy
    · have h1 := ToFloat_nonneg (-x) (by linarith)
      rw [ToFloat_neg] at h1
      have h2 := ToFloat_nonneg y hy
      linarith
    · have h1 := ToFloat_mono_pos (-y) (-x) (by linarith) (by linarith)
      rw [ToFloat_neg, ToFloat_neg] at h1
      linarith

theorem FloatExponent_eq_of (x : ℚ) (e : ℤ) (hx : x ≠ 0) (he : -126 ≤ e)
    (h1 : e = -126 ∨ (2 : ℚ) ^ e ≤ |x|) (h2 : |x| < (2 : ℚ) ^ (e + 1)) :
    FloatExponent x = e := by
  have hb : 1 < (2 : ℕ) := by norm_num
  have hpos : 0 < |x| := abs_pos.2 hx
  have hle : Int.log 2 |x| ≤ e := by
    have := (Int.lt_zpow_iff_log_lt hb hpos (x := e + 1)).1 (by exact_mod_cast h2)
    omega
  unfold FloatExponent
  rcases h1 with h1 | h1
  · rw [h1] at hle ⊢
    exact max_eq_right hle
  · have hge : e ≤ Int.log 2 |x| := (Int.zpow_le_iff_le_log hb hpos).1 (by exact_mod_cast h1)
    have : Int.log 2 |x| = e := le_antisymm hle hge
    rw [this]
    exact max_eq_left he

/-- Evaluation of `ToFloat` from the binade and the rounded significand. -/
theorem ToFloat_eq_of (x : ℚ) (e n : ℤ) (hx : x ≠ 0) (he : -126 ≤ e)
    (h1 : e = -126 ∨ (2 : ℚ) ^ e ≤ |x|) (h2 : |x| < (2 : ℚ) ^ (e + 1))
    (hr : RoundTiesEven (x / (2 : ℚ) ^ (e - 23)) = n) :
    ToFloat x = (n : ℚ) * (2 : ℚ) ^ (e - 23) := by
  unfold ToFloat FloatUlp
  rw [FloatExponent_eq_of x e hx he h1 h2, hr]

theorem ToFloat_fixed_pos (e n : ℤ) (he : -126 ≤ e) (hn0 : 0 < n) (hn : n ≤ 2 ^ 24)
    (hlo : e = -126 ∨ 2 ^ 23 ≤ n) :
    ToFloat ((n : ℚ) * (2 : ℚ) ^ (e - 23)) = (n : ℚ) * (2 : ℚ) ^ (e - 23) := by
  have hu : 0 < (2 : ℚ) ^ (e - 23) := zpow_pos (by norm_num) _
  have hnq : (0 : ℚ) < n := by exact_mod_cast hn0
  have hx : (n : ℚ) * (2 : ℚ) ^ (e - 23) ≠ 0 := (mul_pos hnq hu).ne'
  have habs : |(n : ℚ) * (2 : ℚ) ^ (e - 23)| = (n : ℚ) * (2 : ℚ) ^ (e - 23) :=
    abs_of_pos (mul_pos hnq hu)
  obtain ⟨s1, s2⟩ := two_zpow_split e
  rcases eq_or_lt_of_le hn with h24 | h24
  · -- the significand overflowed into the next binade
    obtain ⟨t1, t2⟩ := two_zpow_split (e + 1)
    have hu' : (2 : ℚ) ^ (e + 1 - 23) = 2 * (2 : ℚ) ^ (e - 23) := by
      have : (2 : ℚ) ^ (e + 1 - 23) = (2 : ℚ) ^ (e - 23) * 2 ^ (1 : ℤ) := by
        rw [← zpow_add₀ two_ne_zero]
        congr 1
        ring
      rw [this]
      norm_num
      ring
    have hnq24 : (n : ℚ) = 2 ^ 24 := by exact_mod_cast h24
    have hr : RoundTiesEven ((n : ℚ) * (2 : ℚ) ^ (e - 23) / (2 : ℚ) ^ (e + 1 - 23))
        = (2 ^ 23 : ℤ) := by
      have : (n : ℚ) * (2 : ℚ) ^ (e - 23) / (2 : ℚ) ^ (e + 1 - 23) = ((2 ^ 23 : ℤ) : ℚ) := by
        rw [hu', hnq24]
        field_simp
        ring
      rw [this]
      exact RoundTiesEven_intCast _
    rw [ToFloat_eq_of _ (e + 1) (2 ^ 23) hx (by omega) (Or.inr ?_) ?_ hr]
    · rw [hu', hnq24]
      push_cast
      ring
    · rw [habs, hnq24, s2]
    · rw [habs, hnq24, t2, hu']
      have : (0 : ℚ) < (2 : ℚ) ^ (e - 23) := hu
      nlinarith
  · have hr : RoundTiesEven ((n : ℚ) * (2 : ℚ) ^ (e - 23) / (2 : ℚ) ^ (e - 23)) = n := by
      rw [mul_div_assoc, div_self hu.ne', mul_one]
      exact RoundTiesEven_intCast _
    refine ToFloat_eq_of _ e n hx he ?_ ?_ hr
    · rcases hlo with h | h
      · exact Or.inl h
      · right
        rw [habs, s1]
        have : ((2 : ℚ) ^ 23) ≤ n := by exact_mod_cast h
        exact mul_le_mul_of_nonneg_right this hu.le
    · rw [habs, s2]
      have : (n : ℚ) < 2 ^ 24 := by exact_mod_cast h24
      exact mul_lt_mul_of_pos_right this hu

/-- Representable values are fixed by `ToFloat`. -/
theorem ToFloat_fixed (e n : ℤ) (he : -126 ≤ e) (hn : |n| ≤ 2 ^ 24)
    (hlo : e = -126 ∨ 2 ^ 23 ≤ |n|) :
    ToFloat ((n : ℚ) * (2 : ℚ) ^ (e - 23)) = (n : ℚ) * (2 : ℚ) ^ (e - 23) := by
  rcases lt_trichotomy 0 n with h | h | h
  · rw [abs_of_pos h] at hn hlo
    exact ToFloat_fixed_pos e n he h hn hlo
  · rw [← h]
    simp [ToFloat_zero]
  · rw [abs_of_neg h] at hn hlo
    have := ToFloat_fixed_pos e (-n) he (by omega) hn hlo
    push_cast at this
    rw [neg_mul, ToFloat_neg] at this
    linarith

theorem ToFloat_half : ToFloat (1 / 2) = 1 / 2 := by
  have := ToFloat_fixed (-1) (2 ^ 23) (by norm_num) (by norm_num) (Or.inr (by norm_num))
  norm_num at this
  exact this

theorem ToFloat_one : ToFloat 1 = 1 := by
  have := ToFloat_fixed 0 (2 ^ 23) (by norm_num) (by norm_num) (Or.inr (by norm_num))
  norm_num at this
  exact this

theorem ToFloat_hundredth : ToFloat (1 / 100) = 5368709 / 536870912 := by
  rw [ToFloat_eq_of (1 / 100) (-7) 10737418 (by norm_num) (by norm_num)
    (Or.inr (by norm_num [abs_of_pos])) (by norm_num [abs_of_pos])
    (RoundTiesEven_of_abs_lt _ _ (by norm_num [abs_lt]))]
  norm_num

theorem ToFloat_thousandth : ToFloat (1 / 1000) = 8589935 / 8589934592 := by
  rw [ToFloat_eq_of (1 / 1000) (-10) 8589935 (by norm_num) (by norm_num)
    (Or.inr (by norm_num [abs_of_pos])) (by norm_num [abs_of_pos])
    (RoundTiesEven_of_abs_lt _ _ (by norm_num [abs_lt]))]
  norm_num

/-! ## Tolerances, wrap-around and the stand-in mathematics -/

/-- A magnitude of at least a `float` bound stays so when rounded. -/
theorem le_ToFloat_abs (x t : ℚ) (ht : ToFloat t = t) (h : t ≤ |x|) : t ≤ |ToFloat x| := by
  rw [ToFloat_abs, ← ht]
  exact ToFloat_mono _ _ h

theorem WrapInt32_of_range (x : Int) (h1 : -2147483648 ≤ x) (h2 : x < 2147483648) :
    WrapInt32 x = x := by
  unfold WrapInt32
  norm_num
  omega

theorem ExactMath_Sqrt_mono (x y : ℚ) (h : x ≤ y) : ExactMath.Sqrt x ≤ ExactMath.Sqrt y := by
  show (Nat.sqrt ⌊x * 2 ^ 48⌋₊ : ℚ) / 2 ^ 24 ≤ (Nat.sqrt ⌊y * 2 ^ 48⌋₊ : ℚ) / 2 ^ 24
  apply div_le_div_of_nonneg_right _ (by positivity)
  exact_mod_cast Nat.sqrt_le_sqrt (Nat.floor_mono (mul_le_mul_of_nonneg_right h (by positivity)))

theorem ExactMath_floor_sq (r : ℚ) (a : ℕ) (h : r * 2 ^ 24 = a) :
    Nat.sqrt ⌊r * r * 2 ^ 48⌋₊ = a := by
  have h2 : r * r * 2 ^ 48 = ((a * a : ℕ) : ℚ) := by
    push_cast
    rw [← h]
    ring
  rw [h2, Nat.floor_natCast, Nat.sqrt_eq]

theorem ExactMath_Sqrt_sq (r : ℚ) (a : ℕ) (h : r * 2 ^ 24 = a) : ExactMath.Sqrt (r * r) = r := by
  show (Nat.sqrt ⌊r * r * 2 ^ 48⌋₊ : ℚ) / 2 ^ 24 = r
  rw [ExactMath_floor_sq r a h, ← h]
  field_simp

theorem ExactMath_Sqrt_zero : ExactMath.Sqrt 0 = 0 := by
  have := ExactMath_Sqrt_sq 0 0 (by norm_num)
  simpa using this

theorem ExactMath_Sqrt_one : ExactMath.Sqrt 1 = 1 := by
  have := ExactMath_Sqrt_sq 1 (2 ^ 24) (by norm_num)
  simpa using this

theorem ToFloat_of_lt (x y : ℚ) (e n : ℤ) (hx : x ≠ 0) (he : -126 ≤ e)
    (h1 : e = -126 ∨ (2 : ℚ) ^ e ≤ |x|) (h2 : |x| < (2 : ℚ) ^ (e + 1))
    (hn : |x / (2 : ℚ) ^ (e - 23) - (n : ℚ)| < 1 / 2)
    (hy : (n : ℚ) * (2 : ℚ) ^ (e - 23) = y) : ToFloat x = y := by
  rw [ToFloat_eq_of x e n hx he h1 h2 (RoundTiesEven_of_abs_lt _ _ hn), hy]

theorem ToFloat_of_fixed (y : ℚ) (e n : ℤ) (he : -126 ≤ e) (hn : |n| ≤ 2 ^ 24)
    (hlo : e = -126 ∨ 2 ^ 23 ≤ |n|) (hy : (n : ℚ) * (2 : ℚ) ^ (e - 23) = y) : ToFloat y = y := by
  rw [← hy]
  exact ToFloat_fixed e n he hn hlo

theorem ToFloat_four : ToFloat 4 = 4 :=
  ToFloat_of_fixed 4 2 (2 ^ 23) (by norm_num) (by norm_num) (Or.inr (by norm_num)) (by norm_num)

theorem ToFloat_twenty : ToFloat 20 = 20 :=
  ToFloat_of_fixed 20 4 10485760 (by norm_num) (by norm_num) (Or.inr (by norm_num)) (by norm_num)

theorem ToFloat_twentyfive : ToFloat 25 = 25 :=
  ToFloat_of_fixed 25 4 13107200 (by norm_num) (by norm_num) (Or.inr (by norm_num)) (by norm_num)

/-! ## Lemmas on the helpers of `TickHeat` -/

theorem SampleTempAt_log (H : Host) (P : FVector) :
    ∀ e ∈ (SampleTempAt H P).2, e.IsFieldQuery = true := by
  intro e he
  unfold SampleTempAt at he
  cases hW : H.World with
  | none => simp [hW] at he
  | some W =>
    cases hS : W.Subsystem with
    | none => simp [hW, hS] at he
    | some TF =>
      simp [hW, hS] at he
      subst he
      rfl

theorem ProbeScan_step_log (M : FMath) (H : Host) (C : FVector) (b : Bool) (R : ℚ) (N : Int)
    (St : ProbeScan) (i : Nat) :
    (ProbeScan.step M H C b R N St i).Log = St.Log ++ (SampleTempAt H (ProbePoint M C R N i)).2 := by
  cases b <;> simp only [ProbeScan.step, Bool.false_eq_true, if_false, if_true] <;> split <;> rfl

theorem ProbeScan_foldl_log (M : FMath) (H : Host) (C : FVector) (b : Bool) (R : ℚ) (N : Int)
    (Is : List Nat) (St : ProbeScan) (hSt : ∀ e ∈ St.Log, e.IsFieldQuery = true) :
    ∀ e ∈ (Is.foldl (ProbeScan.step M H C b R N) St).Log, e.IsFieldQuery = true := by
  induction Is generalizing St with
  | nil => simpa using hSt
  | cons i Is ih =>
    simp only [List.foldl_cons]
    apply ih
    intro e he
    rw [ProbeScan_step_log, List.mem_append] at he
    rcases he with he | he
    · exact hSt e he
    · exact SampleTempAt_log H _ e he

theorem ResolveOrigin_Probe_log (M : FMath) (H : Host) (S : UThermoForgeHeatFXComponent)
    (C : FVector) (b : Bool) (O : FVector) (Q : ℚ) :
    ∀ e ∈ (ResolveOrigin_Probe M H S C b O Q).2, e.IsFieldQuery = true := by
  unfold ResolveOrigin_Probe
  cases hW : H.World with
  | none => simp
  | some W =>
    simp only
    exact ProbeScan_foldl_log M H C b _ _ _ _ (SampleTempAt_log H C)

theorem TickHeat_Evaluate_log (M : FMath) (H : Host) (W : UWorld) (Owner : AActor)
    (S : UThermoForgeHeatFXComponent) :
    ∀ e ∈ (TickHeat_Evaluate M H W Owner S).Log, e.IsFieldQuery = true := by
  intro e he
  simp only [TickHeat_Evaluate, List.mem_append] at he
  rcases he with he | he
  · exact SampleTempAt_log H _ e he
  · unfold TickHeat_ResolveOrigin at he
    cases hM : S.OriginMode with
    | NearestSourceActor => simp [hM] at he
    | HottestPoint =>
      simp only [hM] at he
      exact ResolveOrigin_Probe_log M H S _ _ _ _ e he
    | ColdestPoint =>
      simp only [hM] at he
      exact ResolveOrigin_Probe_log M H S _ _ _ _ e he
    | Other n => simp [hM] at he

theorem IsFieldQuery_exclusive (e : Effect) (h : e.IsFieldQuery = true) :
    e.IsUpdated = false ∧ e.IsJump = false ∧ e.IsExport = false := by
  cases e <;> simp_all [Effect.IsFieldQuery, Effect.IsUpdated, Effect.IsJump, Effect.IsExport]

theorem EnsureTargetPrimitive_state (H : Host) (S : UThermoForgeHeatFXComponent) :
    ∃ T, EnsureTargetPrimitive H S = { S with TargetPrim := T } := by
  unfold EnsureTargetPrimitive
  repeat' split
  all_goals exact ⟨_, rfl⟩

/-- The component after `WriteCustomPrimitiveData`. -/
theorem WriteCustomPrimitiveData_fst (H : Host) (S : UThermoForgeHeatFXComponent) :
    (WriteCustomPrimitiveData H S).1
      = if S.bWriteCustomPrimitiveData then EnsureTargetPrimitive H S else S := by
  unfold WriteCustomPrimitiveData
  cases hb : S.bWriteCustomPrimitiveData
  · simp
  · cases hT : (EnsureTargetPrimitive H S).TargetPrim <;> simp [hT]

/-- The function `WriteCustomPrimitiveData` changes no data member other than `TargetPrim`. -/
theorem WriteCustomPrimitiveData_state (H : Host) (S : UThermoForgeHeatFXComponent) :
    (WriteCustomPrimitiveData H S).1
      = { S with TargetPrim := (WriteCustomPrimitiveData H S).1.TargetPrim } := by
  have key : ∃ T, (WriteCustomPrimitiveData H S).1 = { S with TargetPrim := T } := by
    rw [WriteCustomPrimitiveData_fst]
    by_cases hb : S.bWriteCustomPrimitiveData = true
    · rw [if_pos hb]
      exact EnsureTargetPrimitive_state H S
    · rw [if_neg hb]
      exact ⟨S.TargetPrim, rfl⟩
  obtain ⟨T, hT⟩ := key
  rw [hT]

/-- The function `WriteCustomPrimitiveData` raises nothing but slot writes. -/
theorem WriteCustomPrimitiveData_log (H : Host) (S : UThermoForgeHeatFXComponent) :
    ∀ e ∈ (WriteCustomPrimitiveData H S).2, e.IsExport = true := by
  unfold WriteCustomPrimitiveData
  cases hb : S.bWriteCustomPrimitiveData
  · simp
  · cases hT : (EnsureTargetPrimitive H S).TargetPrim
    · simp [hT]
    · intro e he
      simp only [hT, Bool.not_true, Bool.false_eq_true, if_false, List.mem_cons,
        List.mem_singleton, List.not_mem_nil, or_false] at he
      rcases he with h | h | h | h | h | h | h | h | h <;> (subst h; rfl)

theorem TickHeat_Commit_bHadInitialFire (H : Host) (S : UThermoForgeHeatFXComponent)
    (L : TickLocals) : (TickHeat_Commit H S L).1.bHadInitialFire = true := by
  unfold TickHeat_Commit
  simp only
  rw [WriteCustomPrimitiveData_state]
  rfl

/-- Without a change and with a prior commit `TickHeat` only evaluates. -/
theorem TickHeat_unchanged (M : FMath) (H : Host) (S : UThermoForgeHeatFXComponent)
    (W : UWorld) (Owner : AActor) (hW : H.World = some W) (hO : H.Owner = some Owner)
    (hC : TickHeat_bAnyChanged S (TickHeat_Evaluate M H W Owner S) = false) :
    TickHeat M H S = (S, (TickHeat_Evaluate M H W Owner S).Log) := by
  have hF : S.bHadInitialFire = true := by
    simp only [TickHeat_bAnyChanged, Bool.or_eq_false_iff, Bool.not_eq_false'] at hC
    simpa using hC.2
  simp [TickHeat, hW, hO, hC, hF]

/-- With a change (or without prior commit) `TickHeat` evaluates and commits. -/
theorem TickHeat_changed (M : FMath) (H : Host) (S : UThermoForgeHeatFXComponent)
    (W : UWorld) (Owner : AActor) (hW : H.World = some W) (hO : H.Owner = some Owner)
    (hC : TickHeat_bAnyChanged S (TickHeat_Evaluate M H W Owner S) = true) :
    TickHeat M H S = ((TickHeat_Commit H S (TickHeat_Evaluate M H W Owner S)).1,
      (TickHeat_Evaluate M H W Owner S).Log
        ++ (TickHeat_Commit H S (TickHeat_Evaluate M H W Owner S)).2) := by
  simp [TickHeat, hW, hO, hC, TickHeat_Commit_bHadInitialFire]

/-! ## The scan of `ResolveOrigin_NearestSource` -/

theorem SourcePositionsOf_cons_source (A : AActor) (As : List AActor)
    (h : (A.FindComponentByClass EComponentClass.ThermoForgeSource).isSome = true) :
    SourcePositionsOf (A :: As) = A.Location :: SourcePositionsOf As := by
  simp [SourcePositionsOf, List.filter_cons, h]

theorem SourcePositionsOf_cons_other (A : AActor) (As : List AActor)
    (h : (A.FindComponentByClass EComponentClass.ThermoForgeSource).isSome = false) :
    SourcePositionsOf (A :: As) = SourcePositionsOf As := by
  simp [SourcePositionsOf, List.filter_cons, h]

/-- The scan loop either keeps its state, when no source is closer than the
best so far, or ends on the first source of least squared distance, the
squared distances being those the loop holds: narrowed to `float`. -/
theorem NearestScan_foldl_spec (C : FVector) (As : List AActor) (St : NearestScan) :
    (As.foldl (NearestScan.step C) St = St
        ∧ ∀ p ∈ SourcePositionsOf As, St.BestDistSq ≤ ToFloat (FVector.DistSquared C p))
      ∨ ∃ pre best post, SourcePositionsOf As = pre ++ best :: post
          ∧ As.foldl (NearestScan.step C) St
              = { BestDistSq := ToFloat (FVector.DistSquared C best), BestPos := best, bFound := true }
          ∧ ToFloat (FVector.DistSquared C best) < St.BestDistSq
          ∧ (∀ q ∈ pre, ToFloat (FVector.DistSquared C best) < ToFloat (FVector.DistSquared C q))
          ∧ ∀ q ∈ post, ToFloat (FVector.DistSquared C best) ≤ ToFloat (FVector.DistSquared C q) := by
  induction As generalizing St with
  | nil => exact Or.inl ⟨rfl, by simp [SourcePositionsOf]⟩
  | cons A As ih =>
    simp only [List.foldl_cons]
    by_cases hSrc : (A.FindComponentByClass EComponentClass.ThermoForgeSource).isSome = true
    · rw [SourcePositionsOf_cons_source A As hSrc]
      by_cases hLt : ToFloat (FVector.DistSquared C A.Location) < St.BestDistSq
      · have hStep : NearestScan.step C St A
            = { BestDistSq := ToFloat (FVector.DistSquared C A.Location), BestPos := A.Location,
                bFound := true } := by
          simp [NearestScan.step, hSrc, hLt]
        rw [hStep]
        rcases ih ⟨ToFloat (FVector.DistSquared C A.Location), A.Location, true⟩
          with ⟨hEq, hAll⟩ | ⟨pre, best, post, hSp, hEq, hB, hPre, hPost⟩
        · exact Or.inr ⟨[], A.Location, SourcePositionsOf As, rfl, hEq, hLt,
            by simp, hAll⟩
        · refine Or.inr ⟨A.Location :: pre, best, post, by rw [hSp]; rfl, hEq,
            lt_trans hB hLt, ?_, hPost⟩
          intro q hq
          rcases List.mem_cons.1 hq with h | h
          · rw [h]; exact hB
          · exact hPre q h
      · have hStep : NearestScan.step C St A = St := by
          simp [NearestScan.step, hSrc, hLt]
        rw [hStep]
        rcases ih St with ⟨hEq, hAll⟩ | ⟨pre, best, post, hSp, hEq, hB, hPre, hPost⟩
        · refine Or.inl ⟨hEq, ?_⟩
          intro q hq
          rcases List.mem_cons.1 hq with h | h
          · rw [h]; exact not_lt.1 hLt
          · exact hAll q h
        · refine Or.inr ⟨A.Location :: pre, best, post, by rw [hSp]; rfl, hEq, hB, ?_, hPost⟩
          intro q hq
          rcases List.mem_cons.1 hq with h | h
          · rw [h]; exact lt_of_lt_of_le hB (not_lt.1 hLt)
          · exact hPre q h
    · have hSrc' : (A.FindComponentByClass EComponentClass.ThermoForgeSource).isSome = false := by
        simpa using hSrc
      rw [SourcePositionsOf_cons_other A As hSrc']
      have hStep : NearestScan.step C St A = St := by
        simp [NearestScan.step, hSrc']
      rw [hStep]
      exact ih St

/-- Without a source whose narrowed squared distance is below the largest
finite `float`, `ResolveOrigin_NearestSource` returns false and leaves the
outputs as they were. -/
theorem nearest_source_fails_of_far (M : FMath) (W : UWorld) (C O : FVector) (Q : ℚ)
    (h : ∀ p ∈ SourcePositions W, FLT_MAX ≤ ToFloat (FVector.DistSquared C p)) :
    ResolveOrigin_NearestSource M W C O Q = (false, O, Q) := by
  rcases NearestScan_foldl_spec C W.Actors
      { BestDistSq := FLT_MAX, BestPos := FVector.ZeroVector, bFound := false }
    with ⟨hEq, -⟩ | ⟨pre, best, post, hSp, -, hB, -, -⟩
  · simp [ResolveOrigin_NearestSource, hEq]
  · have hMem : best ∈ SourcePositions W := by
      unfold SourcePositions
      rw [hSp]
      simp
    exact absurd hB (not_lt.2 (h best hMem))

/-- The result of `ResolveOrigin_NearestSource` once the first source of least
narrowed squared distance is known. -/
theorem nearest_source_of_split (M : FMath) (W : UWorld) (C O : FVector) (Q : ℚ)
    (pre : List FVector) (best : FVector) (post : List FVector)
    (hSp : SourcePositions W = pre ++ best :: post)
    (hLt : ToFloat (FVector.DistSquared C best) < FLT_MAX)
    (hPre : ∀ q ∈ pre, ToFloat (FVector.DistSquared C best) < ToFloat (FVector.DistSquared C q))
    (hPost : ∀ q ∈ post,
      ToFloat (FVector.DistSquared C best) ≤ ToFloat (FVector.DistSquared C q)) :
    ResolveOrigin_NearestSource M W C O Q
      = (true, best, if ToFloat (M.Sqrt (ToFloat (FVector.DistSquared C best))) > 1 / 2
          then 1 / ToFloat (M.Sqrt (ToFloat (FVector.DistSquared C best))) else 1) := by
  unfold SourcePositions at hSp
  rcases NearestScan_foldl_spec C W.Actors
      { BestDistSq := FLT_MAX, BestPos := FVector.ZeroVector, bFound := false }
    with ⟨-, hAll⟩ | ⟨pre2, best2, post2, hSp2, hEq, -, hPre2, hPost2⟩
  · exact absurd hLt (not_lt.2 (hAll best (by rw [hSp]; simp)))
  · have hbb : best2 = best := by
      have hE : pre ++ best :: post = pre2 ++ best2 :: post2 := hSp.symm.trans hSp2
      rcases List.append_eq_append_iff.1 hE with ⟨a, h1, h2⟩ | ⟨c, h1, h2⟩
      · cases a with
        | nil =>
          simp only [List.nil_append, List.cons.injEq] at h2
          exact h2.1.symm
        | cons x a =>
          simp only [List.cons_append, List.cons.injEq] at h2
          have hm1 : best ∈ pre2 := by rw [h1, h2.1]; simp
          have hm2 : best2 ∈ post := by rw [h2.2]; simp
          exact absurd (hPre2 best hm1) (not_lt.2 (hPost best2 hm2))
      · cases c with
        | nil =>
          simp only [List.nil_append, List.cons.injEq] at h2
          exact h2.1
        | cons x c =>
          simp only [List.cons_append, List.cons.injEq] at h2
          have hm1 : best2 ∈ pre := by rw [h1, h2.1]; simp
          have hm2 : best ∈ post2 := by rw [h2.2]; simp
          exact absurd (hPre best2 hm1) (not_lt.2 (hPost2 best hm2))
    rw [hbb] at hEq
    simp [ResolveOrigin_NearestSource, hEq, TF_EPS_DIST]

/-- What `TickHeat` computes in nearest-source mode once the result of
`ResolveOrigin_NearestSource` is known to be a found origin. -/
theorem TickHeat_Evaluate_of_nearest (M : FMath) (H : Host) (W : UWorld) (Owner : AActor)
    (S : UThermoForgeHeatFXComponent) (best : FVector) (s : ℚ)
    (hMode : S.OriginMode = EThermoOriginMode.NearestSourceActor)
    (hR : ResolveOrigin_NearestSource M W Owner.Location FVector.ZeroVector 0 = (true, best, s)) :
    TickHeat_Evaluate M H W Owner S
      = { TNow := (SampleTempAt H Owner.Location).1, OriginWS := best, Strength := s,
          bOriginOK := true, UsedMode := EThermoOriginMode.NearestSourceActor,
          Dir := FVector.GetSafeNormal M (best.sub Owner.Location),
          Dist := ToFloat (FVector.Distance M Owner.Location best),
          Log := (SampleTempAt H Owner.Location).2 } := by
  simp [TickHeat_Evaluate, TickHeat_ResolveOrigin, hMode, hR]

/-- The source positions of `DemoWorld`. -/
theorem Demo_SourcePositions :
    SourcePositions DemoWorld = [⟨2, 0, 0⟩, ⟨0, 5, 0⟩] ++ ⟨0, 0, 1⟩ :: [] := by
  simp [SourcePositions, SourcePositionsOf, DemoWorld, DemoOwner, DemoSource, DemoPrimitive,
    AActor.FindComponentByClass]

/-- In `DemoWorld` the nearest source of the origin is the third, at distance 1. -/
theorem Demo_NearestSource (M : FMath) (O : FVector) (Q : ℚ) (hS : M.Sqrt 1 = 1) :
    ResolveOrigin_NearestSource M DemoWorld ⟨0, 0, 0⟩ O Q = (true, ⟨0, 0, 1⟩, 1) := by
  have hD : FVector.DistSquared ⟨0, 0, 0⟩ ⟨0, 0, 1⟩ = 1 := by norm_num [FVector.DistSquared]
  rw [nearest_source_of_split M DemoWorld ⟨0, 0, 0⟩ O Q _ _ _ Demo_SourcePositions
    (by rw [hD, ToFloat_one]; norm_num [FLT_MAX])
    (by
      intro q hq
      simp only [List.mem_cons, List.mem_singleton, List.not_mem_nil, or_false] at hq
      rcases hq with h | h
      · rw [h, hD, ToFloat_one]
        norm_num [FVector.DistSquared, ToFloat_four]
      · rw [h, hD, ToFloat_one]
        norm_num [FVector.DistSquared, ToFloat_twentyfive])
    (by simp), hD, ToFloat_one, hS, ToFloat_one]
  norm_num

/-- What `TickHeat` computes in `DemoHost` for a component in nearest-source mode. -/
theorem Demo_Evaluate (S : UThermoForgeHeatFXComponent)
    (hMode : S.OriginMode = EThermoOriginMode.NearestSourceActor) :
    TickHeat_Evaluate ExactMath DemoHost DemoWorld DemoOwner S
      = { TNow := 20, OriginWS := ⟨0, 0, 1⟩, Strength := 1, bOriginOK := true,
          UsedMode := EThermoOriginMode.NearestSourceActor, Dir := ⟨0, 0, 1⟩, Dist := 1,
          Log := [Effect.ComputeCurrentTemperatureAt ⟨0, 0, 0⟩ false 12 (5033165 / 16777216)] } := by
  have hD : FVector.DistSquared DemoOwner.Location ⟨0, 0, 1⟩ = 1 := by
    norm_num [FVector.DistSquared, DemoOwner]
  have hN : FVector.GetSafeNormal ExactMath ((⟨0, 0, 1⟩ : FVector).sub DemoOwner.Location)
      = ⟨0, 0, 1⟩ := by
    norm_num [FVector.GetSafeNormal, FVector.sub, DemoOwner]
  rw [TickHeat_Evaluate_of_nearest ExactMath DemoHost DemoWorld DemoOwner S ⟨0, 0, 1⟩ 1 hMode
    (Demo_NearestSource ExactMath _ _ ExactMath_Sqrt_one), hN]
  simp only [FVector.Distance, hD, ExactMath_Sqrt_one, ToFloat_one]
  simp [SampleTempAt, DemoHost, DemoWorld, DemoField, DemoOwner]

/-- The state `TickHeat_Commit` leaves: published state and cache both hold the
locals, and only `TargetPrim` may differ beyond that. -/
theorem TickHeat_Commit_state (H : Host) (S : UThermoForgeHeatFXComponent) (L : TickLocals) :
    (TickHeat_Commit H S L).1
      = { TickHeat_CachePrevious (TickHeat_Publish S L) L with
          TargetPrim := (TickHeat_Commit H S L).1.TargetPrim } := by
  unfold TickHeat_Commit
  simp only
  exact WriteCustomPrimitiveData_state H _

/-- The effects of `TickHeat_Commit`: the optional jump, the update, the export. -/
theorem TickHeat_Commit_log (H : Host) (S : UThermoForgeHeatFXComponent) (L : TickLocals) :
    (TickHeat_Commit H S L).2
      = TickHeat_Jump S (TickHeat_Publish S L) L
        ++ [Effect.OnHeatUpdated L.TNow L.Strength L.Dir L.Dist L.OriginWS L.UsedMode]
        ++ (WriteCustomPrimitiveData H (TickHeat_CachePrevious (TickHeat_Publish S L) L)).2 :=
  rfl

theorem IsExport_exclusive (e : Effect) (h : e.IsExport = true) :
    e.IsUpdated = false ∧ e.IsJump = false ∧ e.IsFieldQuery = false := by
  cases e <;> simp_all [Effect.IsFieldQuery, Effect.IsUpdated, Effect.IsJump, Effect.IsExport]

/-- Membership in the effects of a committing `TickHeat`, by kind. -/
theorem TickHeat_Commit_mem (H : Host) (S : UThermoForgeHeatFXComponent) (L : TickLocals)
    (e : Effect) (he : e ∈ (TickHeat_Commit H S L).2) :
    e ∈ TickHeat_Jump S (TickHeat_Publish S L) L
      ∨ e = Effect.OnHeatUpdated L.TNow L.Strength L.Dir L.Dist L.OriginWS L.UsedMode
      ∨ e.IsExport = true := by
  rw [TickHeat_Commit_log] at he
  simp only [List.mem_append, List.mem_singleton] at he
  rcases he with (h | h) | h
  · exact Or.inl h
  · exact Or.inr (Or.inl h)
  · exact Or.inr (Or.inr (WriteCustomPrimitiveData_log H _ e h))

/-- The jump list holds at most the one jump notification. -/
theorem TickHeat_Jump_mem (S0 S1 : UThermoForgeHeatFXComponent) (L : TickLocals) (e : Effect) :
    e ∈ TickHeat_Jump S0 S1 L ↔
      (|ToFloat (L.TNow - S0.PrevTemperatureC)| ≥ S0.ChangeThresholdC
        ∧ e = Effect.OnHeatJump L.TNow S0.PrevTemperatureC
            (ToFloat (L.TNow - S0.PrevTemperatureC))
            S1.HeatStrength S1.HeatDirWS S1.DistanceCm S1.SourcePosWS) := by
  unfold TickHeat_Jump
  by_cases h : |ToFloat (L.TNow - S0.PrevTemperatureC)| ≥ S0.ChangeThresholdC
  · simp [h]
  · simp [h]

/-- No change is detected exactly when a commit is recorded and each of the
five comparisons passes: the rounded differences of temperature, distance and
strength and the component differences of direction and position are within
the tolerances of the source. -/
theorem TickHeat_bAnyChanged_eq_false (S : UThermoForgeHeatFXComponent) (L : TickLocals) :
    TickHeat_bAnyChanged S L = false ↔
      (|ToFloat (L.TNow - S.PrevTemperatureC)| ≤ TF_EPS_TEMP
        ∧ (|L.Dir.X - S.PrevHeatDirWS.X| ≤ TF_EPS_DIR
            ∧ |L.Dir.Y - S.PrevHeatDirWS.Y| ≤ TF_EPS_DIR
            ∧ |L.Dir.Z - S.PrevHeatDirWS.Z| ≤ TF_EPS_DIR)
        ∧ (|L.OriginWS.X - S.PrevSourcePosWS.X| ≤ 1 / 2
            ∧ |L.OriginWS.Y - S.PrevSourcePosWS.Y| ≤ 1 / 2
            ∧ |L.OriginWS.Z - S.PrevSourcePosWS.Z| ≤ 1 / 2)
        ∧ |ToFloat (L.Dist - S.PrevDistanceCm)| ≤ TF_EPS_DIST
        ∧ |ToFloat (L.Strength - S.PrevStrength)| ≤ TF_EPS_STR
        ∧ S.bHadInitialFire = true) := by
  simp only [TickHeat_bAnyChanged, TickHeat_bTempChanged, TickHeat_bDirChanged,
    TickHeat_bPosChanged, TickHeat_bDistChanged, TickHeat_bStrChanged,
    FMath.IsNearlyEqual, FVector.Equals, TF_EPS_DIR,
    Bool.or_eq_false_iff, Bool.not_eq_false', Bool.and_eq_true, decide_eq_true_eq]
  tauto

/-- The decimal tolerances against the `float` ones: `1e-3f` lies above one
thousandth, and a magnitude below one hundredth (one thousandth, one half)
rounds to at most `1e-2f` (`1e-3f`, `0.5f`). -/
theorem TF_EPS_DIR_gt : (1 : ℚ) / 1000 < TF_EPS_DIR := by
  norm_num [TF_EPS_DIR]

theorem ToFloat_abs_le_TF_EPS_TEMP (x : ℚ) (h : |x| ≤ 1 / 100) :
    |ToFloat x| ≤ TF_EPS_TEMP := by
  rw [ToFloat_abs]
  have := ToFloat_mono _ _ h
  rwa [ToFloat_hundredth] at this

theorem ToFloat_abs_le_TF_EPS_STR (x : ℚ) (h : |x| ≤ 1 / 1000) :
    |ToFloat x| ≤ TF_EPS_STR := by
  rw [ToFloat_abs]
  have := ToFloat_mono _ _ h
  rwa [ToFloat_thousandth] at this

theorem ToFloat_abs_le_TF_EPS_DIST (x : ℚ) (h : |x| ≤ 1 / 2) :
    |ToFloat x| ≤ TF_EPS_DIST := by
  rw [ToFloat_abs]
  have := ToFloat_mono _ _ h
  rwa [ToFloat_half] at this

/-! ## Claims on `TickHeat` -/

/-- C1 (tolerance gating): with a prior commit, a valid world and owner, and
every freshly computed value strictly within its tolerance of the cached one,
`TickHeat` returns the component unchanged and raises only field queries: no
"updated", no "jump", no export slot write. -/
theorem tolerance_gating (M : FMath) (H : Host) (S : UThermoForgeHeatFXComponent)
    (W : UWorld) (Owner : AActor) (hW : H.World = some W) (hO : H.Owner = some Owner)
    (hFired : S.bHadInitialFire = true)
    (hTemp : |(TickHeat_Evaluate M H W Owner S).TNow - S.PrevTemperatureC| < 1 / 100)
    (hDirX : |(TickHeat_Evaluate M H W Owner S).Dir.X - S.PrevHeatDirWS.X| < 1 / 1000)
    (hDirY : |(TickHeat_Evaluate M H W Owner S).Dir.Y - S.PrevHeatDirWS.Y| < 1 / 1000)
    (hDirZ : |(TickHeat_Evaluate M H W Owner S).Dir.Z - S.PrevHeatDirWS.Z| < 1 / 1000)
    (hPosX : |(TickHeat_Evaluate M H W Owner S).OriginWS.X - S.PrevSourcePosWS.X| < 1 / 2)
    (hPosY : |(TickHeat_Evaluate M H W Owner S).OriginWS.Y - S.PrevSourcePosWS.Y| < 1 / 2)
    (hPosZ : |(TickHeat_Evaluate M H W Owner S).OriginWS.Z - S.PrevSourcePosWS.Z| < 1 / 2)
    (hDist : |(TickHeat_Evaluate M H W Owner S).Dist - S.PrevDistanceCm| < 1 / 2)
    (hStr : |(TickHeat_Evaluate M H W Owner S).Strength - S.PrevStrength| < 1 / 1000) :
    (TickHeat M H S).1 = S
      ∧ ∀ e ∈ (TickHeat M H S).2,
          e.IsUpdated = false ∧ e.IsJump = false ∧ e.IsExport = false := by
  have hC : TickHeat_bAnyChanged S (TickHeat_Evaluate M H W Owner S) = false :=
    (TickHeat_bAnyChanged_eq_false S _).2
      ⟨ToFloat_abs_le_TF_EPS_TEMP _ hTemp.le,
        ⟨(hDirX.trans TF_EPS_DIR_gt).le, (hDirY.trans TF_EPS_DIR_gt).le,
          (hDirZ.trans TF_EPS_DIR_gt).le⟩,
        ⟨hPosX.le, hPosY.le, hPosZ.le⟩,
        ToFloat_abs_le_TF_EPS_DIST _ hDist.le, ToFloat_abs_le_TF_EPS_STR _ hStr.le, hFired⟩
  rw [TickHeat_unchanged M H S W Owner hW hO hC]
  refine ⟨rfl, fun e he => ?_⟩
  exact IsFieldQuery_exclusive e (TickHeat_Evaluate_log M H W Owner S e he)

/-- C1 at `DemoSettled` in `DemoHost`: the field now returns 20 against a cached
20.005 and the nearest source has not moved. -/
theorem tolerance_gating_witness :
    (TickHeat ExactMath DemoHost DemoSettled).1 = DemoSettled
      ∧ ∀ e ∈ (TickHeat ExactMath DemoHost DemoSettled).2,
          e.IsUpdated = false ∧ e.IsJump = false ∧ e.IsExport = false :=
  tolerance_gating ExactMath DemoHost DemoSettled DemoWorld DemoOwner rfl rfl rfl
    (by rw [Demo_Evaluate DemoSettled rfl]; norm_num [DemoSettled, DemoComponent, abs_lt])
    (by rw [Demo_Evaluate DemoSettled rfl]; norm_num [DemoSettled, DemoComponent])
    (by rw [Demo_Evaluate DemoSettled rfl]; norm_num [DemoSettled, DemoComponent])
    (by rw [Demo_Evaluate DemoSettled rfl]; norm_num [DemoSettled, DemoComponent])
    (by rw [Demo_Evaluate DemoSettled rfl]; norm_num [DemoSettled, DemoComponent])
    (by rw [Demo_Evaluate DemoSettled rfl]; norm_num [DemoSettled, DemoComponent])
    (by rw [Demo_Evaluate DemoSettled rfl]; norm_num [DemoSettled, DemoComponent])
    (by rw [Demo_Evaluate DemoSettled rfl]; norm_num [DemoSettled, DemoComponent])
    (by rw [Demo_Evaluate DemoSettled rfl]; norm_num [DemoSettled, DemoComponent])

/-- C2 (first-fire guarantee): with a valid world and owner, `TickHeat` on a
component that has not committed yet raises an "updated" notification and
leaves `bHadInitialFire` set, whatever the configuration and the cached values. -/
theorem first_fire_guarantee (M : FMath) (H : Host) (S : UThermoForgeHeatFXComponent)
    (W : UWorld) (Owner : AActor) (hW : H.World = some W) (hO : H.Owner = some Owner)
    (hNotFired : S.bHadInitialFire = false) :
    (∃ e ∈ (TickHeat M H S).2, e.IsUpdated = true)
      ∧ (TickHeat M H S).1.bHadInitialFire = true := by
  have hC : TickHeat_bAnyChanged S (TickHeat_Evaluate M H W Owner S) = true := by
    simp [TickHeat_bAnyChanged, hNotFired]
  rw [TickHeat_changed M H S W Owner hW hO hC]
  refine ⟨⟨Effect.OnHeatUpdated (TickHeat_Evaluate M H W Owner S).TNow
      (TickHeat_Evaluate M H W Owner S).Strength (TickHeat_Evaluate M H W Owner S).Dir
      (TickHeat_Evaluate M H W Owner S).Dist (TickHeat_Evaluate M H W Owner S).OriginWS
      (TickHeat_Evaluate M H W Owner S).UsedMode, ?_, rfl⟩,
    TickHeat_Commit_bHadInitialFire H S _⟩
  rw [TickHeat_Commit_log]
  simp

/-- C2 at the fresh `DemoComponent` in `DemoHost`. -/
theorem first_fire_guarantee_witness :
    (∃ e ∈ (TickHeat ExactMath DemoHost DemoComponent).2, e.IsUpdated = true)
      ∧ (TickHeat ExactMath DemoHost DemoComponent).1.bHadInitialFire = true :=
  first_fire_guarantee ExactMath DemoHost DemoComponent DemoWorld DemoOwner rfl rfl rfl

/-- What `TickHeat` computes in `ConstantHost T` when no origin is sought or
found: nearest-source mode (the world has no source) or an unknown mode. -/
theorem Constant_Evaluate (T : ℚ) (S : UThermoForgeHeatFXComponent)
    (hMode : S.OriginMode = EThermoOriginMode.NearestSourceActor
      ∨ ∃ N, S.OriginMode = EThermoOriginMode.Other N) :
    TickHeat_Evaluate ExactMath (ConstantHost T) (ConstantWorld T) DemoOwner S
      = { TNow := T, OriginWS := ⟨0, 0, 0⟩, Strength := 0, bOriginOK := false,
          UsedMode := S.OriginMode, Dir := ⟨0, 0, 0⟩, Dist := 0,
          Log := [Effect.ComputeCurrentTemperatureAt ⟨0, 0, 0⟩ false 12
            (5033165 / 16777216)] } := by
  rcases hMode with h | ⟨N, h⟩
  · simp [TickHeat_Evaluate, TickHeat_ResolveOrigin, ResolveOrigin_NearestSource,
      NearestScan.step, SampleTempAt, ConstantHost, ConstantWorld, ConstantField, DemoOwner,
      DemoPrimitive, h, AActor.FindComponentByClass, FVector.ZeroVector]
  · simp [TickHeat_Evaluate, TickHeat_ResolveOrigin, SampleTempAt, ConstantHost,
      ConstantWorld, ConstantField, DemoOwner, h, FVector.ZeroVector]

/-- The `float` difference of `5 - 2^-21` and `-(2^-22 + 2^-40)` is 5. -/
theorem ToFloat_jump_delta :
    ToFloat (5 - 1 / 2 ^ 21 - -(1 / 2 ^ 22 + 1 / 2 ^ 40)) = 5 :=
  ToFloat_of_lt _ 5 2 10485760 (by norm_num) (by norm_num)
    (Or.inr (by norm_num [abs_of_pos])) (by norm_num [abs_of_pos])
    (by norm_num [abs_lt]) (by norm_num)

/-- C3, the case against the claim as written: a component whose cached
temperature is `-(2^-22 + 2^-40)`, ticked where the field returns `5 - 2^-21`
with a threshold of 5 degrees.  The temperatures are less than 5 degrees apart,
yet `TickHeat` raises the "jump" notification: the `float` difference `DeltaC`
that the source tests is 5. -/
theorem jump_raised_below_threshold :
    |(TickHeat_Evaluate ExactMath (ConstantHost (5 - 1 / 2 ^ 21))
          (ConstantWorld (5 - 1 / 2 ^ 21)) DemoOwner JumpComponent).TNow
        - JumpComponent.PrevTemperatureC| < JumpComponent.ChangeThresholdC
      ∧ ∃ e ∈ (TickHeat ExactMath (ConstantHost (5 - 1 / 2 ^ 21)) JumpComponent).2,
          e.IsJump = true := by
  have hE := Constant_Evaluate (5 - 1 / 2 ^ 21) JumpComponent (Or.inl rfl)
  have hD : ToFloat (5 - 1 / 2 ^ 21 - JumpComponent.PrevTemperatureC) = 5 := ToFloat_jump_delta
  have hC : TickHeat_bAnyChanged JumpComponent
      (TickHeat_Evaluate ExactMath (ConstantHost (5 - 1 / 2 ^ 21))
        (ConstantWorld (5 - 1 / 2 ^ 21)) DemoOwner JumpComponent) = true := by
    rw [hE]
    simp only [TickHeat_bAnyChanged, TickHeat_bTempChanged, FMath.IsNearlyEqual, hD]
    norm_num [TF_EPS_TEMP]
  refine ⟨?_, ?_⟩
  · rw [hE]
    norm_num [JumpComponent, DemoComponent, abs_lt]
  · rw [TickHeat_changed ExactMath _ JumpComponent (ConstantWorld (5 - 1 / 2 ^ 21)) DemoOwner
      rfl rfl hC, hE]
    refine ⟨Effect.OnHeatJump (5 - 1 / 2 ^ 21) JumpComponent.PrevTemperatureC 5 0 ⟨0, 0, 0⟩ 0
      ⟨0, 0, 0⟩, ?_, rfl⟩
    apply List.mem_append_right
    rw [TickHeat_Commit_log]
    apply List.mem_append_left
    apply List.mem_append_left
    rw [TickHeat_Jump_mem]
    simp only [hD]
    exact ⟨by norm_num [JumpComponent, DemoComponent], rfl⟩

/-- C3 (jump threshold), amended: with a valid world and owner, `TickHeat`
raises a "jump" notification exactly when it commits and `|DeltaC|` is at least
`ChangeThresholdC`, where `DeltaC` is the difference of the new temperature and
the `PrevTemperatureC` held on entry rounded to `float`; every jump raised
carries the new temperature, that old temperature, `DeltaC` and the strength,
direction, distance and origin position published by this call; without a
commit no jump is raised. -/
theorem jump_threshold (M : FMath) (H : Host) (S : UThermoForgeHeatFXComponent)
    (W : UWorld) (Owner : AActor) (hW : H.World = some W) (hO : H.Owner = some Owner) :
    ((∃ e ∈ (TickHeat M H S).2, e.IsJump = true) ↔
        (TickHeat_bAnyChanged S (TickHeat_Evaluate M H W Owner S) = true
          ∧ |ToFloat ((TickHeat_Evaluate M H W Owner S).TNow - S.PrevTemperatureC)|
              ≥ S.ChangeThresholdC))
      ∧ (∀ e ∈ (TickHeat M H S).2, e.IsJump = true →
          e = Effect.OnHeatJump (TickHeat_Evaluate M H W Owner S).TNow S.PrevTemperatureC
                (ToFloat ((TickHeat_Evaluate M H W Owner S).TNow - S.PrevTemperatureC))
                (TickHeat M H S).1.HeatStrength (TickHeat M H S).1.HeatDirWS
                (TickHeat M H S).1.DistanceCm (TickHeat M H S).1.SourcePosWS
            ∧ (TickHeat M H S).1.HeatStrength = (TickHeat_Evaluate M H W Owner S).Strength
            ∧ (TickHeat M H S).1.HeatDirWS = (TickHeat_Evaluate M H W Owner S).Dir
            ∧ (TickHeat M H S).1.DistanceCm = (TickHeat_Evaluate M H W Owner S).Dist
            ∧ (TickHeat M H S).1.SourcePosWS = (TickHeat_Evaluate M H W Owner S).OriginWS)
      ∧ (TickHeat_bAnyChanged S (TickHeat_Evaluate M H W Owner S) = false →
          ∀ e ∈ (TickHeat M H S).2, e.IsJump = false) := by
  by_cases hC : TickHeat_bAnyChanged S (TickHeat_Evaluate M H W Owner S) = true
  · rw [TickHeat_changed M H S W Owner hW hO hC]
    have hmem : ∀ e, e ∈ (TickHeat_Evaluate M H W Owner S).Log
          ++ (TickHeat_Commit H S (TickHeat_Evaluate M H W Owner S)).2 → e.IsJump = true →
        e ∈ TickHeat_Jump S (TickHeat_Publish S (TickHeat_Evaluate M H W Owner S))
          (TickHeat_Evaluate M H W Owner S) := by
      intro e he hj
      rcases List.mem_append.1 he with h | h
      · have := (IsFieldQuery_exclusive e (TickHeat_Evaluate_log M H W Owner S e h)).2.1
        simp [this] at hj
      · rcases TickHeat_Commit_mem H S _ e h with h | h | h
        · exact h
        · subst h; simp [Effect.IsJump] at hj
        · have := (IsExport_exclusive e h).2.1
          simp [this] at hj
    refine ⟨⟨?_, ?_⟩, ?_, ?_⟩
    · rintro ⟨e, he, hj⟩
      exact ⟨hC, ((TickHeat_Jump_mem _ _ _ e).1 (hmem e he hj)).1⟩
    · rintro ⟨-, hT⟩
      refine ⟨Effect.OnHeatJump (TickHeat_Evaluate M H W Owner S).TNow S.PrevTemperatureC
        (ToFloat ((TickHeat_Evaluate M H W Owner S).TNow - S.PrevTemperatureC))
        (TickHeat_Publish S (TickHeat_Evaluate M H W Owner S)).HeatStrength
        (TickHeat_Publish S (TickHeat_Evaluate M H W Owner S)).HeatDirWS
        (TickHeat_Publish S (TickHeat_Evaluate M H W Owner S)).DistanceCm
        (TickHeat_Publish S (TickHeat_Evaluate M H W Owner S)).SourcePosWS, ?_, rfl⟩
      apply List.mem_append_right
      rw [TickHeat_Commit_log]
      apply List.mem_append_left
      apply List.mem_append_left
      exact (TickHeat_Jump_mem _ _ _ _).2 ⟨hT, rfl⟩
    · intro e he hj
      have h := ((TickHeat_Jump_mem _ _ _ e).1 (hmem e he hj)).2
      simp only
      rw [TickHeat_Commit_state]
      exact ⟨h, rfl, rfl, rfl, rfl⟩
    · intro hF
      rw [hC] at hF
      exact absurd hF (by decide)
  · have hC' : TickHeat_bAnyChanged S (TickHeat_Evaluate M H W Owner S) = false := by
      simpa using hC
    rw [TickHeat_unchanged M H S W Owner hW hO hC']
    have hno : ∀ e ∈ (TickHeat_Evaluate M H W Owner S).Log, e.IsJump = false := fun e he =>
      (IsFieldQuery_exclusive e (TickHeat_Evaluate_log M H W Owner S e he)).2.1
    refine ⟨⟨?_, ?_⟩, ?_, fun _ => hno⟩
    · rintro ⟨e, he, hj⟩
      rw [hno e he] at hj
      exact absurd hj (by decide)
    · rintro ⟨h, -⟩
      exact absurd h hC
    · intro e he hj
      rw [hno e he] at hj
      exact absurd hj (by decide)

/-- C3 at the fresh `DemoComponent` in `DemoHost`: the first call commits and
the temperature moves from the cached 0 to 20, beyond the threshold 5, so a
jump is raised. -/
theorem jump_threshold_witness :
    ∃ e ∈ (TickHeat ExactMath DemoHost DemoComponent).2, e.IsJump = true :=
  (jump_threshold ExactMath DemoHost DemoComponent DemoWorld DemoOwner rfl rfl).1.2
    ⟨by simp [TickHeat_bAnyChanged, DemoComponent],
     by rw [Demo_Evaluate DemoComponent rfl]; norm_num [DemoComponent, ToFloat_twenty]⟩

/-- C8 (no-op safety): without a world or without an owner `TickHeat` returns
the component as it was and has no effect at all: no notification, no field
query, no export slot write. -/
theorem noop_safety (M : FMath) (H : Host) (S : UThermoForgeHeatFXComponent)
    (hAbsent : H.World = none ∨ H.Owner = none) :
    TickHeat M H S = (S, []) := by
  unfold TickHeat
  rcases hAbsent with h | h
  · simp [h]
  · cases hW : H.World <;> simp [h]

/-- C8 at `DemoSettled` with the owner of `DemoHost` but no world. -/
theorem noop_safety_witness :
    TickHeat ExactMath { DemoHost with World := none } DemoSettled = (DemoSettled, []) :=
  noop_safety ExactMath { DemoHost with World := none } DemoSettled (Or.inl rfl)

/-- The function `TickHeat` preserves the agreement of cache and published state. -/
theorem TickHeat_SnapshotConsistent (M : FMath) (H : Host) (S : UThermoForgeHeatFXComponent)
    (hS : SnapshotConsistent S) : SnapshotConsistent (TickHeat M H S).1 := by
  cases hW : H.World with
  | none => simpa [TickHeat, hW] using hS
  | some W =>
    cases hO : H.Owner with
    | none => simpa [TickHeat, hW, hO] using hS
    | some Owner =>
      by_cases hC : TickHeat_bAnyChanged S (TickHeat_Evaluate M H W Owner S) = true
      · rw [TickHeat_changed M H S W Owner hW hO hC]
        simp only
        rw [TickHeat_Commit_state]
        intro _
        exact ⟨rfl, rfl, rfl, rfl, rfl⟩
      · have hC' : TickHeat_bAnyChanged S (TickHeat_Evaluate M H W Owner S) = false := by
          simpa using hC
        rw [TickHeat_unchanged M H S W Owner hW hO hC']
        exact hS

/-- C9 (snapshot/state consistency): "if `bHadInitialFire` then each `Prev*`
equals its published field" holds for a freshly created component, is preserved
by every `TickHeat` with or without valid context, and so holds after every
sequence of `TickHeat` calls on a fresh component. -/
theorem snapshot_consistency (M : FMath) (Cfg : UThermoForgeHeatFXComponent) :
    SnapshotConsistent (FreshInstance Cfg)
      ∧ (∀ (H : Host) (S : UThermoForgeHeatFXComponent),
          SnapshotConsistent S → SnapshotConsistent (TickHeat M H S).1)
      ∧ ∀ Hs : List Host, SnapshotConsistent (TickHeatRun M Hs (FreshInstance Cfg)) := by
  have hFresh : SnapshotConsistent (FreshInstance Cfg) := by
    intro h
    simp [FreshInstance] at h
  refine ⟨hFresh, fun H S hS => TickHeat_SnapshotConsistent M H S hS, fun Hs => ?_⟩
  unfold TickHeatRun
  generalize FreshInstance Cfg = S0 at hFresh
  induction Hs generalizing S0 with
  | nil => exact hFresh
  | cons H Hs ih =>
    simp only [List.foldl_cons]
    exact ih _ (TickHeat_SnapshotConsistent M H S0 hFresh)

/-- C9 at `DemoSettled`, a consistent state with a commit recorded, ticked in
`DemoHost` after the cached temperature was committed at 20.005. -/
theorem snapshot_consistency_witness :
    SnapshotConsistent DemoSettled
      ∧ SnapshotConsistent (TickHeat ExactMath DemoHost DemoSettled).1 :=
  ⟨fun _ => ⟨rfl, rfl, rfl, rfl, rfl⟩,
    (snapshot_consistency ExactMath DemoComponent).2.1 DemoHost DemoSettled
      (fun _ => ⟨rfl, rfl, rfl, rfl, rfl⟩)⟩

/-! ## Export -/

/-- The target `EnsureTargetPrimitive` resolves depends on the host only. -/
theorem EnsureTargetPrimitive_target (H : Host) (S S' : UThermoForgeHeatFXComponent) :
    (EnsureTargetPrimitive H S).TargetPrim = (EnsureTargetPrimitive H S').TargetPrim := by
  unfold EnsureTargetPrimitive
  cases h1 : ResolveOverridePrimitive H with
  | some P => rfl
  | none =>
    cases h2 : H.Owner with
    | none => rfl
    | some Owner =>
      cases h3 : Owner.FindComponentByClass EComponentClass.Primitive <;> simp [h3]

/-- The slot writes of `WriteCustomPrimitiveData` when export is on and a target resolves. -/
theorem WriteCustomPrimitiveData_writes (H : Host) (S : UThermoForgeHeatFXComponent)
    (Prim : UActorComponent) (hOn : S.bWriteCustomPrimitiveData = true)
    (hT : (EnsureTargetPrimitive H S).TargetPrim = some Prim) :
    (WriteCustomPrimitiveData H S).2
      = [ Effect.SetCustomPrimitiveDataFloat Prim (WrapInt32 (S.CPDBaseIndex + 0)) S.HeatDirWS.X,
          Effect.SetCustomPrimitiveDataFloat Prim (WrapInt32 (S.CPDBaseIndex + 1)) S.HeatDirWS.Y,
          Effect.SetCustomPrimitiveDataFloat Prim (WrapInt32 (S.CPDBaseIndex + 2)) S.HeatDirWS.Z,
          Effect.SetCustomPrimitiveDataFloat Prim (WrapInt32 (S.CPDBaseIndex + 3)) S.TemperatureC,
          Effect.SetCustomPrimitiveDataFloat Prim (WrapInt32 (S.CPDBaseIndex + 4)) S.SourcePosWS.X,
          Effect.SetCustomPrimitiveDataFloat Prim (WrapInt32 (S.CPDBaseIndex + 5)) S.SourcePosWS.Y,
          Effect.SetCustomPrimitiveDataFloat Prim (WrapInt32 (S.CPDBaseIndex + 6)) S.SourcePosWS.Z,
          Effect.SetCustomPrimitiveDataFloat Prim (WrapInt32 (S.CPDBaseIndex + 7)) S.HeatStrength,
          Effect.SetCustomPrimitiveDataFloat Prim (WrapInt32 (S.CPDBaseIndex + 8))
            S.ReferenceRadiusCm ] := by
  obtain ⟨T, hE⟩ := EnsureTargetPrimitive_state H S
  unfold WriteCustomPrimitiveData
  simp only [hOn, Bool.not_true, Bool.false_eq_true, if_false, hT]
  rw [hE]

/-- No slot is written when export is off or no target resolves. -/
theorem WriteCustomPrimitiveData_silent (H : Host) (S : UThermoForgeHeatFXComponent)
    (h : S.bWriteCustomPrimitiveData = false ∨ (EnsureTargetPrimitive H S).TargetPrim = none) :
    (WriteCustomPrimitiveData H S).2 = [] := by
  unfold WriteCustomPrimitiveData
  cases hb : S.bWriteCustomPrimitiveData
  · simp
  · rcases h with h | h
    · rw [hb] at h
      exact absurd h (by decide)
    · simp [h]

theorem filter_IsExport_of_none (l : List Effect) (h : ∀ e ∈ l, e.IsExport = false) :
    l.filter Effect.IsExport = [] := by
  rw [List.filter_eq_nil_iff]
  intro e he
  simp [h e he]

theorem filter_IsExport_of_all (l : List Effect) (h : ∀ e ∈ l, e.IsExport = true) :
    l.filter Effect.IsExport = l := by
  rw [List.filter_eq_self]
  exact h

/-- The slot writes of a committing `TickHeat` are those of the
`WriteCustomPrimitiveData` call that closes the commit. -/
theorem TickHeat_changed_exports (M : FMath) (H : Host) (S : UThermoForgeHeatFXComponent)
    (W : UWorld) (Owner : AActor) (hW : H.World = some W) (hO : H.Owner = some Owner)
    (hC : TickHeat_bAnyChanged S (TickHeat_Evaluate M H W Owner S) = true) :
    (TickHeat M H S).2.filter Effect.IsExport
      = (WriteCustomPrimitiveData H (TickHeat_CachePrevious
          (TickHeat_Publish S (TickHeat_Evaluate M H W Owner S))
          (TickHeat_Evaluate M H W Owner S))).2 := by
  rw [TickHeat_changed M H S W Owner hW hO hC]
  simp only
  rw [TickHeat_Commit_log, List.filter_append, List.filter_append, List.filter_append,
    filter_IsExport_of_none _ (fun e he =>
      (IsFieldQuery_exclusive e (TickHeat_Evaluate_log M H W Owner S e he)).2.2),
    filter_IsExport_of_all _ (WriteCustomPrimitiveData_log H _),
    filter_IsExport_of_none (TickHeat_Jump _ _ _) (fun e he => by
      rw [((TickHeat_Jump_mem _ _ _ e).1 he).2]; rfl)]
  simp [Effect.IsExport]

/-- C7, the case against the claim as written: `OverflowComponent`, whose
`CPDBaseIndex` is the largest `int32`, exporting to the primitive of
`DemoOwner`.  Only the first write goes to slot `CPDBaseIndex + 0`; the sums
`I + 1` to `I + 8` are `int32` sums and wrap around, so the other eight writes
go to the slots from `-2147483648` on and slot `CPDBaseIndex + 1` is not
written. -/
theorem export_slots_wrap :
    (WriteCustomPrimitiveData DemoHost OverflowComponent).2
        = [ Effect.SetCustomPrimitiveDataFloat DemoPrimitive 2147483647 0,
            Effect.SetCustomPrimitiveDataFloat DemoPrimitive (-2147483648) 0,
            Effect.SetCustomPrimitiveDataFloat DemoPrimitive (-2147483647) 0,
            Effect.SetCustomPrimitiveDataFloat DemoPrimitive (-2147483646) 0,
            Effect.SetCustomPrimitiveDataFloat DemoPrimitive (-2147483645) 0,
            Effect.SetCustomPrimitiveDataFloat DemoPrimitive (-2147483644) 0,
            Effect.SetCustomPrimitiveDataFloat DemoPrimitive (-2147483643) 0,
            Effect.SetCustomPrimitiveDataFloat DemoPrimitive (-2147483642) 0,
            Effect.SetCustomPrimitiveDataFloat DemoPrimitive (-2147483641) 100 ]
      ∧ ∀ V, Effect.SetCustomPrimitiveDataFloat DemoPrimitive (OverflowComponent.CPDBaseIndex + 1) V
          ∉ (WriteCustomPrimitiveData DemoHost OverflowComponent).2 := by
  have h : (WriteCustomPrimitiveData DemoHost OverflowComponent).2
        = [ Effect.SetCustomPrimitiveDataFloat DemoPrimitive 2147483647 0,
            Effect.SetCustomPrimitiveDataFloat DemoPrimitive (-2147483648) 0,
            Effect.SetCustomPrimitiveDataFloat DemoPrimitive (-2147483647) 0,
            Effect.SetCustomPrimitiveDataFloat DemoPrimitive (-2147483646) 0,
            Effect.SetCustomPrimitiveDataFloat DemoPrimitive (-2147483645) 0,
            Effect.SetCustomPrimitiveDataFloat DemoPrimitive (-2147483644) 0,
            Effect.SetCustomPrimitiveDataFloat DemoPrimitive (-2147483643) 0,
            Effect.SetCustomPrimitiveDataFloat DemoPrimitive (-2147483642) 0,
            Effect.SetCustomPrimitiveDataFloat DemoPrimitive (-2147483641) 100 ] := by
    rw [WriteCustomPrimitiveData_writes DemoHost OverflowComponent DemoPrimitive rfl rfl]
    norm_num [WrapInt32, OverflowComponent, DemoComponent, FVector.ZeroVector]
  refine ⟨h, fun V hV => ?_⟩
  rw [h] at hV
  norm_num [OverflowComponent, DemoComponent] at hV

/-- C7 (export layout), amended: when export is enabled and a target resolves,
`WriteCustomPrimitiveData` makes exactly nine writes, to the slots
`CPDBaseIndex + 0` to `CPDBaseIndex + 8` as `int32` sums, in this order, with
the direction, the temperature, the source position, the strength and the
reference radius; these are the nine consecutive slots from `CPDBaseIndex`
whenever `CPDBaseIndex + 8` is an `int32`; when export is disabled or no
target resolves it writes nothing; it never changes a data member other than
`TargetPrim`; and a committing `TickHeat` exports the committed values, so that
with base index 0 slot 3 holds the committed temperature and slots 4 to 6 the
committed source position. -/
theorem export_layout (M : FMath) (H : Host) (S : UThermoForgeHeatFXComponent) :
    (∀ Prim, S.bWriteCustomPrimitiveData = true →
        (EnsureTargetPrimitive H S).TargetPrim = some Prim →
        (WriteCustomPrimitiveData H S).2
          = [ Effect.SetCustomPrimitiveDataFloat Prim (WrapInt32 (S.CPDBaseIndex + 0))
                S.HeatDirWS.X,
              Effect.SetCustomPrimitiveDataFloat Prim (WrapInt32 (S.CPDBaseIndex + 1))
                S.HeatDirWS.Y,
              Effect.SetCustomPrimitiveDataFloat Prim (WrapInt32 (S.CPDBaseIndex + 2))
                S.HeatDirWS.Z,
              Effect.SetCustomPrimitiveDataFloat Prim (WrapInt32 (S.CPDBaseIndex + 3))
                S.TemperatureC,
              Effect.SetCustomPrimitiveDataFloat Prim (WrapInt32 (S.CPDBaseIndex + 4))
                S.SourcePosWS.X,
              Effect.SetCustomPrimitiveDataFloat Prim (WrapInt32 (S.CPDBaseIndex + 5))
                S.SourcePosWS.Y,
              Effect.SetCustomPrimitiveDataFloat Prim (WrapInt32 (S.CPDBaseIndex + 6))
                S.SourcePosWS.Z,
              Effect.SetCustomPrimitiveDataFloat Prim (WrapInt32 (S.CPDBaseIndex + 7))
                S.HeatStrength,
              Effect.SetCustomPrimitiveDataFloat Prim (WrapInt32 (S.CPDBaseIndex + 8))
                S.ReferenceRadiusCm ])
      ∧ (∀ Prim, S.bWriteCustomPrimitiveData = true →
        (EnsureTargetPrimitive H S).TargetPrim = some Prim →
        -2147483648 ≤ S.CPDBaseIndex → S.CPDBaseIndex + 8 ≤ 2147483647 →
        (WriteCustomPrimitiveData H S).2
          = [ Effect.SetCustomPrimitiveDataFloat Prim (S.CPDBaseIndex + 0) S.HeatDirWS.X,
              Effect.SetCustomPrimitiveDataFloat Prim (S.CPDBaseIndex + 1) S.HeatDirWS.Y,
              Effect.SetCustomPrimitiveDataFloat Prim (S.CPDBaseIndex + 2) S.HeatDirWS.Z,
              Effect.SetCustomPrimitiveDataFloat Prim (S.CPDBaseIndex + 3) S.TemperatureC,
              Effect.SetCustomPrimitiveDataFloat Prim (S.CPDBaseIndex + 4) S.SourcePosWS.X,
              Effect.SetCustomPrimitiveDataFloat Prim (S.CPDBaseIndex + 5) S.SourcePosWS.Y,
              Effect.SetCustomPrimitiveDataFloat Prim (S.CPDBaseIndex + 6) S.SourcePosWS.Z,
              Effect.SetCustomPrimitiveDataFloat Prim (S.CPDBaseIndex + 7) S.HeatStrength,
              Effect.SetCustomPrimitiveDataFloat Prim (S.CPDBaseIndex + 8)
                S.ReferenceRadiusCm ])
      ∧ ((S.bWriteCustomPrimitiveData = false ∨ (EnsureTargetPrimitive H S).TargetPrim = none) →
          (WriteCustomPrimitiveData H S).2 = [])
      ∧ (WriteCustomPrimitiveData H S).1
          = { S with TargetPrim := (WriteCustomPrimitiveData H S).1.TargetPrim }
      ∧ (∀ W Owner Prim, H.World = some W → H.Owner = some Owner →
          TickHeat_bAnyChanged S (TickHeat_Evaluate M H W Owner S) = true →
          S.bWriteCustomPrimitiveData = true →
          (EnsureTargetPrimitive H S).TargetPrim = some Prim →
          S.CPDBaseIndex = 0 →
          (TickHeat M H S).2.filter Effect.IsExport
            = [ Effect.SetCustomPrimitiveDataFloat Prim 0 (TickHeat M H S).1.HeatDirWS.X,
                Effect.SetCustomPrimitiveDataFloat Prim 1 (TickHeat M H S).1.HeatDirWS.Y,
                Effect.SetCustomPrimitiveDataFloat Prim 2 (TickHeat M H S).1.HeatDirWS.Z,
                Effect.SetCustomPrimitiveDataFloat Prim 3 (TickHeat M H S).1.TemperatureC,
                Effect.SetCustomPrimitiveDataFloat Prim 4 (TickHeat M H S).1.SourcePosWS.X,
                Effect.SetCustomPrimitiveDataFloat Prim 5 (TickHeat M H S).1.SourcePosWS.Y,
                Effect.SetCustomPrimitiveDataFloat Prim 6 (TickHeat M H S).1.SourcePosWS.Z,
                Effect.SetCustomPrimitiveDataFloat Prim 7 (TickHeat M H S).1.HeatStrength,
                Effect.SetCustomPrimitiveDataFloat Prim 8 (TickHeat M H S).1.ReferenceRadiusCm ]
            ∧ (TickHeat M H S).1.TemperatureC = (TickHeat_Evaluate M H W Owner S).TNow
            ∧ (TickHeat M H S).1.SourcePosWS = (TickHeat_Evaluate M H W Owner S).OriginWS) := by
  refine ⟨fun Prim hOn hT => WriteCustomPrimitiveData_writes H S Prim hOn hT, ?_,
    WriteCustomPrimitiveData_silent H S, WriteCustomPrimitiveData_state H S, ?_⟩
  · intro Prim hOn hT hLo hHi
    rw [WriteCustomPrimitiveData_writes H S Prim hOn hT,
      WrapInt32_of_range (S.CPDBaseIndex + 0) (by omega) (by omega),
      WrapInt32_of_range (S.CPDBaseIndex + 1) (by omega) (by omega),
      WrapInt32_of_range (S.CPDBaseIndex + 2) (by omega) (by omega),
      WrapInt32_of_range (S.CPDBaseIndex + 3) (by omega) (by omega),
      WrapInt32_of_range (S.CPDBaseIndex + 4) (by omega) (by omega),
      WrapInt32_of_range (S.CPDBaseIndex + 5) (by omega) (by omega),
      WrapInt32_of_range (S.CPDBaseIndex + 6) (by omega) (by omega),
      WrapInt32_of_range (S.CPDBaseIndex + 7) (by omega) (by omega),
      WrapInt32_of_range (S.CPDBaseIndex + 8) (by omega) (by omega)]
  intro W Owner Prim hW hO hC hOn hT hBase
  have hOn' : (TickHeat_CachePrevious (TickHeat_Publish S (TickHeat_Evaluate M H W Owner S))
      (TickHeat_Evaluate M H W Owner S)).bWriteCustomPrimitiveData = true := hOn
  rw [TickHeat_changed_exports M H S W Owner hW hO hC,
    WriteCustomPrimitiveData_writes H _ Prim hOn'
      ((EnsureTargetPrimitive_target H _ S).trans hT),
    TickHeat_changed M H S W Owner hW hO hC]
  simp only
  rw [TickHeat_Commit_state]
  refine ⟨?_, rfl, rfl⟩
  simp [TickHeat_CachePrevious, TickHeat_Publish, hBase, WrapInt32]

/-- The strength and reference radius `DemoComponent` holds after its first call. -/
theorem commit_fields_demo :
    (TickHeat ExactMath DemoHost DemoComponent).1.HeatStrength = 1
      ∧ (TickHeat ExactMath DemoHost DemoComponent).1.ReferenceRadiusCm = 100 := by
  rw [TickHeat_changed ExactMath DemoHost DemoComponent DemoWorld DemoOwner rfl rfl
    (by simp [TickHeat_bAnyChanged, DemoComponent])]
  simp only
  rw [TickHeat_Commit_state, Demo_Evaluate DemoComponent rfl]
  exact ⟨rfl, rfl⟩

/-- C7 at the fresh `DemoComponent` in `DemoHost`: the first call commits
temperature 20 and source position (0, 0, 1), and slots 3 to 6 of the owner's
primitive receive 20, 0, 0, 1. -/
theorem export_layout_witness :
    ((TickHeat ExactMath DemoHost DemoComponent).2.filter Effect.IsExport).drop 3
        = [ Effect.SetCustomPrimitiveDataFloat DemoPrimitive 3 20,
            Effect.SetCustomPrimitiveDataFloat DemoPrimitive 4 0,
            Effect.SetCustomPrimitiveDataFloat DemoPrimitive 5 0,
            Effect.SetCustomPrimitiveDataFloat DemoPrimitive 6 1,
            Effect.SetCustomPrimitiveDataFloat DemoPrimitive 7 1,
            Effect.SetCustomPrimitiveDataFloat DemoPrimitive 8 100 ] := by
  have h := (export_layout ExactMath DemoHost DemoComponent).2.2.2.2 DemoWorld DemoOwner
    DemoPrimitive rfl rfl (by simp [TickHeat_bAnyChanged, DemoComponent]) rfl rfl rfl
  have hc := commit_fields_demo
  rw [h.1, h.2.1, h.2.2, Demo_Evaluate DemoComponent rfl]
  simp [hc.1, hc.2]

/-! ## Nearest marked source -/

/-- The squared distance 2^128 is unchanged by `ToFloat`, whose exponent is not
bounded above. -/
theorem ToFloat_far :
    ToFloat 340282366920938463463374607431768211456 = 340282366920938463463374607431768211456 :=
  ToFloat_of_fixed _ 128 (2 ^ 23) (by norm_num) (by norm_num) (Or.inr (by norm_num))
    (by norm_num)

/-- The sentinel of the scan: a world with one source, 2^64 units away, has a
non-empty source list, yet `ResolveOrigin_NearestSource` returns false, because
the squared distance 2^128 is not below the initial `BestDistSq`, the largest
finite `float`. -/
theorem nearest_source_far_fails :
    SourcePositions FarWorld ≠ []
      ∧ ResolveOrigin_NearestSource ExactMath FarWorld ⟨0, 0, 0⟩ FVector.ZeroVector 0
          = (false, FVector.ZeroVector, 0) := by
  constructor
  · simp [SourcePositions, SourcePositionsOf, FarWorld, DemoSource,
      AActor.FindComponentByClass]
  · apply nearest_source_fails_of_far
    intro p hp
    have hp2 : p = ⟨2 ^ 64, 0, 0⟩ := by
      simpa [SourcePositions, SourcePositionsOf, FarWorld, DemoSource,
        AActor.FindComponentByClass] using hp
    rw [hp2, show FVector.DistSquared ⟨0, 0, 0⟩ ⟨2 ^ 64, 0, 0⟩
      = 340282366920938463463374607431768211456 by norm_num [FVector.DistSquared], ToFloat_far]
    norm_num [FLT_MAX]

/-- The probe loop keeps the extreme temperature seen so far, the point it was
sampled at, and appends one field query list per probe. -/
theorem ProbeScan_foldl_spec (M : FMath) (H : Host) (C : FVector) (b : Bool) (R : ℚ) (N : Int)
    (Is : List Nat) (St : ProbeScan) (pts : List FVector)
    (hT : St.BestTemp = (SampleTempAt H St.BestPos).1)
    (hMem : St.BestPos ∈ pts)
    (hHot : b = true → ∀ p ∈ pts, (SampleTempAt H p).1 ≤ St.BestTemp)
    (hCold : b = false → ∀ p ∈ pts, St.BestTemp ≤ (SampleTempAt H p).1) :
    (Is.foldl (ProbeScan.step M H C b R N) St).BestTemp
        = (SampleTempAt H (Is.foldl (ProbeScan.step M H C b R N) St).BestPos).1
      ∧ (Is.foldl (ProbeScan.step M H C b R N) St).BestPos ∈ pts ++ Is.map (ProbePoint M C R N)
      ∧ (b = true → ∀ p ∈ pts ++ Is.map (ProbePoint M C R N),
          (SampleTempAt H p).1 ≤ (Is.foldl (ProbeScan.step M H C b R N) St).BestTemp)
      ∧ (b = false → ∀ p ∈ pts ++ Is.map (ProbePoint M C R N),
          (Is.foldl (ProbeScan.step M H C b R N) St).BestTemp ≤ (SampleTempAt H p).1)
      ∧ (Is.foldl (ProbeScan.step M H C b R N) St).Log
          = St.Log ++ (Is.map (ProbePoint M C R N)).flatMap (fun p => (SampleTempAt H p).2) := by
  induction Is generalizing St pts with
  | nil => simpa using ⟨hT, hMem, hHot, hCold⟩
  | cons i Is ih =>
    simp only [List.foldl_cons, List.map_cons, List.flatMap_cons]
    have hStep : (ProbeScan.step M H C b R N St i).BestTemp
          = (SampleTempAt H (ProbeScan.step M H C b R N St i).BestPos).1
        ∧ (ProbeScan.step M H C b R N St i).BestPos ∈ pts ++ [ProbePoint M C R N i]
        ∧ (b = true → ∀ p ∈ pts ++ [ProbePoint M C R N i],
            (SampleTempAt H p).1 ≤ (ProbeScan.step M H C b R N St i).BestTemp)
        ∧ (b = false → ∀ p ∈ pts ++ [ProbePoint M C R N i],
            (ProbeScan.step M H C b R N St i).BestTemp ≤ (SampleTempAt H p).1) := by
      cases b with
      | true =>
        by_cases hGt : (SampleTempAt H (ProbePoint M C R N i)).1 > St.BestTemp
        · simp only [ProbeScan.step, if_true, hGt]
          refine ⟨trivial, by simp, fun _ p hp => ?_, fun h => by simp at h⟩
          rcases List.mem_append.1 hp with h | h
          · exact le_of_lt (lt_of_le_of_lt (hHot rfl p h) hGt)
          · rw [List.mem_singleton.1 h]
        · simp only [ProbeScan.step, if_true, hGt, if_false]
          refine ⟨hT, List.mem_append_left _ hMem, fun _ p hp => ?_, fun h => by simp at h⟩
          rcases List.mem_append.1 hp with h | h
          · exact hHot rfl p h
          · rw [List.mem_singleton.1 h]; exact not_lt.1 hGt
      | false =>
        by_cases hLt : (SampleTempAt H (ProbePoint M C R N i)).1 < St.BestTemp
        · simp only [ProbeScan.step, Bool.false_eq_true, if_false, hLt, if_true]
          refine ⟨trivial, by simp, fun h => by simp at h, fun _ p hp => ?_⟩
          rcases List.mem_append.1 hp with h | h
          · exact le_of_lt (lt_of_lt_of_le hLt (hCold rfl p h))
          · rw [List.mem_singleton.1 h]
        · simp only [ProbeScan.step, Bool.false_eq_true, if_false, hLt]
          refine ⟨hT, List.mem_append_left _ hMem, fun h => by simp at h, fun _ p hp => ?_⟩
          rcases List.mem_append.1 hp with h | h
          · exact hCold rfl p h
          · rw [List.mem_singleton.1 h]; exact not_lt.1 hLt
    obtain ⟨h1, h2, h3, h4⟩ := hStep
    have key := ih (ProbeScan.step M H C b R N St i) (pts ++ [ProbePoint M C R N i]) h1 h2 h3 h4
    simp only [List.append_assoc, List.singleton_append] at key
    refine ⟨key.1, key.2.1, key.2.2.1, key.2.2.2.1, ?_⟩
    rw [key.2.2.2.2, ProbeScan_step_log, List.append_assoc]

theorem FMath_Clamp_bounds (X : Int) :
    FMath.Clamp X 4 64 = max 4 (min X 64) ∧ 4 ≤ FMath.Clamp X 4 64 ∧ FMath.Clamp X 4 64 ≤ 64 := by
  unfold FMath.Clamp
  by_cases h1 : X < 4
  · simp only [h1, if_true]
    omega
  · by_cases h2 : X < 64
    · simp only [h1, h2, if_true, if_false]
      omega
    · simp only [h1, h2, if_false]
      omega

theorem FMath_Max_eq (A B : ℚ) : FMath.Max A B = max A B := by
  unfold FMath.Max
  by_cases h : B < A
  · simp [h, max_eq_left (le_of_lt h)]
  · simp [h, max_eq_right (not_lt.1 h)]

/-- The facts on `ResolveOrigin_Probe` with a world present. -/
theorem ResolveOrigin_Probe_spec (M : FMath) (H : Host) (S : UThermoForgeHeatFXComponent)
    (C : FVector) (b : Bool) (O : FVector) (Q : ℚ) (W : UWorld) (hW : H.World = some W) :
    (ResolveOrigin_Probe M H S C b O Q).1.1 = true
      ∧ (ResolveOrigin_Probe M H S C b O Q).1.2.1 ∈ ProbePoints M S C
      ∧ (b = true → ∀ p ∈ ProbePoints M S C, (SampleTempAt H p).1
          ≤ (SampleTempAt H (ResolveOrigin_Probe M H S C b O Q).1.2.1).1)
      ∧ (b = false → ∀ p ∈ ProbePoints M S C,
          (SampleTempAt H (ResolveOrigin_Probe M H S C b O Q).1.2.1).1 ≤ (SampleTempAt H p).1)
      ∧ (ResolveOrigin_Probe M H S C b O Q).1.2.2
          = |(SampleTempAt H (ResolveOrigin_Probe M H S C b O Q).1.2.1).1 - (SampleTempAt H C).1|
      ∧ (ResolveOrigin_Probe M H S C b O Q).2
          = (ProbePoints M S C).flatMap (fun p => (SampleTempAt H p).2) := by
  have key := ProbeScan_foldl_spec M H C b (FMath.Max S.ProbeRadiusCm 10)
    (FMath.Clamp S.ProbeSamples 4 64) (List.range (FMath.Clamp S.ProbeSamples 4 64).toNat)
    { BestTemp := (SampleTempAt H C).1, BestPos := C, Log := (SampleTempAt H C).2 } [C]
    rfl (List.mem_singleton.2 rfl)
    (fun _ p hp => by rw [List.mem_singleton.1 hp])
    (fun _ p hp => by rw [List.mem_singleton.1 hp])
  simp only [List.singleton_append] at key
  obtain ⟨k1, k2, k3, k4, k5⟩ := key
  unfold ResolveOrigin_Probe
  simp only [hW]
  refine ⟨trivial, k2, ?_, ?_, ?_, ?_⟩
  · intro hb p hp
    rw [← k1]
    exact k3 hb p hp
  · intro hb p hp
    rw [← k1]
    exact k4 hb p hp
  · rw [← k1]
  · rw [k5]
    simp [ProbePoints]

/-- C5 (probed point): with a world present `ResolveOrigin_Probe` succeeds; it
samples the center and then the `N' = clamp(ProbeSamples, 4, 64)` points
`C + R' * (cos(2 pi i / N'), sin(2 pi i / N'), 0)`, `i = 0 .. N' - 1`, with
`R' = max(ProbeRadiusCm, 10)`, one field query each when the subsystem exists;
the origin is one of these `N' + 1` points, its temperature is the greatest
(hottest) respectively least (coldest) of all sampled temperatures, and the
strength is the absolute difference between it and the center temperature.  In
particular a center at 20 degrees and a probe at 25 degrees that is the one
maximum give that probe as origin and strength 5. -/
theorem probe_strategy (M : FMath) (H : Host) (S : UThermoForgeHeatFXComponent)
    (C : FVector) (b : Bool) (O : FVector) (Q : ℚ) (W : UWorld) (hW : H.World = some W) :
    (ResolveOrigin_Probe M H S C b O Q).1.1 = true
      ∧ ProbePoints M S C
          = C :: (List.range (max 4 (min S.ProbeSamples 64)).toNat).map (fun (i : ℕ) =>
              (⟨C.X + M.Cos (2 * M.PI * ((i : ℚ) / ((max 4 (min S.ProbeSamples 64) : ℤ) : ℚ)))
                    * max S.ProbeRadiusCm 10,
                C.Y + M.Sin (2 * M.PI * ((i : ℚ) / ((max 4 (min S.ProbeSamples 64) : ℤ) : ℚ)))
                    * max S.ProbeRadiusCm 10,
                C.Z⟩ : FVector))
      ∧ (ProbePoints M S C).length = (max 4 (min S.ProbeSamples 64)).toNat + 1
      ∧ (∀ TF, W.Subsystem = some TF →
          (ResolveOrigin_Probe M H S C b O Q).2
            = (ProbePoints M S C).map (fun p => Effect.ComputeCurrentTemperatureAt p false 12 (5033165 / 16777216)))
      ∧ (ResolveOrigin_Probe M H S C b O Q).1.2.1 ∈ ProbePoints M S C
      ∧ (b = true → ∀ p ∈ ProbePoints M S C, (SampleTempAt H p).1
          ≤ (SampleTempAt H (ResolveOrigin_Probe M H S C b O Q).1.2.1).1)
      ∧ (b = false → ∀ p ∈ ProbePoints M S C,
          (SampleTempAt H (ResolveOrigin_Probe M H S C b O Q).1.2.1).1 ≤ (SampleTempAt H p).1)
      ∧ (ResolveOrigin_Probe M H S C b O Q).1.2.2
          = |(SampleTempAt H (ResolveOrigin_Probe M H S C b O Q).1.2.1).1 - (SampleTempAt H C).1|
      ∧ (b = true → (SampleTempAt H C).1 = 20 →
          ∀ p ∈ ProbePoints M S C, (SampleTempAt H p).1 = 25 →
            (∀ q ∈ ProbePoints M S C, q ≠ p → (SampleTempAt H q).1 < 25) →
            (ResolveOrigin_Probe M H S C b O Q).1.2.1 = p
              ∧ (ResolveOrigin_Probe M H S C b O Q).1.2.2 = 5) := by
  obtain ⟨h1, h2, h3, h4, h5, h6⟩ := ResolveOrigin_Probe_spec M H S C b O Q W hW
  have hPts : ProbePoints M S C
      = C :: (List.range (max 4 (min S.ProbeSamples 64)).toNat).map (fun (i : ℕ) =>
          (⟨C.X + M.Cos (2 * M.PI * ((i : ℚ) / ((max 4 (min S.ProbeSamples 64) : ℤ) : ℚ)))
                * max S.ProbeRadiusCm 10,
            C.Y + M.Sin (2 * M.PI * ((i : ℚ) / ((max 4 (min S.ProbeSamples 64) : ℤ) : ℚ)))
                * max S.ProbeRadiusCm 10,
            C.Z⟩ : FVector)) := by
    unfold ProbePoints
    rw [(FMath_Clamp_bounds S.ProbeSamples).1, FMath_Max_eq]
    congr 1
    apply List.map_congr_left
    intro i _
    simp [ProbePoint, FVector.add, FVector.scale]
  refine ⟨h1, hPts, ?_, ?_, h2, h3, h4, h5, ?_⟩
  · rw [hPts]
    simp
  · intro TF hTF
    rw [h6]
    have hQ : ∀ p, (SampleTempAt H p).2
        = [Effect.ComputeCurrentTemperatureAt p false 12 (5033165 / 16777216)] := by
      intro p
      simp [SampleTempAt, hW, hTF]
    simp only [hQ]
    induction ProbePoints M S C with
    | nil => rfl
    | cons a l ih => simp [List.flatMap_cons, ih]
  · intro hb hC p hp hTp hUniq
    have hEq : (ResolveOrigin_Probe M H S C b O Q).1.2.1 = p := by
      by_contra hne
      have hlt := hUniq _ h2 hne
      have hle := h3 hb p hp
      rw [hTp] at hle
      exact absurd hlt (not_lt.2 hle)
    refine ⟨hEq, ?_⟩
    rw [h5, hEq, hTp, hC]
    norm_num

/-- The five points sampled around the origin by `DemoComponent`. -/
theorem Demo_ProbePoints :
    ProbePoints ExactMath DemoComponent ⟨0, 0, 0⟩
      = [⟨0, 0, 0⟩, ⟨10, 0, 0⟩, ⟨0, 10, 0⟩, ⟨-10, 0, 0⟩, ⟨0, -10, 0⟩] := by
  simp [ProbePoints, ProbePoint, FMath.Clamp, FMath.Max, DemoComponent, ExactMath,
    FVector.add, FVector.scale, List.range, List.range.loop]
  norm_num

/-- C5 at `DemoComponent` in `DemoHost`: the field reads 20 at the center and
25 at the northward probe (0, 10, 0), more than at any other sample; the
hottest point resolves to that probe with strength 5. -/
theorem probe_strategy_witness :
    (ResolveOrigin_Probe ExactMath DemoHost DemoComponent ⟨0, 0, 0⟩ true FVector.ZeroVector 0).1
      = (true, ⟨0, 10, 0⟩, 5) := by
  have h := probe_strategy ExactMath DemoHost DemoComponent ⟨0, 0, 0⟩ true FVector.ZeroVector 0
    DemoWorld rfl
  have hT : ∀ p, (SampleTempAt DemoHost p).1 = 20 + p.Y / 2 := fun p => rfl
  have h9 := h.2.2.2.2.2.2.2.2 rfl (by rw [hT]; norm_num) ⟨0, 10, 0⟩
    (by rw [Demo_ProbePoints]; simp) (by rw [hT]; norm_num)
    (by
      rw [Demo_ProbePoints]
      intro q hq hne
      simp only [List.mem_cons, List.mem_singleton, List.not_mem_nil, or_false] at hq
      rcases hq with h | h | h | h | h
      all_goals first
        | exact absurd h hne
        | (rw [hT, h]; norm_num))
  exact Prod.ext h.1 (Prod.ext h9.1 h9.2)

/-! ## Climate classifier -/

/-- The point loop appends one rewritten point per input point: same position,
the colour of its climate, and one attribute write under its metadata entry. -/
theorem ClimateLoop_foldl_spec (Code : EThermoClimateType → Int) (TF : UThermoForgeSubsystem)
    (Ps : List FPCGPoint) (St : ClimateLoop)
    (hLog : St.Log = St.Points.map (fun P =>
      PCGEffect.SetValue P.MetadataEntry (Code (TF.GetClimateTypeAtPoint P.Location)))) :
    (Ps.foldl (ClimateLoop.step Code TF) St).Points.map (fun P => P.Location)
        = St.Points.map (fun P => P.Location) ++ Ps.map (fun P => P.Location)
      ∧ (Ps.foldl (ClimateLoop.step Code TF) St).Points.map (fun P => P.Color)
        = St.Points.map (fun P => P.Color)
          ++ Ps.map (fun P => ClimateToDebugColor (TF.GetClimateTypeAtPoint P.Location))
      ∧ (Ps.foldl (ClimateLoop.step Code TF) St).Log
        = (Ps.foldl (ClimateLoop.step Code TF) St).Points.map (fun P =>
            PCGEffect.SetValue P.MetadataEntry (Code (TF.GetClimateTypeAtPoint P.Location))) := by
  induction Ps generalizing St with
  | nil => simpa using hLog
  | cons P Ps ih =>
    simp only [List.foldl_cons, List.map_cons]
    have hStep : (ClimateLoop.step Code TF St P).Log
        = (ClimateLoop.step Code TF St P).Points.map (fun P =>
            PCGEffect.SetValue P.MetadataEntry (Code (TF.GetClimateTypeAtPoint P.Location))) := by
      simp [ClimateLoop.step, hLog]
    obtain ⟨h1, h2, h3⟩ := ih (ClimateLoop.step Code TF St P) hStep
    refine ⟨?_, ?_, h3⟩
    · rw [h1]
      simp [ClimateLoop.step]
    · rw [h2]
      simp [ClimateLoop.step]

/-- C10 (classifier output): with world, subsystem, a first spatial input that
is point data, its metadata and the `ClimateType` attribute all available,
`ExecuteInternal` returns true and appends exactly one tagged output, a point
collection with as many points as the input, in the same order and at the same
positions; point `i` has the colour `ClimateToDebugColor` gives the climate at
its position, and the attribute writes are, in order, the integer code of that
climate under the point's metadata entry.  `ClimateToDebugColor` maps the six
named climates to their fixed colours and any other value to white. -/
theorem classifier_output (Code : EThermoClimateType → Int) (Ctx : FPCGContext)
    (W : UWorld) (TF : UThermoForgeSubsystem) (In0 : FPCGTaggedData)
    (Rest : List FPCGTaggedData) (D : UPCGPointData) (Md : UPCGMetadata)
    (hW : Ctx.World = some W) (hTF : W.Subsystem = some TF)
    (hIn : Ctx.SpatialInputs = In0 :: Rest) (hD : In0.Data = UPCGData.PointData D)
    (hMd : D.Metadata = some Md) (hAttr : Md.bClimateTypeAttribute = true) :
    (ExecuteInternal Code (some Ctx)).1 = true
      ∧ (∃ Out Ctx', (ExecuteInternal Code (some Ctx)).2.1 = some Ctx'
          ∧ Ctx'.OutputTaggedData
              = Ctx.OutputTaggedData ++ [{ In0 with Data := UPCGData.PointData Out }]
          ∧ Out.Points.length = D.Points.length
          ∧ Out.Points.map (fun P => P.Location) = D.Points.map (fun P => P.Location)
          ∧ Out.Points.map (fun P => P.Color)
              = D.Points.map (fun P => ClimateToDebugColor (TF.GetClimateTypeAtPoint P.Location))
          ∧ (ExecuteInternal Code (some Ctx)).2.2
              = Out.Points.map (fun P =>
                  PCGEffect.SetValue P.MetadataEntry (Code (TF.GetClimateTypeAtPoint P.Location))))
      ∧ ClimateToDebugColor EThermoClimateType.Arctic = ⟨0, 1 / 4, 1, 1⟩
      ∧ ClimateToDebugColor EThermoClimateType.Cold = ⟨0, 3 / 4, 1, 1⟩
      ∧ ClimateToDebugColor EThermoClimateType.Temperate = ⟨0, 1, 0, 1⟩
      ∧ ClimateToDebugColor EThermoClimateType.Warm = ⟨1, 1, 0, 1⟩
      ∧ ClimateToDebugColor EThermoClimateType.Tropical = ⟨1, 1 / 2, 0, 1⟩
      ∧ ClimateToDebugColor EThermoClimateType.Desert = ⟨1, 0, 0, 1⟩
      ∧ ∀ N, ClimateToDebugColor (EThermoClimateType.Other N) = ⟨1, 1, 1, 1⟩ := by
  obtain ⟨h1, h2, h3⟩ := ClimateLoop_foldl_spec Code TF D.Points
    { Metadata := Md, Points := [], Log := [] } rfl
  simp only [List.map_nil, List.nil_append] at h1 h2
  simp only [ExecuteInternal, hW, hTF, hIn, hD, hMd, hAttr, Bool.not_true, Bool.false_eq_true,
    if_false]
  refine ⟨trivial, ⟨_, _, rfl, rfl, ?_, h1, h2, h3⟩, rfl, rfl, rfl, rfl, rfl, rfl, fun _ => rfl⟩
  have := congrArg List.length h1
  simpa using this

/-- The attribute writes of `ExecuteInternal` on `DemoContext`: the second
point receives the fresh entry 2. -/
theorem Demo_classifier_log :
    (ExecuteInternal DemoCode (some DemoContext)).2.2
      = [PCGEffect.SetValue 0 0, PCGEffect.SetValue 2 2, PCGEffect.SetValue 1 5] := by
  simp [ExecuteInternal, ClimateLoop.step, DemoContext, DemoWorld, DemoPoints, DemoField,
    DemoCode, PCGInvalidEntryKey]
  norm_num

/-- C10 at `DemoContext`: three points, south of, at and north of the origin,
come out in order as arctic, temperate and desert, with attribute codes 0, 2
and 5. -/
theorem classifier_output_witness :
    (ExecuteInternal DemoCode (some DemoContext)).1 = true
      ∧ ∃ Out Ctx', (ExecuteInternal DemoCode (some DemoContext)).2.1 = some Ctx'
          ∧ Ctx'.OutputTaggedData = [⟨UPCGData.PointData Out, 0⟩]
          ∧ Out.Points.length = 3
          ∧ Out.Points.map (fun P => P.Location) = [⟨1, -3, 0⟩, ⟨2, 0, 0⟩, ⟨3, 4, 0⟩]
          ∧ Out.Points.map (fun P => P.Color) = [⟨0, 1 / 4, 1, 1⟩, ⟨0, 1, 0, 1⟩, ⟨1, 0, 0, 1⟩]
          ∧ [PCGEffect.SetValue 0 0, PCGEffect.SetValue 2 2, PCGEffect.SetValue 1 5]
              = Out.Points.map (fun P =>
                  PCGEffect.SetValue P.MetadataEntry
                    (DemoCode (DemoField.GetClimateTypeAtPoint P.Location))) := by
  obtain ⟨hRet, ⟨Out, Ctx', hCtx, hOut, hLen, hPos, hCol, hLog⟩, -⟩ :=
    classifier_output DemoCode DemoContext DemoWorld DemoField
      ⟨UPCGData.PointData DemoPoints, 0⟩ [] DemoPoints ⟨2, true⟩ rfl rfl rfl rfl rfl rfl
  refine ⟨hRet, Out, Ctx', hCtx, hOut, hLen, hPos, ?_, ?_⟩
  · rw [hCol]
    simp [DemoPoints, DemoField, ClimateToDebugColor]
    norm_num
  · rw [← hLog, Demo_classifier_log]

/-! ## Classifier failure policy -/

/-- Without one of its inputs `ExecuteInternal` returns the context as it was
and logs one line, no attribute write. -/
theorem ExecuteInternal_unavailable (Code : EThermoClimateType → Int) (Ctx : FPCGContext)
    (h : ClimateInputsAvailable Ctx = false) :
    (ExecuteInternal Code (some Ctx)).1 = true
      ∧ (ExecuteInternal Code (some Ctx)).2.1 = some Ctx
      ∧ ∀ e ∈ (ExecuteInternal Code (some Ctx)).2.2, e.IsSetValue = false := by
  unfold ClimateInputsAvailable at h
  unfold ExecuteInternal
  cases hW : Ctx.World with
  | none => simp [hW, PCGEffect.IsSetValue]
  | some World =>
    cases hS : World.Subsystem with
    | none => simp [hW, hS, PCGEffect.IsSetValue]
    | some TF =>
      cases hI : Ctx.SpatialInputs with
      | nil => simp [hW, hS, hI, PCGEffect.IsSetValue]
      | cons In0 Rest =>
        cases hD : In0.Data with
        | Other => simp [hW, hS, hI, hD, PCGEffect.IsSetValue]
        | PointData D =>
          cases hM : D.Metadata with
          | none => simp [hW, hS, hI, hD, hM, PCGEffect.IsSetValue]
          | some Md =>
            simp only [hW, hS, hI, hD, hM] at h
            simp [hW, hS, hI, hD, hM, h, PCGEffect.IsSetValue]

/-- The context `ExecuteInternal` returns keeps world and spatial inputs, and
its outputs extend the outputs on entry. -/
theorem ExecuteInternal_inputs (Code : EThermoClimateType → Int) (Ctx Ctx' : FPCGContext)
    (h : (ExecuteInternal Code (some Ctx)).2.1 = some Ctx') :
    Ctx'.SpatialInputs = Ctx.SpatialInputs
      ∧ ∃ Added, Ctx'.OutputTaggedData = Ctx.OutputTaggedData ++ Added := by
  by_cases hA : ClimateInputsAvailable Ctx = false
  · have h2 := (ExecuteInternal_unavailable Code Ctx hA).2.1
    rw [h2] at h
    cases h
    exact ⟨rfl, [], by simp⟩
  · unfold ClimateInputsAvailable at hA
    unfold ExecuteInternal at h
    cases hW : Ctx.World with
    | none => simp [hW] at hA
    | some World =>
      cases hS : World.Subsystem with
      | none => simp [hW, hS] at hA
      | some TF =>
        cases hI : Ctx.SpatialInputs with
        | nil => simp [hW, hS, hI] at hA
        | cons In0 Rest =>
          cases hD : In0.Data with
          | Other => simp [hW, hS, hI, hD] at hA
          | PointData D =>
            cases hM : D.Metadata with
            | none => simp [hW, hS, hI, hD, hM] at hA
            | some Md =>
              simp only [hW, hS, hI, hD, hM] at hA
              have hAttr : Md.bClimateTypeAttribute = true := by simpa using hA
              simp only [hW, hS, hI, hD, hM, hAttr, Bool.not_true, Bool.false_eq_true,
                if_false, Option.some.injEq] at h
              subst h
              exact ⟨rfl, _, rfl⟩

/-- C11 (classifier failure policy): `ExecuteInternal` always returns true;
without a context it does nothing; when the world, the subsystem, the spatial
inputs, point-typed input data, the metadata or the attribute is unavailable
it leaves the context as it was, so nothing is appended to the output and no
attribute is written; and in every case, success included, the spatial inputs
of the context afterwards are those on entry, points included. -/
theorem classifier_failure_policy (Code : EThermoClimateType → Int)
    (Context : Option FPCGContext) :
    (ExecuteInternal Code Context).1 = true
      ∧ (Context = none → (ExecuteInternal Code Context).2 = (none, []))
      ∧ (∀ Ctx, Context = some Ctx → ClimateInputsAvailable Ctx = false →
          (ExecuteInternal Code Context).2.1 = some Ctx
            ∧ ∀ e ∈ (ExecuteInternal Code Context).2.2, e.IsSetValue = false)
      ∧ (∀ Ctx Ctx', Context = some Ctx → (ExecuteInternal Code Context).2.1 = some Ctx' →
          Ctx'.SpatialInputs = Ctx.SpatialInputs) := by
  cases Context with
  | none => exact ⟨rfl, fun _ => rfl, fun _ h => by simp at h, fun _ _ h => by simp at h⟩
  | some C0 =>
    refine ⟨?_, fun h => by simp at h, ?_, ?_⟩
    · by_cases hA : ClimateInputsAvailable C0 = false
      · exact (ExecuteInternal_unavailable Code C0 hA).1
      · unfold ExecuteInternal
        repeat' split
        all_goals rfl
    · intro Ctx hC hA
      cases hC
      exact (ExecuteInternal_unavailable Code C0 hA).2
    · intro Ctx Ctx' hC h
      cases hC
      exact (ExecuteInternal_inputs Code C0 Ctx' h).1

/-- C11 at `DemoContext` deprived of its world: nothing is appended, nothing
written, and the three input points stay as they were. -/
theorem classifier_failure_policy_witness :
    (ExecuteInternal DemoCode (some { DemoContext with World := none })).2.1.map
        (fun C => (C.SpatialInputs, C.OutputTaggedData))
      = some ([⟨UPCGData.PointData DemoPoints, 0⟩], []) := by
  have h := (classifier_failure_policy DemoCode (some { DemoContext with World := none })).2.2.1
    { DemoContext with World := none } rfl rfl
  rw [h.1]
  rfl

/-! ## Strength and notification counts -/

theorem ResolveOrigin_NearestSource_strength_nonneg (M : FMath) (W : UWorld) (C O : FVector)
    (Q : ℚ) (hQ : 0 ≤ Q) : 0 ≤ (ResolveOrigin_NearestSource M W C O Q).2.2 := by
  unfold ResolveOrigin_NearestSource
  simp only
  split
  · split
    · rename_i _ hGt
      have hPos : 0 < ToFloat (M.Sqrt (List.foldl (NearestScan.step C)
          { BestDistSq := FLT_MAX, BestPos := FVector.ZeroVector, bFound := false }
          W.Actors).BestDistSq) := lt_trans (by norm_num [TF_EPS_DIST]) hGt
      exact le_of_lt (one_div_pos.2 hPos)
    · norm_num
  · exact hQ

theorem ResolveOrigin_Probe_strength_nonneg (M : FMath) (H : Host)
    (S : UThermoForgeHeatFXComponent) (C : FVector) (b : Bool) (O : FVector) (Q : ℚ)
    (hQ : 0 ≤ Q) : 0 ≤ (ResolveOrigin_Probe M H S C b O Q).1.2.2 := by
  unfold ResolveOrigin_Probe
  cases hW : H.World with
  | none => simpa using hQ
  | some W => exact abs_nonneg _

/-- The strength `TickHeat` computes is never negative, and is 0 without origin. -/
theorem TickHeat_Evaluate_strength (M : FMath) (H : Host) (W : UWorld) (Owner : AActor)
    (S : UThermoForgeHeatFXComponent) :
    0 ≤ (TickHeat_Evaluate M H W Owner S).Strength
      ∧ ((TickHeat_Evaluate M H W Owner S).bOriginOK = false →
          (TickHeat_Evaluate M H W Owner S).Strength = 0
            ∧ (TickHeat_Evaluate M H W Owner S).OriginWS = FVector.ZeroVector) := by
  simp only [TickHeat_Evaluate, TickHeat_ResolveOrigin]
  cases hM : S.OriginMode with
  | NearestSourceActor =>
    refine ⟨ResolveOrigin_NearestSource_strength_nonneg M W _ _ 0 le_rfl, ?_⟩
    intro hF
    simp only [ResolveOrigin_NearestSource] at hF ⊢
    split at hF
    · simp at hF
    · rename_i hNF
      simp [hNF]
  | HottestPoint =>
    refine ⟨ResolveOrigin_Probe_strength_nonneg M H S _ true _ 0 le_rfl, ?_⟩
    intro hF
    simp only [ResolveOrigin_Probe] at hF ⊢
    cases hW : H.World with
    | none => simp
    | some W' => simp [hW] at hF
  | ColdestPoint =>
    refine ⟨ResolveOrigin_Probe_strength_nonneg M H S _ false _ 0 le_rfl, ?_⟩
    intro hF
    simp only [ResolveOrigin_Probe] at hF ⊢
    cases hW : H.World with
    | none => simp
    | some W' => simp [hW] at hF
  | Other n => simp

/-- The effects of `TickHeat`, in the three situations it can be in. -/
theorem TickHeat_cases (M : FMath) (H : Host) (S : UThermoForgeHeatFXComponent) :
    TickHeat M H S = (S, [])
      ∨ (∃ W Owner, H.World = some W ∧ H.Owner = some Owner
          ∧ TickHeat_bAnyChanged S (TickHeat_Evaluate M H W Owner S) = false
          ∧ TickHeat M H S = (S, (TickHeat_Evaluate M H W Owner S).Log))
      ∨ ∃ W Owner, H.World = some W ∧ H.Owner = some Owner
          ∧ TickHeat_bAnyChanged S (TickHeat_Evaluate M H W Owner S) = true
          ∧ TickHeat M H S = ((TickHeat_Commit H S (TickHeat_Evaluate M H W Owner S)).1,
              (TickHeat_Evaluate M H W Owner S).Log
                ++ (TickHeat_Commit H S (TickHeat_Evaluate M H W Owner S)).2) := by
  cases hW : H.World with
  | none => exact Or.inl (by simp [TickHeat, hW])
  | some W =>
    cases hO : H.Owner with
    | none => exact Or.inl (by simp [TickHeat, hW, hO])
    | some Owner =>
      by_cases hC : TickHeat_bAnyChanged S (TickHeat_Evaluate M H W Owner S) = true
      · exact Or.inr (Or.inr ⟨W, Owner, rfl, rfl, hC, TickHeat_changed M H S W Owner hW hO hC⟩)
      · have hC' : TickHeat_bAnyChanged S (TickHeat_Evaluate M H W Owner S) = false := by
          simpa using hC
        exact Or.inr (Or.inl ⟨W, Owner, rfl, rfl, hC',
          TickHeat_unchanged M H S W Owner hW hO hC'⟩)

/-- C12 (strength is non-negative): the strength a reevaluation computes is at
least 0 in every origin mode, and 0 when no origin is resolved; so
`HeatStrength` is at least 0 after every committing `TickHeat`, and so is the
strength carried by every "updated" and every "jump" notification. -/
theorem strength_nonnegative (M : FMath) (H : Host) (S : UThermoForgeHeatFXComponent)
    (W : UWorld) (Owner : AActor) :
    0 ≤ (TickHeat_Evaluate M H W Owner S).Strength
      ∧ ((TickHeat_Evaluate M H W Owner S).bOriginOK = false →
          (TickHeat_Evaluate M H W Owner S).Strength = 0)
      ∧ (H.World = some W → H.Owner = some Owner →
          TickHeat_bAnyChanged S (TickHeat_Evaluate M H W Owner S) = true →
          0 ≤ (TickHeat M H S).1.HeatStrength)
      ∧ (∀ T Str Dir Dist Pos Mode,
          Effect.OnHeatUpdated T Str Dir Dist Pos Mode ∈ (TickHeat M H S).2 → 0 ≤ Str)
      ∧ (∀ T Old Delta Str Dir Dist Pos,
          Effect.OnHeatJump T Old Delta Str Dir Dist Pos ∈ (TickHeat M H S).2 → 0 ≤ Str) := by
  refine ⟨(TickHeat_Evaluate_strength M H W Owner S).1,
    fun h => ((TickHeat_Evaluate_strength M H W Owner S).2 h).1, ?_, ?_, ?_⟩
  · intro hW hO hC
    rw [TickHeat_changed M H S W Owner hW hO hC]
    simp only
    rw [TickHeat_Commit_state]
    exact (TickHeat_Evaluate_strength M H W Owner S).1
  · intro T Str Dir Dist Pos Mode he
    rcases TickHeat_cases M H S with h | ⟨W', O', _, _, _, h⟩ | ⟨W', O', _, _, _, h⟩
    · rw [h] at he
      simp at he
    · rw [h] at he
      have := TickHeat_Evaluate_log M H W' O' S _ he
      simp [Effect.IsFieldQuery] at this
    · rw [h] at he
      rcases List.mem_append.1 he with he | he
      · have := TickHeat_Evaluate_log M H W' O' S _ he
        simp [Effect.IsFieldQuery] at this
      · rcases TickHeat_Commit_mem H S _ _ he with hj | hu | hx
        · have := ((TickHeat_Jump_mem _ _ _ _).1 hj).2
          simp at this
        · injection hu with _ hStr
          rw [hStr]
          exact (TickHeat_Evaluate_strength M H W' O' S).1
        · simp [Effect.IsExport] at hx
  · intro T Old Delta Str Dir Dist Pos he
    rcases TickHeat_cases M H S with h | ⟨W', O', _, _, _, h⟩ | ⟨W', O', _, _, _, h⟩
    · rw [h] at he
      simp at he
    · rw [h] at he
      have := TickHeat_Evaluate_log M H W' O' S _ he
      simp [Effect.IsFieldQuery] at this
    · rw [h] at he
      rcases List.mem_append.1 he with he | he
      · have := TickHeat_Evaluate_log M H W' O' S _ he
        simp [Effect.IsFieldQuery] at this
      · rcases TickHeat_Commit_mem H S _ _ he with hj | hu | hx
        · have := ((TickHeat_Jump_mem _ _ _ _).1 hj).2
          injection this with _ _ _ hStr
          rw [hStr]
          exact (TickHeat_Evaluate_strength M H W' O' S).1
        · simp at hu
        · simp [Effect.IsExport] at hx

theorem filter_IsUpdated_of_none (l : List Effect) (h : ∀ e ∈ l, e.IsUpdated = false) :
    l.filter Effect.IsUpdated = [] := by
  rw [List.filter_eq_nil_iff]
  intro e he
  simp [h e he]

/-- One call of `WriteCustomPrimitiveData` writes no slot or nine. -/
theorem WriteCustomPrimitiveData_length (H : Host) (S : UThermoForgeHeatFXComponent) :
    (WriteCustomPrimitiveData H S).2.length = 0 ∨ (WriteCustomPrimitiveData H S).2.length = 9 := by
  by_cases hOn : S.bWriteCustomPrimitiveData = true
  · cases hT : (EnsureTargetPrimitive H S).TargetPrim with
    | none => exact Or.inl (by rw [WriteCustomPrimitiveData_silent H S (Or.inr hT)]; rfl)
    | some Prim => exact Or.inr (by rw [WriteCustomPrimitiveData_writes H S Prim hOn hT]; rfl)
  · have hOff : S.bWriteCustomPrimitiveData = false := by simpa using hOn
    exact Or.inl (by rw [WriteCustomPrimitiveData_silent H S (Or.inl hOff)]; rfl)

/-- The "updated" notifications of a committing `TickHeat`: exactly one. -/
theorem TickHeat_changed_updates (M : FMath) (H : Host) (S : UThermoForgeHeatFXComponent)
    (W : UWorld) (Owner : AActor) (hW : H.World = some W) (hO : H.Owner = some Owner)
    (hC : TickHeat_bAnyChanged S (TickHeat_Evaluate M H W Owner S) = true) :
    (TickHeat M H S).2.filter Effect.IsUpdated
      = [Effect.OnHeatUpdated (TickHeat_Evaluate M H W Owner S).TNow
          (TickHeat_Evaluate M H W Owner S).Strength (TickHeat_Evaluate M H W Owner S).Dir
          (TickHeat_Evaluate M H W Owner S).Dist (TickHeat_Evaluate M H W Owner S).OriginWS
          (TickHeat_Evaluate M H W Owner S).UsedMode] := by
  rw [TickHeat_changed M H S W Owner hW hO hC]
  simp only
  rw [TickHeat_Commit_log, List.filter_append, List.filter_append, List.filter_append,
    filter_IsUpdated_of_none _ (fun e he =>
      (IsFieldQuery_exclusive e (TickHeat_Evaluate_log M H W Owner S e he)).1),
    filter_IsUpdated_of_none _ (fun e he =>
      (IsExport_exclusive e (WriteCustomPrimitiveData_log H _ e he)).1),
    filter_IsUpdated_of_none (TickHeat_Jump _ _ _) (fun e he => by
      rw [((TickHeat_Jump_mem _ _ _ e).1 he).2]; rfl)]
  simp [Effect.IsUpdated]

/-- C13 (no duplicate notifications): one `TickHeat` raises "updated" at most
once and exports at most once (the slot writes it makes are those of no or of
one `WriteCustomPrimitiveData` call, at most nine), whatever the state and the
configuration; once the commit block has run, the guard of the closing
initial-fire block is false, so that block adds nothing to a commit. -/
theorem no_duplicate_notifications (M : FMath) (H : Host) (S : UThermoForgeHeatFXComponent) :
    ((TickHeat M H S).2.filter Effect.IsUpdated).length ≤ 1
      ∧ ((TickHeat M H S).2.filter Effect.IsExport = []
          ∨ ∃ S', (TickHeat M H S).2.filter Effect.IsExport = (WriteCustomPrimitiveData H S').2)
      ∧ ((TickHeat M H S).2.filter Effect.IsExport).length ≤ 9
      ∧ ∀ W Owner, H.World = some W → H.Owner = some Owner →
          TickHeat_bAnyChanged S (TickHeat_Evaluate M H W Owner S) = true →
          (!(TickHeat_Commit H S (TickHeat_Evaluate M H W Owner S)).1.bHadInitialFire
              && (TickHeat_Commit H S
                  (TickHeat_Evaluate M H W Owner S)).1.bFireInitialEventOnBeginPlay) = false
            ∧ (TickHeat M H S).2 = (TickHeat_Evaluate M H W Owner S).Log
                ++ (TickHeat_Commit H S (TickHeat_Evaluate M H W Owner S)).2 := by
  have hLast : ∀ W Owner, H.World = some W → H.Owner = some Owner →
      TickHeat_bAnyChanged S (TickHeat_Evaluate M H W Owner S) = true →
      (!(TickHeat_Commit H S (TickHeat_Evaluate M H W Owner S)).1.bHadInitialFire
          && (TickHeat_Commit H S
              (TickHeat_Evaluate M H W Owner S)).1.bFireInitialEventOnBeginPlay) = false
        ∧ (TickHeat M H S).2 = (TickHeat_Evaluate M H W Owner S).Log
            ++ (TickHeat_Commit H S (TickHeat_Evaluate M H W Owner S)).2 := by
    intro W Owner hW hO hC
    refine ⟨by simp [TickHeat_Commit_bHadInitialFire], ?_⟩
    rw [TickHeat_changed M H S W Owner hW hO hC]
  have hMain : ((TickHeat M H S).2.filter Effect.IsUpdated).length ≤ 1
      ∧ ((TickHeat M H S).2.filter Effect.IsExport = []
          ∨ ∃ S', (TickHeat M H S).2.filter Effect.IsExport = (WriteCustomPrimitiveData H S').2)
      ∧ ((TickHeat M H S).2.filter Effect.IsExport).length ≤ 9 := by
    rcases TickHeat_cases M H S with h | ⟨W, Owner, hW, hO, hC, h⟩ | ⟨W, Owner, hW, hO, hC, h⟩
    · rw [h]
      exact ⟨by simp, Or.inl rfl, by simp⟩
    · have hU : (TickHeat M H S).2.filter Effect.IsUpdated = [] := by
        rw [h]
        exact filter_IsUpdated_of_none _ (fun e he =>
          (IsFieldQuery_exclusive e (TickHeat_Evaluate_log M H W Owner S e he)).1)
      have hX : (TickHeat M H S).2.filter Effect.IsExport = [] := by
        rw [h]
        exact filter_IsExport_of_none _ (fun e he =>
          (IsFieldQuery_exclusive e (TickHeat_Evaluate_log M H W Owner S e he)).2.2)
      rw [hU, hX]
      exact ⟨by simp, Or.inl rfl, by simp⟩
    · rw [TickHeat_changed_updates M H S W Owner hW hO hC,
        TickHeat_changed_exports M H S W Owner hW hO hC]
      refine ⟨by simp, Or.inr ⟨_, rfl⟩, ?_⟩
      rcases WriteCustomPrimitiveData_length H (TickHeat_CachePrevious
        (TickHeat_Publish S (TickHeat_Evaluate M H W Owner S))
        (TickHeat_Evaluate M H W Owner S)) with h0 | h9
      · rw [h0]; norm_num
      · rw [h9]
  exact ⟨hMain.1, hMain.2.1, hMain.2.2, hLast⟩

/-- C13 at the fresh `DemoComponent`, whose `bFireInitialEventOnBeginPlay` is
set: its first call in `DemoHost` commits and raises "updated" exactly once. -/
theorem no_duplicate_notifications_witness :
    ((TickHeat ExactMath DemoHost DemoComponent).2.filter Effect.IsUpdated).length ≤ 1
      ∧ (TickHeat ExactMath DemoHost DemoComponent).2
          = (TickHeat_Evaluate ExactMath DemoHost DemoWorld DemoOwner DemoComponent).Log
            ++ (TickHeat_Commit DemoHost DemoComponent
                (TickHeat_Evaluate ExactMath DemoHost DemoWorld DemoOwner DemoComponent)).2 :=
  ⟨(no_duplicate_notifications ExactMath DemoHost DemoComponent).1,
    ((no_duplicate_notifications ExactMath DemoHost DemoComponent).2.2.2 DemoWorld DemoOwner
      rfl rfl (by simp [TickHeat_bAnyChanged, DemoComponent])).2⟩

/-! ## Direction and distance -/

/-- The case analysis of `FVector::GetSafeNormal`. -/
theorem GetSafeNormal_cases (M : FMath) (V : FVector) :
    (V.X * V.X + V.Y * V.Y + V.Z * V.Z = 1 → FVector.GetSafeNormal M V = V)
      ∧ (V.X * V.X + V.Y * V.Y + V.Z * V.Z < UE_SMALL_NUMBER →
          FVector.GetSafeNormal M V = FVector.ZeroVector)
      ∧ (V.X * V.X + V.Y * V.Y + V.Z * V.Z ≠ 1 →
          UE_SMALL_NUMBER ≤ V.X * V.X + V.Y * V.Y + V.Z * V.Z →
          FVector.GetSafeNormal M V
            = V.scale (M.InvSqrt (V.X * V.X + V.Y * V.Y + V.Z * V.Z))) := by
  refine ⟨fun h => ?_, fun h => ?_, fun h1 h2 => ?_⟩
  · simp [FVector.GetSafeNormal, h]
  · have hne : V.X * V.X + V.Y * V.Y + V.Z * V.Z ≠ 1 := by
      intro h1
      rw [h1] at h
      norm_num [UE_SMALL_NUMBER] at h
    simp only [FVector.GetSafeNormal, hne, h, if_false, if_true]
  · have hnl : ¬ V.X * V.X + V.Y * V.Y + V.Z * V.Z < UE_SMALL_NUMBER := not_lt.2 h2
    simp only [FVector.GetSafeNormal, h1, hnl, if_false, FVector.scale]

/-- The direction and distance `TickHeat` derives from the resolved origin. -/
theorem TickHeat_Evaluate_derive (M : FMath) (H : Host) (W : UWorld) (Owner : AActor)
    (S : UThermoForgeHeatFXComponent) :
    (TickHeat_Evaluate M H W Owner S).Dir
        = (if (TickHeat_Evaluate M H W Owner S).bOriginOK then
            FVector.GetSafeNormal M ((TickHeat_Evaluate M H W Owner S).OriginWS.sub Owner.Location)
          else FVector.ZeroVector)
      ∧ (TickHeat_Evaluate M H W Owner S).Dist
        = (if (TickHeat_Evaluate M H W Owner S).bOriginOK then
            ToFloat (FVector.Distance M Owner.Location (TickHeat_Evaluate M H W Owner S).OriginWS)
          else 0) :=
  ⟨rfl, rfl⟩

/-- The two outcomes of `ResolveOrigin_NearestSource`. -/
theorem ResolveOrigin_NearestSource_cases (M : FMath) (W : UWorld) (C O : FVector) (Q : ℚ) :
    ResolveOrigin_NearestSource M W C O Q = (false, O, Q)
      ∨ ∃ best, ResolveOrigin_NearestSource M W C O Q
          = (true, best, if ToFloat (M.Sqrt (ToFloat (FVector.DistSquared C best))) > 1 / 2
              then 1 / ToFloat (M.Sqrt (ToFloat (FVector.DistSquared C best))) else 1) := by
  rcases NearestScan_foldl_spec C W.Actors
      { BestDistSq := FLT_MAX, BestPos := FVector.ZeroVector, bFound := false }
    with ⟨hEq, -⟩ | ⟨pre, best, post, -, hEq, -, -, -⟩
  · exact Or.inl (by simp [ResolveOrigin_NearestSource, hEq])
  · exact Or.inr ⟨best, by simp [ResolveOrigin_NearestSource, hEq, TF_EPS_DIST]⟩

/-- With a monotone square root that is exact at 1, the `float` distance taken
from the squared distance is at least 1 whenever the one taken from the
narrowed squared distance exceeds 1. -/
theorem one_le_float_distance (M : FMath) (hMono : ∀ x y, x ≤ y → M.Sqrt x ≤ M.Sqrt y)
    (hOne : M.Sqrt 1 = 1) (x : ℚ) (h : 1 < ToFloat (M.Sqrt (ToFloat x))) :
    1 ≤ ToFloat (M.Sqrt x) := by
  have hx : 1 ≤ x := by
    by_contra hlt
    have h1 : ToFloat x ≤ 1 := by
      have := ToFloat_mono _ _ (le_of_lt (not_le.1 hlt))
      rwa [ToFloat_one] at this
    have h2 : M.Sqrt (ToFloat x) ≤ 1 := by
      have := hMono _ _ h1
      rwa [hOne] at this
    have h3 : ToFloat (M.Sqrt (ToFloat x)) ≤ 1 := by
      have := ToFloat_mono _ _ h2
      rwa [ToFloat_one] at this
    exact absurd h (not_lt.2 h3)
  have h4 : 1 ≤ M.Sqrt x := by
    have := hMono _ _ hx
    rwa [hOne] at this
  have := ToFloat_mono _ _ h4
  rwa [ToFloat_one] at this

/-- What the locals of `TickHeat` tell about the origin flag, per mode; in
nearest-source mode the square root is monotone and exact at 1. -/
theorem TickHeat_Evaluate_origin (M : FMath) (H : Host) (W : UWorld) (Owner : AActor)
    (S : UThermoForgeHeatFXComponent) (hW : H.World = some W)
    (hLib : S.OriginMode = EThermoOriginMode.NearestSourceActor →
      (∀ x y, x ≤ y → M.Sqrt x ≤ M.Sqrt y) ∧ M.Sqrt 1 = 1) :
    (S.OriginMode = EThermoOriginMode.NearestSourceActor →
        ((TickHeat_Evaluate M H W Owner S).bOriginOK = true →
            1 ≤ (TickHeat_Evaluate M H W Owner S).Dist
              ∨ 1 ≤ (TickHeat_Evaluate M H W Owner S).Strength)
          ∧ ((TickHeat_Evaluate M H W Owner S).bOriginOK = false →
            (TickHeat_Evaluate M H W Owner S).Dist = 0
              ∧ (TickHeat_Evaluate M H W Owner S).Strength = 0))
      ∧ (S.OriginMode = EThermoOriginMode.HottestPoint
          ∨ S.OriginMode = EThermoOriginMode.ColdestPoint →
          (TickHeat_Evaluate M H W Owner S).bOriginOK = true)
      ∧ ∀ N, S.OriginMode = EThermoOriginMode.Other N →
          (TickHeat_Evaluate M H W Owner S).bOriginOK = false := by
  refine ⟨fun hMode => ⟨fun hOK => ?_, fun hNo => ?_⟩, fun hMode => ?_, fun N hMode => ?_⟩
  · rcases ResolveOrigin_NearestSource_cases M W Owner.Location FVector.ZeroVector 0
      with hR | ⟨best, hR⟩
    · simp [TickHeat_Evaluate, TickHeat_ResolveOrigin, hMode, hR] at hOK
    · obtain ⟨hMono, hOne⟩ := hLib hMode
      simp only [TickHeat_Evaluate, TickHeat_ResolveOrigin, hMode, hR, if_true,
        FVector.Distance]
      by_cases hGt : ToFloat (M.Sqrt (ToFloat (FVector.DistSquared Owner.Location best))) > 1 / 2
      · rw [if_pos hGt]
        by_cases hLe : ToFloat (M.Sqrt (ToFloat (FVector.DistSquared Owner.Location best))) ≤ 1
        · right
          rw [le_div_iff₀ (lt_trans (by norm_num) hGt)]
          simpa using hLe
        · left
          exact one_le_float_distance M hMono hOne _ (not_le.1 hLe)
      · rw [if_neg hGt]
        exact Or.inr le_rfl
  · have hD := (TickHeat_Evaluate_derive M H W Owner S).2
    rw [hNo] at hD
    exact ⟨by simpa using hD, ((TickHeat_Evaluate_strength M H W Owner S).2 hNo).1⟩
  · rcases hMode with hMode | hMode
    · simp only [TickHeat_Evaluate, TickHeat_ResolveOrigin, hMode]
      exact (ResolveOrigin_Probe_spec M H S _ true _ _ W hW).1
    · simp only [TickHeat_Evaluate, TickHeat_ResolveOrigin, hMode]
      exact (ResolveOrigin_Probe_spec M H S _ false _ _ W hW).1
  · simp [TickHeat_Evaluate, TickHeat_ResolveOrigin, hMode]

/-- A change of the origin flag against the last commit moves the distance or
the strength by at least 1. -/
theorem TickHeat_origin_transition (M : FMath) (H : Host) (S : UThermoForgeHeatFXComponent)
    (W : UWorld) (Owner : AActor) (hW : H.World = some W)
    (hLib : S.OriginMode = EThermoOriginMode.NearestSourceActor →
      (∀ x y, x ≤ y → M.Sqrt x ≤ M.Sqrt y) ∧ M.Sqrt 1 = 1)
    (hInv : OriginRecorded S) (hFired : S.bHadInitialFire = true)
    (hNe : S.bHasOrigin ≠ (TickHeat_Evaluate M H W Owner S).bOriginOK) :
    1 ≤ |(TickHeat_Evaluate M H W Owner S).Dist - S.PrevDistanceCm|
      ∨ 1 ≤ |(TickHeat_Evaluate M H W Owner S).Strength - S.PrevStrength| := by
  obtain ⟨iN, iP, iO⟩ := hInv hFired
  obtain ⟨eN, eP, eO⟩ := TickHeat_Evaluate_origin M H W Owner S hW hLib
  cases hMode : S.OriginMode with
  | NearestSourceActor =>
    cases hOK : (TickHeat_Evaluate M H W Owner S).bOriginOK with
    | true =>
      have hHas : S.bHasOrigin = false := by
        rw [hOK] at hNe
        simpa using hNe
      obtain ⟨hPD, hPS⟩ := (iN hMode).2 hHas
      rw [hPD, hPS, sub_zero, sub_zero]
      rcases (eN hMode).1 hOK with h | h
      · exact Or.inl (le_trans h (le_abs_self _))
      · exact Or.inr (le_trans h (le_abs_self _))
    | false =>
      have hHas : S.bHasOrigin = true := by
        rw [hOK] at hNe
        simpa using hNe
      obtain ⟨hD, hS⟩ := (eN hMode).2 hOK
      rw [hD, hS, zero_sub, zero_sub, abs_neg, abs_neg]
      rcases (iN hMode).1 hHas with h | h
      · exact Or.inl (le_trans h (le_abs_self _))
      · exact Or.inr (le_trans h (le_abs_self _))
  | HottestPoint =>
    exact absurd ((iP (Or.inl hMode)).trans (eP (Or.inl hMode)).symm) hNe
  | ColdestPoint =>
    exact absurd ((iP (Or.inr hMode)).trans (eP (Or.inr hMode)).symm) hNe
  | Other N =>
    exact absurd ((iO N hMode).trans (eO N hMode).symm) hNe

/-- A difference of magnitude at least 1 is still of magnitude at least 1 as a `float`. -/
theorem one_le_ToFloat_abs (x : ℚ) (h : 1 ≤ |x|) : 1 ≤ |ToFloat x| :=
  le_ToFloat_abs x 1 ToFloat_one h

/-- A change of the origin flag against the last commit is detected. -/
theorem TickHeat_origin_detected (M : FMath) (H : Host) (S : UThermoForgeHeatFXComponent)
    (W : UWorld) (Owner : AActor) (hW : H.World = some W)
    (hLib : S.OriginMode = EThermoOriginMode.NearestSourceActor →
      (∀ x y, x ≤ y → M.Sqrt x ≤ M.Sqrt y) ∧ M.Sqrt 1 = 1)
    (hInv : OriginRecorded S) (hFired : S.bHadInitialFire = true)
    (hNe : S.bHasOrigin ≠ (TickHeat_Evaluate M H W Owner S).bOriginOK) :
    TickHeat_bAnyChanged S (TickHeat_Evaluate M H W Owner S) = true := by
  by_contra hC
  have hC2 : TickHeat_bAnyChanged S (TickHeat_Evaluate M H W Owner S) = false := by
    simpa using hC
  obtain ⟨-, -, -, hDist, hStr, -⟩ := (TickHeat_bAnyChanged_eq_false S _).1 hC2
  rcases TickHeat_origin_transition M H S W Owner hW hLib hInv hFired hNe with h | h
  · have := one_le_ToFloat_abs _ h
    norm_num [TF_EPS_DIST] at hDist
    linarith
  · have := one_le_ToFloat_abs _ h
    norm_num [TF_EPS_STR] at hStr
    linarith

/-- After a `TickHeat` with valid context the published origin flag is the one
this call computed, provided the cache recorded the flag before. -/
theorem TickHeat_bHasOrigin (M : FMath) (H : Host) (S : UThermoForgeHeatFXComponent)
    (W : UWorld) (Owner : AActor) (hW : H.World = some W) (hO : H.Owner = some Owner)
    (hLib : S.OriginMode = EThermoOriginMode.NearestSourceActor →
      (∀ x y, x ≤ y → M.Sqrt x ≤ M.Sqrt y) ∧ M.Sqrt 1 = 1)
    (hInv : OriginRecorded S) :
    (TickHeat M H S).1.bHasOrigin = (TickHeat_Evaluate M H W Owner S).bOriginOK := by
  by_cases hC : TickHeat_bAnyChanged S (TickHeat_Evaluate M H W Owner S) = true
  · rw [TickHeat_changed M H S W Owner hW hO hC]
    simp only
    rw [TickHeat_Commit_state]
    rfl
  · have hC2 : TickHeat_bAnyChanged S (TickHeat_Evaluate M H W Owner S) = false := by
      simpa using hC
    rw [TickHeat_unchanged M H S W Owner hW hO hC2]
    have hFired := ((TickHeat_bAnyChanged_eq_false S _).1 hC2).2.2.2.2.2
    by_contra hNe
    exact hC (TickHeat_origin_detected M H S W Owner hW hLib hInv hFired hNe)

/-- `TickHeat` keeps `OriginRecorded`. -/
theorem TickHeat_OriginRecorded (M : FMath) (H : Host) (S : UThermoForgeHeatFXComponent)
    (hLib : S.OriginMode = EThermoOriginMode.NearestSourceActor →
      (∀ x y, x ≤ y → M.Sqrt x ≤ M.Sqrt y) ∧ M.Sqrt 1 = 1)
    (hInv : OriginRecorded S) : OriginRecorded (TickHeat M H S).1 := by
  rcases TickHeat_cases M H S with h | ⟨W, Owner, hW, hO, hC, h⟩ | ⟨W, Owner, hW, hO, hC, h⟩
  · rw [h]; exact hInv
  · rw [h]; exact hInv
  · rw [h]
    simp only
    rw [TickHeat_Commit_state]
    intro _
    exact TickHeat_Evaluate_origin M H W Owner S hW hLib

/-- `TickHeat` never changes the configured origin mode. -/
theorem TickHeat_OriginMode (M : FMath) (H : Host) (S : UThermoForgeHeatFXComponent) :
    (TickHeat M H S).1.OriginMode = S.OriginMode := by
  rcases TickHeat_cases M H S with h | ⟨W, Owner, hW, hO, hC, h⟩ | ⟨W, Owner, hW, hO, hC, h⟩
  · rw [h]
  · rw [h]
  · rw [h]
    simp only
    rw [TickHeat_Commit_state]
    rfl

/-- Every state reached from a fresh instance keeps the origin mode. -/
theorem TickHeatRun_OriginMode (M : FMath) (Cfg : UThermoForgeHeatFXComponent)
    (Hs : List Host) :
    (TickHeatRun M Hs (FreshInstance Cfg)).OriginMode = Cfg.OriginMode := by
  have hFresh : (FreshInstance Cfg).OriginMode = Cfg.OriginMode := rfl
  unfold TickHeatRun
  generalize FreshInstance Cfg = S0 at hFresh
  induction Hs generalizing S0 with
  | nil => exact hFresh
  | cons H Hs ih =>
    simp only [List.foldl_cons]
    exact ih _ ((TickHeat_OriginMode M H S0).trans hFresh)

/-- Every state reached from a fresh instance satisfies `OriginRecorded`. -/
theorem TickHeatRun_OriginRecorded (M : FMath) (Cfg : UThermoForgeHeatFXComponent)
    (Hs : List Host)
    (hLib : Cfg.OriginMode = EThermoOriginMode.NearestSourceActor →
      (∀ x y, x ≤ y → M.Sqrt x ≤ M.Sqrt y) ∧ M.Sqrt 1 = 1) :
    OriginRecorded (TickHeatRun M Hs (FreshInstance Cfg)) := by
  have hFresh : OriginRecorded (FreshInstance Cfg)
      ∧ (FreshInstance Cfg).OriginMode = Cfg.OriginMode := by
    refine ⟨fun h => ?_, rfl⟩
    simp [FreshInstance] at h
  unfold TickHeatRun
  generalize FreshInstance Cfg = S0 at hFresh
  suffices h : OriginRecorded (List.foldl (fun St H => (TickHeat M H St).1) S0 Hs)
      ∧ (List.foldl (fun St H => (TickHeat M H St).1) S0 Hs).OriginMode = Cfg.OriginMode from h.1
  induction Hs generalizing S0 with
  | nil => exact hFresh
  | cons H Hs ih =>
    simp only [List.foldl_cons]
    exact ih _ ⟨TickHeat_OriginRecorded M H S0 (fun h => hLib (hFresh.2 ▸ h)) hFresh.1,
      (TickHeat_OriginMode M H S0).trans hFresh.2⟩

/-- C15 (hasOrigin is never stale): after any sequence of `TickHeat` calls on
a fresh instance, whose origin mode stays the configured one, a further
`TickHeat` with valid context leaves `bHasOrigin` equal to the outcome of the
origin resolution of that call; for if a commit is recorded and the outcome
differs from the published flag, the distance or the strength is farther than
its tolerance from the cached value, so the call commits.  In nearest-source
mode, where the strength comes from one square root and the distance from
another, the square root is taken to be monotone and exact at 1. -/
theorem has_origin_never_stale (M : FMath) (Cfg : UThermoForgeHeatFXComponent)
    (Hs : List Host) (H : Host) (W : UWorld) (Owner : AActor)
    (hLib : Cfg.OriginMode = EThermoOriginMode.NearestSourceActor →
      (∀ x y, x ≤ y → M.Sqrt x ≤ M.Sqrt y) ∧ M.Sqrt 1 = 1)
    (hW : H.World = some W) (hO : H.Owner = some Owner) :
    (TickHeat M H (TickHeatRun M Hs (FreshInstance Cfg))).1.bHasOrigin
        = (TickHeat_Evaluate M H W Owner (TickHeatRun M Hs (FreshInstance Cfg))).bOriginOK
      ∧ (TickHeatRun M Hs (FreshInstance Cfg)).OriginMode = Cfg.OriginMode
      ∧ ((TickHeatRun M Hs (FreshInstance Cfg)).bHadInitialFire = true →
          (TickHeatRun M Hs (FreshInstance Cfg)).bHasOrigin
            ≠ (TickHeat_Evaluate M H W Owner (TickHeatRun M Hs (FreshInstance Cfg))).bOriginOK →
          (|(TickHeat_Evaluate M H W Owner (TickHeatRun M Hs (FreshInstance Cfg))).Dist
                - (TickHeatRun M Hs (FreshInstance Cfg)).PrevDistanceCm| > 1 / 2
              ∨ |(TickHeat_Evaluate M H W Owner (TickHeatRun M Hs (FreshInstance Cfg))).Strength
                - (TickHeatRun M Hs (FreshInstance Cfg)).PrevStrength| > 1 / 1000)
            ∧ TickHeat_bAnyChanged (TickHeatRun M Hs (FreshInstance Cfg))
                (TickHeat_Evaluate M H W Owner (TickHeatRun M Hs (FreshInstance Cfg))) = true) := by
  have hInv := TickHeatRun_OriginRecorded M Cfg Hs hLib
  have hMode := TickHeatRun_OriginMode M Cfg Hs
  have hLibS : (TickHeatRun M Hs (FreshInstance Cfg)).OriginMode
        = EThermoOriginMode.NearestSourceActor →
      (∀ x y, x ≤ y → M.Sqrt x ≤ M.Sqrt y) ∧ M.Sqrt 1 = 1 := fun h => hLib (hMode ▸ h)
  refine ⟨TickHeat_bHasOrigin M H _ W Owner hW hO hLibS hInv, hMode,
    fun hFired hNe => ⟨?_, ?_⟩⟩
  · rcases TickHeat_origin_transition M H _ W Owner hW hLibS hInv hFired hNe with h | h
    · exact Or.inl (lt_of_lt_of_le (by norm_num) h)
    · exact Or.inr (lt_of_lt_of_le (by norm_num) h)
  · exact TickHeat_origin_detected M H _ W Owner hW hLibS hInv hFired hNe

/-- What `TickHeat` computes in `EmptyHost` in nearest-source mode: no origin. -/
theorem Empty_Evaluate (S : UThermoForgeHeatFXComponent)
    (hMode : S.OriginMode = EThermoOriginMode.NearestSourceActor) :
    (TickHeat_Evaluate ExactMath EmptyHost EmptyWorld DemoOwner S).bOriginOK = false := by
  simp [TickHeat_Evaluate, TickHeat_ResolveOrigin, ResolveOrigin_NearestSource,
    NearestScan.step, EmptyWorld, DemoOwner, DemoPrimitive, hMode,
    AActor.FindComponentByClass]

/-- C15 on a fresh `DemoComponent` ticked once in `DemoHost`, where a source is
found, and then in `EmptyHost`, where none is left: the flag follows. -/
theorem has_origin_never_stale_witness :
    (TickHeat ExactMath EmptyHost
        (TickHeatRun ExactMath [DemoHost] (FreshInstance DemoComponent))).1.bHasOrigin = false := by
  have h := has_origin_never_stale ExactMath DemoComponent [DemoHost] EmptyHost EmptyWorld
    DemoOwner (fun _ => ⟨ExactMath_Sqrt_mono, ExactMath_Sqrt_one⟩) rfl rfl
  rw [h.1]
  exact Empty_Evaluate _ h.2.1

/-! ## Staleness and idempotence -/

/-- The locals of `TickHeat` depend on the component through its origin mode
and probe settings only. -/
theorem TickHeat_Evaluate_config (M : FMath) (H : Host) (W : UWorld) (Owner : AActor)
    (S S' : UThermoForgeHeatFXComponent) (hMode : S'.OriginMode = S.OriginMode)
    (hR : S'.ProbeRadiusCm = S.ProbeRadiusCm) (hN : S'.ProbeSamples = S.ProbeSamples) :
    TickHeat_Evaluate M H W Owner S' = TickHeat_Evaluate M H W Owner S := by
  simp only [TickHeat_Evaluate, TickHeat_ResolveOrigin, ResolveOrigin_Probe, hMode, hR, hN]

/-- Right after a commit of the locals `L`, the same locals show no change. -/
theorem TickHeat_bAnyChanged_after_commit (H : Host) (S : UThermoForgeHeatFXComponent)
    (L : TickLocals) : TickHeat_bAnyChanged (TickHeat_Commit H S L).1 L = false := by
  rw [TickHeat_Commit_state, TickHeat_bAnyChanged_eq_false]
  simp only [TickHeat_CachePrevious, TickHeat_Publish, sub_self, ToFloat_zero, abs_zero]
  norm_num [TF_EPS_TEMP, TF_EPS_DIR, TF_EPS_DIST, TF_EPS_STR]

/-- C17 (idempotence of reevaluation): with valid context and an unchanged
environment, a second `TickHeat` right after a first returns exactly the state
the first left and raises only field queries: no "updated", no "jump", no
export slot write. -/
theorem tick_idempotent (M : FMath) (H : Host) (S : UThermoForgeHeatFXComponent)
    (W : UWorld) (Owner : AActor) (hW : H.World = some W) (hO : H.Owner = some Owner) :
    (TickHeat M H (TickHeat M H S).1).1 = (TickHeat M H S).1
      ∧ ∀ e ∈ (TickHeat M H (TickHeat M H S).1).2,
          e.IsUpdated = false ∧ e.IsJump = false ∧ e.IsExport = false := by
  have hEv : TickHeat_Evaluate M H W Owner (TickHeat M H S).1
      = TickHeat_Evaluate M H W Owner S := by
    by_cases hC : TickHeat_bAnyChanged S (TickHeat_Evaluate M H W Owner S) = true
    · rw [TickHeat_changed M H S W Owner hW hO hC]
      simp only
      apply TickHeat_Evaluate_config <;> (rw [TickHeat_Commit_state]; rfl)
    · have hC' : TickHeat_bAnyChanged S (TickHeat_Evaluate M H W Owner S) = false := by
        simpa using hC
      rw [TickHeat_unchanged M H S W Owner hW hO hC']
  have hNo : TickHeat_bAnyChanged (TickHeat M H S).1
      (TickHeat_Evaluate M H W Owner (TickHeat M H S).1) = false := by
    rw [hEv]
    by_cases hC : TickHeat_bAnyChanged S (TickHeat_Evaluate M H W Owner S) = true
    · rw [TickHeat_changed M H S W Owner hW hO hC]
      exact TickHeat_bAnyChanged_after_commit H S _
    · have hC' : TickHeat_bAnyChanged S (TickHeat_Evaluate M H W Owner S) = false := by
        simpa using hC
      rw [TickHeat_unchanged M H S W Owner hW hO hC']
      exact hC'
  rw [TickHeat_unchanged M H (TickHeat M H S).1 W Owner hW hO hNo]
  refine ⟨rfl, fun e he => ?_⟩
  exact IsFieldQuery_exclusive e (TickHeat_Evaluate_log M H W Owner _ e he)

/-- C17 at the fresh `DemoComponent` in `DemoHost`: the first call commits,
the second changes nothing. -/
theorem tick_idempotent_witness :
    (TickHeat ExactMath DemoHost (TickHeat ExactMath DemoHost DemoComponent).1).1
      = (TickHeat ExactMath DemoHost DemoComponent).1 :=
  (tick_idempotent ExactMath DemoHost DemoComponent DemoWorld DemoOwner rfl rfl).1

/-! ## Probe tie-breaking -/

theorem ProbeBetter_trans (b : Bool) (x y z : ℚ) (h1 : ProbeBetter b x y)
    (h2 : ProbeBetter b y z) : ProbeBetter b x z := by
  cases b
  · simp only [ProbeBetter, Bool.false_eq_true, if_false] at *
    exact lt_trans h1 h2
  · simp only [ProbeBetter, if_true] at *
    exact lt_trans h2 h1

theorem ProbeBetter_of_not (b : Bool) (x y z : ℚ) (h1 : ProbeBetter b x y)
    (h2 : ¬ ProbeBetter b z y) : ProbeBetter b x z := by
  cases b
  · simp only [ProbeBetter, Bool.false_eq_true, if_false, not_lt] at *
    exact lt_of_lt_of_le h1 h2
  · simp only [ProbeBetter, if_true, gt_iff_lt, not_lt] at *
    exact lt_of_le_of_lt h2 h1

/-- One iteration of the probe loop, by the outcome of its test. -/
theorem ProbeScan_step_cases (M : FMath) (H : Host) (C : FVector) (b : Bool) (R : ℚ) (N : Int)
    (St : ProbeScan) (i : Nat) :
    (ProbeBetter b (SampleTempAt H (ProbePoint M C R N i)).1 St.BestTemp →
        (ProbeScan.step M H C b R N St i).BestTemp = (SampleTempAt H (ProbePoint M C R N i)).1
          ∧ (ProbeScan.step M H C b R N St i).BestPos = ProbePoint M C R N i)
      ∧ (¬ ProbeBetter b (SampleTempAt H (ProbePoint M C R N i)).1 St.BestTemp →
        (ProbeScan.step M H C b R N St i).BestTemp = St.BestTemp
          ∧ (ProbeScan.step M H C b R N St i).BestPos = St.BestPos) := by
  cases b
  · simp only [ProbeBetter, Bool.false_eq_true, if_false, ProbeScan.step]
    constructor
    · intro h
      simp [h]
    · intro h
      simp [h]
  · simp only [ProbeBetter, if_true, ProbeScan.step]
    constructor
    · intro h
      simp [h]
    · intro h
      simp [h]

/-- The probe loop either keeps its best, when no probe passes the test against
it, or ends on the first probe that no other probe beats. -/
theorem ProbeScan_foldl_first (M : FMath) (H : Host) (C : FVector) (b : Bool) (R : ℚ) (N : Int)
    (Is : List Nat) (St : ProbeScan) :
    ((Is.foldl (ProbeScan.step M H C b R N) St).BestPos = St.BestPos
        ∧ (Is.foldl (ProbeScan.step M H C b R N) St).BestTemp = St.BestTemp
        ∧ ∀ j ∈ Is, ¬ ProbeBetter b (SampleTempAt H (ProbePoint M C R N j)).1 St.BestTemp)
      ∨ ∃ pre i post, Is = pre ++ i :: post
          ∧ (Is.foldl (ProbeScan.step M H C b R N) St).BestPos = ProbePoint M C R N i
          ∧ (Is.foldl (ProbeScan.step M H C b R N) St).BestTemp
              = (SampleTempAt H (ProbePoint M C R N i)).1
          ∧ ProbeBetter b (SampleTempAt H (ProbePoint M C R N i)).1 St.BestTemp
          ∧ (∀ j ∈ pre, ProbeBetter b (SampleTempAt H (ProbePoint M C R N i)).1
              (SampleTempAt H (ProbePoint M C R N j)).1)
          ∧ ∀ j ∈ post, ¬ ProbeBetter b (SampleTempAt H (ProbePoint M C R N j)).1
              (SampleTempAt H (ProbePoint M C R N i)).1 := by
  induction Is generalizing St with
  | nil => exact Or.inl ⟨rfl, rfl, by simp⟩
  | cons k Is ih =>
    simp only [List.foldl_cons]
    obtain ⟨hYes, hNo⟩ := ProbeScan_step_cases M H C b R N St k
    by_cases hB : ProbeBetter b (SampleTempAt H (ProbePoint M C R N k)).1 St.BestTemp
    · obtain ⟨hT, hP⟩ := hYes hB
      rcases ih (ProbeScan.step M H C b R N St k)
        with ⟨e1, e2, e3⟩ | ⟨pre, i, post, hIs, e1, e2, e3, e4, e5⟩
      · rw [hT] at e2 e3
        rw [hP] at e1
        exact Or.inr ⟨[], k, Is, rfl, e1, e2, hB, by simp, e3⟩
      · rw [hT] at e3
        refine Or.inr ⟨k :: pre, i, post, by rw [hIs]; rfl, e1, e2,
          ProbeBetter_trans b _ _ _ e3 hB, ?_, e5⟩
        intro j hj
        rcases List.mem_cons.1 hj with h | h
        · rw [h]; exact e3
        · exact e4 j h
    · obtain ⟨hT, hP⟩ := hNo hB
      rcases ih (ProbeScan.step M H C b R N St k)
        with ⟨e1, e2, e3⟩ | ⟨pre, i, post, hIs, e1, e2, e3, e4, e5⟩
      · rw [hT] at e2 e3
        rw [hP] at e1
        refine Or.inl ⟨e1, e2, ?_⟩
        intro j hj
        rcases List.mem_cons.1 hj with h | h
        · rw [h]; exact hB
        · exact e3 j h
      · rw [hT] at e3
        refine Or.inr ⟨k :: pre, i, post, by rw [hIs]; rfl, e1, e2, e3, ?_, e5⟩
        intro j hj
        rcases List.mem_cons.1 hj with h | h
        · rw [h]; exact ProbeBetter_of_not b _ _ _ e3 hB
        · exact e4 j h

/-- A splitting of `List.range n` around `i` has the numbers below `i` in front. -/
theorem range_split (n i : Nat) (pre post : List Nat) (h : List.range n = pre ++ i :: post) :
    i < n ∧ (∀ j, j < i → j ∈ pre) ∧ (∀ j ∈ post, j < n) ∧ ∀ j ∈ pre, j < n := by
  have hi : i ∈ List.range n := by rw [h]; simp
  have hSorted : List.Pairwise (· < ·) (pre ++ i :: post) := by
    rw [← h]
    exact List.pairwise_lt_range n
  have hPost : ∀ j ∈ post, i < j := by
    have := (List.pairwise_append.1 hSorted).2.1
    exact (List.pairwise_cons.1 this).1
  refine ⟨List.mem_range.1 hi, ?_, ?_, ?_⟩
  · intro j hj
    have hjn : j ∈ List.range n := List.mem_range.2 (lt_trans hj (List.mem_range.1 hi))
    rw [h] at hjn
    rcases List.mem_append.1 hjn with hp | hp
    · exact hp
    · rcases List.mem_cons.1 hp with hp | hp
      · omega
      · have := hPost j hp
        omega
  · intro j hj
    exact List.mem_range.1 (by rw [h]; simp [hj])
  · intro j hj
    exact List.mem_range.1 (by rw [h]; simp [hj])

/-- The outcome of `ResolveOrigin_Probe` with a world present: the center
with strength 0 when no probe passes the test against the center, else the
probe of least index that no probe beats. -/
theorem ResolveOrigin_Probe_first (M : FMath) (H : Host) (S : UThermoForgeHeatFXComponent)
    (C : FVector) (b : Bool) (O : FVector) (Q : ℚ) (W : UWorld) (hW : H.World = some W) :
    ((∀ j, j < (FMath.Clamp S.ProbeSamples 4 64).toNat →
          ¬ ProbeBetter b (SampleTempAt H (ProbePoint M C (FMath.Max S.ProbeRadiusCm 10)
              (FMath.Clamp S.ProbeSamples 4 64) j)).1 (SampleTempAt H C).1) →
        (ResolveOrigin_Probe M H S C b O Q).1 = (true, C, 0))
      ∧ ((∃ j, j < (FMath.Clamp S.ProbeSamples 4 64).toNat
          ∧ ProbeBetter b (SampleTempAt H (ProbePoint M C (FMath.Max S.ProbeRadiusCm 10)
              (FMath.Clamp S.ProbeSamples 4 64) j)).1 (SampleTempAt H C).1) →
        ∃ i, i < (FMath.Clamp S.ProbeSamples 4 64).toNat
          ∧ (ResolveOrigin_Probe M H S C b O Q).1.2.1
              = ProbePoint M C (FMath.Max S.ProbeRadiusCm 10) (FMath.Clamp S.ProbeSamples 4 64) i
          ∧ ProbeBetter b (SampleTempAt H (ProbePoint M C (FMath.Max S.ProbeRadiusCm 10)
              (FMath.Clamp S.ProbeSamples 4 64) i)).1 (SampleTempAt H C).1
          ∧ (∀ j, j < i → ProbeBetter b
              (SampleTempAt H (ProbePoint M C (FMath.Max S.ProbeRadiusCm 10)
                (FMath.Clamp S.ProbeSamples 4 64) i)).1
              (SampleTempAt H (ProbePoint M C (FMath.Max S.ProbeRadiusCm 10)
                (FMath.Clamp S.ProbeSamples 4 64) j)).1)
          ∧ ∀ j, j < (FMath.Clamp S.ProbeSamples 4 64).toNat → ¬ ProbeBetter b
              (SampleTempAt H (ProbePoint M C (FMath.Max S.ProbeRadiusCm 10)
                (FMath.Clamp S.ProbeSamples 4 64) j)).1
              (SampleTempAt H (ProbePoint M C (FMath.Max S.ProbeRadiusCm 10)
                (FMath.Clamp S.ProbeSamples 4 64) i)).1) := by
  have hIrr : ∀ x : ℚ, ¬ ProbeBetter b x x := by
    intro x
    cases b <;> simp [ProbeBetter]
  have hRun : (ResolveOrigin_Probe M H S C b O Q).1
      = (true,
          ((List.range (FMath.Clamp S.ProbeSamples 4 64).toNat).foldl
            (ProbeScan.step M H C b (FMath.Max S.ProbeRadiusCm 10)
              (FMath.Clamp S.ProbeSamples 4 64))
            ⟨(SampleTempAt H C).1, C, (SampleTempAt H C).2⟩).BestPos,
          |((List.range (FMath.Clamp S.ProbeSamples 4 64).toNat).foldl
            (ProbeScan.step M H C b (FMath.Max S.ProbeRadiusCm 10)
              (FMath.Clamp S.ProbeSamples 4 64))
            ⟨(SampleTempAt H C).1, C, (SampleTempAt H C).2⟩).BestTemp - (SampleTempAt H C).1|) := by
    simp [ResolveOrigin_Probe, hW]
  rcases ProbeScan_foldl_first M H C b (FMath.Max S.ProbeRadiusCm 10)
      (FMath.Clamp S.ProbeSamples 4 64) (List.range (FMath.Clamp S.ProbeSamples 4 64).toNat)
      ⟨(SampleTempAt H C).1, C, (SampleTempAt H C).2⟩
    with ⟨e1, e2, e3⟩ | ⟨pre, i, post, hIs, e1, e2, e3, e4, e5⟩
  · constructor
    · intro _
      rw [hRun, e1, e2]
      simp
    · rintro ⟨j, hj, hB⟩
      exact absurd hB (e3 j (List.mem_range.2 hj))
  · obtain ⟨hi, hPre, hPostLt, hPreLt⟩ := range_split _ i pre post hIs
    constructor
    · intro hNone
      exact absurd e3 (hNone i hi)
    · intro _
      refine ⟨i, hi, by rw [hRun]; exact e1, e3, fun j hj => e4 j (hPre j hj), ?_⟩
      intro j hj
      have hjm : j ∈ pre ++ i :: post := by
        rw [← hIs]
        exact List.mem_range.2 hj
      rcases List.mem_append.1 hjm with h | h
      · intro hB
        exact hIrr _ (ProbeBetter_trans b _ _ _ hB (e4 j h))
      · rcases List.mem_cons.1 h with h | h
        · rw [h]; exact hIrr _
        · exact e5 j h

/-- C18 (probe tie-breaking): with a world present, if no probe is strictly
hotter (hottest search) respectively strictly colder (coldest search) than the
center, `ResolveOrigin_Probe` resolves the center itself with strength 0, and
`TickHeat` then computes an origin flag that is set, the direction zero and
the distance `Sqrt(0)` as a `float`, which is 0; otherwise the origin is the probe of least
index among those attaining the extreme temperature: it beats the center, is
strictly better than every earlier probe and no probe is better. -/
theorem probe_tie_breaking (M : FMath) (H : Host) (S : UThermoForgeHeatFXComponent)
    (C O : FVector) (Q : ℚ) (W : UWorld) (hW : H.World = some W) :
    ((∀ j, j < (FMath.Clamp S.ProbeSamples 4 64).toNat →
          (SampleTempAt H (ProbePoint M C (FMath.Max S.ProbeRadiusCm 10)
            (FMath.Clamp S.ProbeSamples 4 64) j)).1 ≤ (SampleTempAt H C).1) →
        (ResolveOrigin_Probe M H S C true O Q).1 = (true, C, 0))
      ∧ ((∃ j, j < (FMath.Clamp S.ProbeSamples 4 64).toNat
          ∧ (SampleTempAt H C).1 < (SampleTempAt H (ProbePoint M C (FMath.Max S.ProbeRadiusCm 10)
            (FMath.Clamp S.ProbeSamples 4 64) j)).1) →
        ∃ i, i < (FMath.Clamp S.ProbeSamples 4 64).toNat
          ∧ (ResolveOrigin_Probe M H S C true O Q).1.2.1
              = ProbePoint M C (FMath.Max S.ProbeRadiusCm 10) (FMath.Clamp S.ProbeSamples 4 64) i
          ∧ (SampleTempAt H C).1 < (SampleTempAt H (ProbePoint M C (FMath.Max S.ProbeRadiusCm 10)
              (FMath.Clamp S.ProbeSamples 4 64) i)).1
          ∧ (∀ j, j < i →
              (SampleTempAt H (ProbePoint M C (FMath.Max S.ProbeRadiusCm 10)
                (FMath.Clamp S.ProbeSamples 4 64) j)).1
              < (SampleTempAt H (ProbePoint M C (FMath.Max S.ProbeRadiusCm 10)
                (FMath.Clamp S.ProbeSamples 4 64) i)).1)
          ∧ ∀ j, j < (FMath.Clamp S.ProbeSamples 4 64).toNat →
              (SampleTempAt H (ProbePoint M C (FMath.Max S.ProbeRadiusCm 10)
                (FMath.Clamp S.ProbeSamples 4 64) j)).1
              ≤ (SampleTempAt H (ProbePoint M C (FMath.Max S.ProbeRadiusCm 10)
                (FMath.Clamp S.ProbeSamples 4 64) i)).1)
      ∧ ((∀ j, j < (FMath.Clamp S.ProbeSamples 4 64).toNat →
          (SampleTempAt H C).1 ≤ (SampleTempAt H (ProbePoint M C (FMath.Max S.ProbeRadiusCm 10)
            (FMath.Clamp S.ProbeSamples 4 64) j)).1) →
        (ResolveOrigin_Probe M H S C false O Q).1 = (true, C, 0))
      ∧ ((∃ j, j < (FMath.Clamp S.ProbeSamples 4 64).toNat
          ∧ (SampleTempAt H (ProbePoint M C (FMath.Max S.ProbeRadiusCm 10)
            (FMath.Clamp S.ProbeSamples 4 64) j)).1 < (SampleTempAt H C).1) →
        ∃ i, i < (FMath.Clamp S.ProbeSamples 4 64).toNat
          ∧ (ResolveOrigin_Probe M H S C false O Q).1.2.1
              = ProbePoint M C (FMath.Max S.ProbeRadiusCm 10) (FMath.Clamp S.ProbeSamples 4 64) i
          ∧ (SampleTempAt H (ProbePoint M C (FMath.Max S.ProbeRadiusCm 10)
              (FMath.Clamp S.ProbeSamples 4 64) i)).1 < (SampleTempAt H C).1
          ∧ (∀ j, j < i →
              (SampleTempAt H (ProbePoint M C (FMath.Max S.ProbeRadiusCm 10)
                (FMath.Clamp S.ProbeSamples 4 64) i)).1
              < (SampleTempAt H (ProbePoint M C (FMath.Max S.ProbeRadiusCm 10)
                (FMath.Clamp S.ProbeSamples 4 64) j)).1)
          ∧ ∀ j, j < (FMath.Clamp S.ProbeSamples 4 64).toNat →
              (SampleTempAt H (ProbePoint M C (FMath.Max S.ProbeRadiusCm 10)
                (FMath.Clamp S.ProbeSamples 4 64) i)).1
              ≤ (SampleTempAt H (ProbePoint M C (FMath.Max S.ProbeRadiusCm 10)
                (FMath.Clamp S.ProbeSamples 4 64) j)).1)
      ∧ ∀ Owner : AActor, Owner.Location = C →
          (S.OriginMode = EThermoOriginMode.HottestPoint
              ∧ (∀ j, j < (FMath.Clamp S.ProbeSamples 4 64).toNat →
                  (SampleTempAt H (ProbePoint M C (FMath.Max S.ProbeRadiusCm 10)
                    (FMath.Clamp S.ProbeSamples 4 64) j)).1 ≤ (SampleTempAt H C).1)
            ∨ S.OriginMode = EThermoOriginMode.ColdestPoint
              ∧ (∀ j, j < (FMath.Clamp S.ProbeSamples 4 64).toNat →
                  (SampleTempAt H C).1 ≤ (SampleTempAt H (ProbePoint M C
                    (FMath.Max S.ProbeRadiusCm 10) (FMath.Clamp S.ProbeSamples 4 64) j)).1)) →
          (TickHeat_Evaluate M H W Owner S).bOriginOK = true
            ∧ (TickHeat_Evaluate M H W Owner S).OriginWS = C
            ∧ (TickHeat_Evaluate M H W Owner S).Strength = 0
            ∧ (TickHeat_Evaluate M H W Owner S).Dir = FVector.ZeroVector
            ∧ (TickHeat_Evaluate M H W Owner S).Dist = ToFloat (M.Sqrt 0)
            ∧ (M.Sqrt 0 = 0 → (TickHeat_Evaluate M H W Owner S).Dist = 0) := by
  have hHot := ResolveOrigin_Probe_first M H S C true O Q W hW
  have hCold := ResolveOrigin_Probe_first M H S C false O Q W hW
  simp only [ProbeBetter, if_true, Bool.false_eq_true, if_false, gt_iff_lt, not_lt] at hHot hCold
  refine ⟨hHot.1, hHot.2, hCold.1, hCold.2, ?_⟩
  intro Owner hLoc hCase
  have hRes : (TickHeat_ResolveOrigin M H W Owner.Location S).1 = (true, C, 0) := by
    rcases hCase with ⟨hMode, hAll⟩ | ⟨hMode, hAll⟩
    · have := (ResolveOrigin_Probe_first M H S C true FVector.ZeroVector 0 W hW).1
      simp only [ProbeBetter, if_true, gt_iff_lt, not_lt] at this
      simp only [TickHeat_ResolveOrigin, hMode, hLoc]
      exact this hAll
    · have := (ResolveOrigin_Probe_first M H S C false FVector.ZeroVector 0 W hW).1
      simp only [ProbeBetter, Bool.false_eq_true, if_false, not_lt] at this
      simp only [TickHeat_ResolveOrigin, hMode, hLoc]
      exact this hAll
  have hOK : (TickHeat_Evaluate M H W Owner S).bOriginOK = true := by
    simp only [TickHeat_Evaluate, hRes]
  have hOrigin : (TickHeat_Evaluate M H W Owner S).OriginWS = C := by
    simp only [TickHeat_Evaluate, hRes]
  have hStr : (TickHeat_Evaluate M H W Owner S).Strength = 0 := by
    simp only [TickHeat_Evaluate, hRes]
  obtain ⟨hDir, hDist⟩ := TickHeat_Evaluate_derive M H W Owner S
  rw [hOK, hOrigin, hLoc] at hDir hDist
  simp only [if_true] at hDir hDist
  have hZero : FVector.DistSquared C C = 0 := by
    simp [FVector.DistSquared]
  have hD : (TickHeat_Evaluate M H W Owner S).Dist = ToFloat (M.Sqrt 0) := by
    rw [hDist, FVector.Distance, hZero]
  refine ⟨hOK, hOrigin, hStr, ?_, hD, fun h0 => by rw [hD, h0, ToFloat_zero]⟩
  rw [hDir]
  apply (GetSafeNormal_cases M (C.sub C)).2.1
  norm_num [FVector.sub, UE_SMALL_NUMBER]

/-- C18 in the uniform field of `UniformHost`, searching the hottest point:
no probe is hotter than the center, so the origin is the owner's position, the
strength 0, the direction zero and the distance 0. -/
theorem probe_tie_breaking_witness :
    (TickHeat_Evaluate ExactMath UniformHost ⟨some UniformField, [DemoOwner]⟩ DemoOwner
        { DemoComponent with OriginMode := EThermoOriginMode.HottestPoint }).bOriginOK = true
      ∧ (TickHeat_Evaluate ExactMath UniformHost ⟨some UniformField, [DemoOwner]⟩ DemoOwner
        { DemoComponent with OriginMode := EThermoOriginMode.HottestPoint }).OriginWS
          = ⟨0, 0, 0⟩
      ∧ (TickHeat_Evaluate ExactMath UniformHost ⟨some UniformField, [DemoOwner]⟩ DemoOwner
        { DemoComponent with OriginMode := EThermoOriginMode.HottestPoint }).Dist = 0 := by
  have h := (probe_tie_breaking ExactMath UniformHost
    { DemoComponent with OriginMode := EThermoOriginMode.HottestPoint } ⟨0, 0, 0⟩
    FVector.ZeroVector 0 ⟨some UniformField, [DemoOwner]⟩ rfl).2.2.2.2 DemoOwner rfl
    (Or.inl ⟨rfl, fun j _ => le_of_eq rfl⟩)
  exact ⟨h.1, h.2.1, h.2.2.2.2.2 ExactMath_Sqrt_zero⟩

/-! ## Range of the nearest-source strength -/

end ThermoForge
